import Mathlib

/-! b1cron: schedule parsing, script materialisation and task lifecycle.

A shallow embedding of `internal/scheduler/scheduler.go`,
`internal/service/script_service.go` and `internal/service/task_service.go`.

Go strings are modelled as lists of Unicode characters (`Str`); the byte length
`len(s)` is the UTF-8 length.  The database, the file system and the gocron
scheduler are explicit components of a `World` value that every operation
threads through; the outcome of each fallible external call is read from an
`Env` record.
-/

set_option autoImplicit false

namespace B1cron

/-! ## Strings (package `strings`, `unicode`) -/

/-- A Go string holding valid UTF-8 text, as its sequence of runes.  On such
text the byte-wise `strings.Contains` of an ASCII substring and the rune-wise
`strings.Fields` / `strings.TrimSpace` are functions of the rune sequence. -/
abbrev Str := List Char

/-- Go `len(s)`: the number of bytes of the UTF-8 encoding. -/
def len : Str → Nat
  | [] => 0
  | c :: cs => c.utf8Size + len cs

/-- Go `unicode.IsSpace`: the Unicode White_Space property. -/
def isSpace (c : Char) : Bool :=
  let n := c.toNat
  n == 0x09 || n == 0x0A || n == 0x0B || n == 0x0C || n == 0x0D || n == 0x20 ||
  n == 0x85 || n == 0xA0 || n == 0x1680 || (0x2000 ≤ n && n ≤ 0x200A) ||
  n == 0x2028 || n == 0x2029 || n == 0x202F || n == 0x205F || n == 0x3000

/-- The scanning loop of Go `strings.Fields`: `cur` is the field being read,
most recent rune first. -/
def fieldsLoop : Str → Str → List Str
  | [], cur => if cur.isEmpty then [] else [cur.reverse]
  | c :: cs, cur =>
    if isSpace c then
      if cur.isEmpty then fieldsLoop cs [] else cur.reverse :: fieldsLoop cs []
    else fieldsLoop cs (c :: cur)

/-- Go `strings.Fields`: split around each run of white space. -/
def Fields (s : Str) : List Str := fieldsLoop s []

/-- Go `strings.Join`. -/
def Join : List Str → Str → Str
  | [], _ => []
  | [a], _ => a
  | a :: b :: rest, sep => a ++ sep ++ Join (b :: rest) sep

/-- Go `strings.HasPrefix`. -/
def HasPrefix (s pre : Str) : Bool := pre.isPrefixOf s

/-- Go `strings.Contains`: `substr` occurs at some position of `s`. -/
def Contains : Str → Str → Bool
  | [], substr => substr.isEmpty
  | c :: cs, substr => substr.isPrefixOf (c :: cs) || Contains cs substr

/-- Go `strings.TrimSpace`: strip leading and trailing white space. -/
def TrimSpace (s : Str) : Str :=
  ((s.dropWhile isSpace).reverse.dropWhile isSpace).reverse

/-! ## Data model (`models.go`) -/

/-- An instant (`time.Time`), in nanoseconds. -/
abbrev Time := Int

/-- A `uuid.UUID`; `0` is `uuid.Nil`. -/
abbrev UUID := Nat

/-- The `models.Task` row.  The ORM-maintained `CreatedAt`, `UpdatedAt` and
`DeletedAt` columns are left out: a soft-deleted row is invisible to every query
of the service and is modelled as absent. -/
structure Task where
  ID : Nat
  Name : Str
  Command : Str
  ScriptType : Str
  ScriptPath : Str
  ScheduleSpec : Str
  ScheduleType : Str
  ExecuteAt : Option Time
  IsEnabled : Bool
  GocronJobID : UUID
  deriving DecidableEq, Repr

/-- The `models.TaskExecution` row. -/
structure TaskExecution where
  ID : Nat
  TaskID : Nat
  Status : Str
  StartedAt : Time
  CompletedAt : Option Time
  Duration : Int
  Output : Str
  ErrorMsg : Str
  deriving DecidableEq, Repr

/-- What is handed to gocron's `NewJob`: `OneTimeJob`, `DurationJob`, `CronJob`. -/
inductive JobDefinition where
  | OneTimeJob (startAt : Time)
  | DurationJob (duration : Int)
  | CronJob (crontab : Str) (withSeconds : Bool)
  deriving DecidableEq, Repr

/-- A live registration in the gocron scheduler: its id, its trigger and the
task struct that the callback closure of `createJob` points to. -/
structure Job where
  ID : UUID
  definition : JobDefinition
  task : Task
  deriving DecidableEq, Repr

/-- The errors of the three services, one constructor per `fmt.Errorf` site or
external failure; the wrapping `%w` sites carry the wrapped error. -/
inductive Err where
  | scriptEmpty
  | scriptTooLarge
  | scriptUnsafePath
  | invalidScriptContent (cause : Err)
  | executeAtRequired
  | executeAtMustBeFuture
  | createTaskInDatabase
  | mkdirAll
  | unsupportedScriptType (scriptType : Str)
  | writeFile
  | deleteFile
  | readFile
  | createScriptFile (cause : Err)
  | updateScriptFile (cause : Err)
  | executionTimePassed
  | invalidDurationFormat (spec : Str)
  | parseDuration
  | gocronNewJob
  | createJob (cause : Err)
  | removeJob (id : UUID)
  | scheduleTask (cause : Err)
  | scheduleUpdatedTask (cause : Err)
  | unscheduleTask (cause : Err)
  | updateTaskInDatabase
  | deleteTaskFromDatabase
  | getTask
  | findTasks
  deriving DecidableEq, Repr

deriving instance DecidableEq for Except

/-- The three resources the services act on: the Task and Execution stores,
the script directory, and the scheduler's registry of live triggers. -/
structure World where
  tasks : List Task
  nextTaskID : Nat
  executions : List TaskExecution
  nextExecutionID : Nat
  files : List (Str × Str)
  dirs : List Str
  jobs : List Job
  nextJobID : Nat
  deriving DecidableEq, Repr

/-- Everything the code reads from outside: library functions that are not part
of the repository, clock readings, and whether each fallible external call
fails. -/
structure Env where
  /-- `ScriptFileService.dataDir`. -/
  dataDir : Str
  /-- Go `filepath.Join` of two elements. -/
  filepathJoin : Str → Str → Str
  /-- Go `time.ParseDuration`; `none` is a parse error. -/
  ParseDuration : Str → Option Int
  /-- Whether gocron's `NewJob` accepts a job definition. -/
  gocronAccepts : JobDefinition → Bool
  /-- `time.Now()` in the validation of `CreateTaskFull` / `UpdateTaskFull`. -/
  nowValidate : Time
  /-- `time.Now()` in `createJob`. -/
  nowSchedule : Time
  /-- `time.Now().Format("2006-01-02 15:04:05")` in `generateScriptContent`. -/
  timestamp : Str
  /-- `time.Now()` at the start of `executeTask`. -/
  startTime : Time
  /-- `time.Now()` after the command of `executeTask` returned. -/
  completedAt : Time
  /-- `cmd.CombinedOutput()`: the combined output and the error text, if any. -/
  runCommand : Str → Str × Option Str
  mkdirAllFails : Str → Bool
  writeFileFails : Str → Bool
  removeFails : Str → Bool
  readFileFails : Str → Bool
  dbCreateFails : Bool
  dbSaveFails : Nat → Bool
  dbDeleteFails : Nat → Bool
  dbUpdateFails : Nat → Bool
  dbFirstFails : Nat → Bool
  dbFindFails : Bool
  execCreateFails : Bool
  execSaveFails : Bool

/-! ## The Task Store and Execution Store (GORM calls) -/

/-- The column defaults of the struct tags of `models.Task`
(`ScriptType` `default:'command'`, `ScheduleType` `default:'cron'`, `IsEnabled`
`default:true`), as the ORM applies them on `Create`: a field that holds the
zero value of its type is stored with the default, and the default is written
back to the struct.  The zero value of `IsEnabled` is `false`, so the flag is
`true` after `Create` whatever it was. -/
def withColumnDefaults (task : Task) : Task :=
  { task with
    ScriptType := if task.ScriptType = [] then "command".toList else task.ScriptType,
    ScheduleType := if task.ScheduleType = [] then "cron".toList else task.ScheduleType,
    IsEnabled := true }

/-- The call `database.GetDB().Create(task)`: insert with the column defaults and a fresh
primary key; both are written back to the struct. -/
def dbCreate (env : Env) (w : World) (task : Task) : Option Task × World :=
  if env.dbCreateFails then (none, w)
  else
    let task1 := { withColumnDefaults task with ID := w.nextTaskID + 1 }
    (some task1, { w with tasks := w.tasks ++ [task1], nextTaskID := w.nextTaskID + 1 })

/-- The call `database.GetDB().Save(task)`: write every column of the row with the
task's primary key, inserting the row when there is none.  Returns `true` on
error. -/
def dbSave (env : Env) (w : World) (task : Task) : Bool × World :=
  if env.dbSaveFails task.ID then (true, w)
  else if w.tasks.any (fun t => t.ID == task.ID) then
    (false, { w with tasks := w.tasks.map (fun t => if t.ID = task.ID then task else t) })
  else (false, { w with tasks := w.tasks ++ [task] })

/-- The call `database.GetDB().Delete(task)`: the row with the task's primary key
disappears from every query.  Returns `true` on error. -/
def dbDelete (env : Env) (w : World) (task : Task) : Bool × World :=
  if env.dbDeleteFails task.ID then (true, w)
  else (false, { w with tasks := w.tasks.filter (fun t => t.ID != task.ID) })

/-- The call `database.GetDB().Model(task).Update("is_enabled", v)`.  The ORM also
assigns the field of the struct behind `task`; no caller reads that struct's
flag again.  Returns `true` on error. -/
def dbUpdateIsEnabled (env : Env) (w : World) (task : Task) (v : Bool) : Bool × World :=
  if env.dbUpdateFails task.ID then (true, w)
  else
    let rows := w.tasks.map (fun t => if t.ID = task.ID then { t with IsEnabled := v } else t)
    (false, { w with tasks := rows })

/-- The call `database.GetDB().Model(&task).Update("gocron_job_id", id)`.  Returns
`true` on error. -/
def dbUpdateGocronJobID (env : Env) (w : World) (task : Task) (id : UUID) : Bool × World :=
  if env.dbUpdateFails task.ID then (true, w)
  else
    let rows := w.tasks.map (fun t => if t.ID = task.ID then { t with GocronJobID := id } else t)
    (false, { w with tasks := rows })

/-- The call `database.GetDB().First(&task, id)`. -/
def dbFirst (env : Env) (w : World) (id : Nat) : Option Task :=
  if env.dbFirstFails id then none else w.tasks.find? (fun t => t.ID == id)

/-- The call `database.GetDB().Where("is_enabled = ?", true).Find(&tasks)`. -/
def dbFindEnabled (env : Env) (w : World) : Option (List Task) :=
  if env.dbFindFails then none else some (w.tasks.filter (fun t => t.IsEnabled))

/-- The call `database.GetDB().Create(execution)`: on success the fresh primary key is
written back to the struct.  Returns `true` on error. -/
def execCreate (env : Env) (w : World) (e : TaskExecution) : Bool × TaskExecution × World :=
  if env.execCreateFails then (true, e, w)
  else
    let e1 := { e with ID := w.nextExecutionID + 1 }
    (false, e1, { w with executions := w.executions ++ [e1],
                         nextExecutionID := w.nextExecutionID + 1 })

/-- The call `database.GetDB().Save(execution)`: a struct without primary key is
inserted, otherwise its row is rewritten (inserted when missing).  Returns
`true` on error. -/
def execSave (env : Env) (w : World) (e : TaskExecution) : Bool × World :=
  if env.execSaveFails then (true, w)
  else if e.ID = 0 then
    (false, { w with executions := w.executions ++ [{ e with ID := w.nextExecutionID + 1 }],
                     nextExecutionID := w.nextExecutionID + 1 })
  else if w.executions.any (fun x => x.ID == e.ID) then
    (false, { w with executions := w.executions.map (fun x => if x.ID = e.ID then e else x) })
  else (false, { w with executions := w.executions ++ [e] })

/-! ## The script directory (`os` calls) -/

/-- The call `os.MkdirAll(dir, 0755)`.  Returns `true` on error. -/
def MkdirAll (env : Env) (w : World) (dir : Str) : Bool × World :=
  if env.mkdirAllFails dir then (true, w)
  else if dir ∈ w.dirs then (false, w)
  else (false, { w with dirs := w.dirs ++ [dir] })

/-- The call `os.WriteFile(path, content, 0755)`.  Returns `true` on error. -/
def WriteFile (env : Env) (w : World) (path content : Str) : Bool × World :=
  if env.writeFileFails path then (true, w)
  else (false, { w with files := (path, content) :: w.files.filter (fun f => f.1 != path) })

/-- The call `os.ReadFile(path)`. -/
def ReadFile (env : Env) (w : World) (path : Str) : Option Str :=
  if env.readFileFails path then none else w.files.lookup path

/-- The call `os.Remove(path)` together with the `!os.IsNotExist(err)` test of
`DeleteScriptFile`: removing a missing file is not an error.  Returns `true`
on any other error. -/
def Remove (env : Env) (w : World) (path : Str) : Bool × World :=
  if env.removeFails path then (true, w)
  else (false, { w with files := w.files.filter (fun f => f.1 != path) })

/-! ## The gocron scheduler -/

/-- The call `s.scheduler.NewJob(definition, gocron.NewTask(taskFunc))`, where `taskFunc`
runs `executeTask` on `task`: a rejected definition registers nothing, an
accepted one is registered under a fresh non-nil id. -/
def NewJob (env : Env) (w : World) (d : JobDefinition) (task : Task) : Except Err UUID × World :=
  if env.gocronAccepts d then
    (.ok (w.nextJobID + 1),
     { w with jobs := w.jobs ++ [{ ID := w.nextJobID + 1, definition := d, task := task }],
              nextJobID := w.nextJobID + 1 })
  else (.error .gocronNewJob, w)

/-- The call `s.scheduler.RemoveJob(id)`: a registered job is removed; an id that is
not registered is reported as an error (gocron's `ErrJobNotFound`), the only
error of the call.  Returns `true` on error. -/
def RemoveJob (w : World) (id : UUID) : Bool × World :=
  if w.jobs.any (fun j => j.ID == id) then
    (false, { w with jobs := w.jobs.filter (fun j => j.ID != id) })
  else (true, w)

/-- The callback closure of `createJob` holds the pointer `task`, so an
assignment to `*task` after registration is what the callback will see. -/
def setCaptured (w : World) (id : UUID) (task : Task) : World :=
  { w with jobs := w.jobs.map (fun j => if j.ID = id then { j with task := task } else j) }

/-! ## `scheduler.go`: schedule spec helpers -/

/-- `normalizeCronSpec` of `scheduler.go`. -/
def normalizeCronSpec (spec : Str) : Str :=
  let parts := Fields spec
  if parts.length == 6 then
    Join (parts.drop 1) " ".toList
  else if parts.length == 5 then
    spec
  else
    spec

/-- `parseDuration` of `scheduler.go`. -/
def parseDuration (env : Env) (spec : Str) : Except Err Int :=
  let parts := Fields spec
  if parts.length != 2 || parts.head? != some "@every".toList then
    .error (.invalidDurationFormat spec)
  else
    match env.ParseDuration (parts.getD 1 []) with
    | some d => .ok d
    | none => .error .parseDuration

/-- `createJob` of `scheduler.go`; the returned id is `job.ID()`. -/
def createJob (env : Env) (w : World) (task : Task) : Except Err UUID × World :=
  if task.ScheduleType = "once".toList then
    match task.ExecuteAt with
    | none => (.error .executeAtRequired, w)
    | some executeAt =>
      if executeAt < env.nowSchedule then
        (.error .executionTimePassed, (dbUpdateIsEnabled env w task false).2)
      else NewJob env w (.OneTimeJob executeAt) task
  else if HasPrefix task.ScheduleSpec "@every".toList then
    match parseDuration env task.ScheduleSpec with
    | .error e => (.error e, w)
    | .ok duration => NewJob env w (.DurationJob duration) task
  else
    NewJob env w (.CronJob (normalizeCronSpec task.ScheduleSpec) false) task

/-- `ScheduleTask` of `scheduler.go`. -/
def ScheduleTask (env : Env) (w : World) (task : Task) : Except Err UUID × World :=
  match createJob env w task with
  | (.error e, w1) => (.error (.createJob e), w1)
  | (.ok jobUUID, w1) => (.ok jobUUID, w1)

/-- `UnscheduleTask` of `scheduler.go`. -/
def UnscheduleTask (_env : Env) (w : World) (jobID : UUID) : Option Err × World :=
  match RemoveJob w jobID with
  | (true, w1) => (some (.removeJob jobID), w1)
  | (false, w1) => (none, w1)

/-- `executeTask` of `scheduler.go`, the callback of every registered trigger. -/
def executeTask (env : Env) (w : World) (task : Task) : World :=
  if task.Command = [] then w
  else
    let startTime := env.startTime
    let execution : TaskExecution :=
      { ID := 0, TaskID := task.ID, Status := "running".toList, StartedAt := startTime,
        CompletedAt := none, Duration := 0, Output := [], ErrorMsg := [] }
    let created := execCreate env w execution
    let execution := created.2.1
    let w1 := created.2.2
    let result := env.runCommand task.Command
    let completedAt := env.completedAt
    let duration := completedAt - startTime
    let execution :=
      { execution with CompletedAt := some completedAt,
                       Duration := Int.tdiv duration 1000000,
                       Output := result.1 }
    let execution :=
      match result.2 with
      | some msg => { execution with Status := "failed".toList, ErrorMsg := msg }
      | none => { execution with Status := "success".toList }
    let w2 := (execSave env w1 execution).2
    if task.ScheduleType = "once".toList then
      let w3 := (dbUpdateIsEnabled env w2 task false).2
      if task.GocronJobID ≠ 0 then (UnscheduleTask env w3 task.GocronJobID).2 else w3
    else w2

/-- The scheduler firing the trigger `id`: gocron runs the callback registered
for it, which is `executeTask` on the captured task. -/
def fire (env : Env) (w : World) (id : UUID) : World :=
  match w.jobs.find? (fun j => j.ID == id) with
  | some j => executeTask env w j.task
  | none => w

/-- One iteration of the loop of `loadExistingTasks`; every iteration has its
own `task` variable, which the callback closure keeps pointing to. -/
def loadExistingTask (env : Env) (w : World) (task : Task) : World :=
  match ScheduleTask env w task with
  | (.error _, w1) => w1
  | (.ok jobUUID, w1) =>
    let w2 := (dbUpdateGocronJobID env w1 task jobUUID).2
    setCaptured w2 jobUUID { task with GocronJobID := jobUUID }

/-- `loadExistingTasks` of `scheduler.go`. -/
def loadExistingTasks (env : Env) (w : World) : Option Err × World :=
  match dbFindEnabled env w with
  | none => (some .findTasks, w)
  | some tasks => (none, tasks.foldl (loadExistingTask env) w)

/-! ## `script_service.go` -/

/-- `hasScriptHeader` of `script_service.go`. -/
def hasScriptHeader (content : Str) : Bool :=
  Contains content "# B1Cron Task:".toList || Contains content "Task ID:".toList

/-- `getScriptExtension` of `script_service.go`; a missing map key gives `""`. -/
def getScriptExtension (scriptType : Str) : Str :=
  if scriptType = "shell".toList then "sh".toList
  else if scriptType = "python".toList then "py".toList
  else []

/-- `generateScriptContent` of `script_service.go`; `%d` prints the id in decimal. -/
def generateScriptContent (env : Env) (taskID : Nat) (taskName scriptType userContent : Str) :
    Str :=
  let timestamp := env.timestamp
  if scriptType = "shell".toList then
    ("#!/bin/bash\n# B1Cron Task: ".toList ++ taskName ++ "\n# Created: ".toList ++ timestamp ++
      "\n# Task ID: ".toList ++ Nat.toDigits 10 taskID ++ "\n\n".toList) ++ userContent
  else if scriptType = "python".toList then
    ("#!/usr/bin/env python3\n# -*- coding: utf-8 -*-\n# B1Cron Task: ".toList ++ taskName ++
      "\n# Created: ".toList ++ timestamp ++
      "\n# Task ID: ".toList ++ Nat.toDigits 10 taskID ++ "\n\n".toList) ++ userContent
  else userContent

/-- `generateExecCommand` of `script_service.go`. -/
def generateExecCommand (scriptType fullPath : Str) : Str :=
  if scriptType = "shell".toList then "/bin/bash ".toList ++ fullPath
  else if scriptType = "python".toList then "python3 ".toList ++ fullPath
  else fullPath

/-- `ValidateScriptContent` of `script_service.go`; `none` is the `nil` error. -/
def ValidateScriptContent (_scriptType content : Str) : Option Err :=
  if TrimSpace content = [] then some .scriptEmpty
  else if len content > 1024 * 1024 then some .scriptTooLarge
  else if Contains content "../".toList then some .scriptUnsafePath
  else none

/-- The part `CreateScriptFile` and `CreateScriptFileWithContent` share: make
the directory, name the file after the task id, write `fileContent`. -/
def writeScriptFile (env : Env) (w : World) (taskID : Nat) (scriptType fileContent : Str) :
    Except Err (Str × Str) × World :=
  let scriptDir := env.filepathJoin env.dataDir scriptType
  match MkdirAll env w scriptDir with
  | (true, w1) => (.error .mkdirAll, w1)
  | (false, w1) =>
    let ext := getScriptExtension scriptType
    if ext = [] then (.error (.unsupportedScriptType scriptType), w1)
    else
      let filename := "task_".toList ++ Nat.toDigits 10 taskID ++ ".".toList ++ ext
      let scriptPath := env.filepathJoin scriptType filename
      let fullPath := env.filepathJoin env.dataDir scriptPath
      match WriteFile env w1 fullPath fileContent with
      | (true, w2) => (.error .writeFile, w2)
      | (false, w2) => (.ok (scriptPath, generateExecCommand scriptType fullPath), w2)

/-- `CreateScriptFile` of `script_service.go`: returns the script path and the
command to execute. -/
def CreateScriptFile (env : Env) (w : World) (taskID : Nat)
    (taskName scriptType content : Str) : Except Err (Str × Str) × World :=
  if scriptType = "command".toList then (.ok ([], content), w)
  else
    writeScriptFile env w taskID scriptType
      (generateScriptContent env taskID taskName scriptType content)

/-- `CreateScriptFileWithContent` of `script_service.go`. -/
def CreateScriptFileWithContent (env : Env) (w : World) (taskID : Nat)
    (scriptType content : Str) : Except Err (Str × Str) × World :=
  if scriptType = "command".toList then (.ok ([], content), w)
  else writeScriptFile env w taskID scriptType content

/-- `DeleteScriptFile` of `script_service.go`. -/
def DeleteScriptFile (env : Env) (w : World) (scriptPath : Str) : Option Err × World :=
  if scriptPath = [] then (none, w)
  else
    let fullPath := env.filepathJoin env.dataDir scriptPath
    match Remove env w fullPath with
    | (true, w1) => (some .deleteFile, w1)
    | (false, w1) => (none, w1)

/-- `UpdateScriptFile` of `script_service.go`. -/
def UpdateScriptFile (env : Env) (w : World) (taskID : Nat)
    (taskName scriptType content oldScriptPath : Str) : Except Err (Str × Str) × World :=
  let w1 := if oldScriptPath ≠ [] then (DeleteScriptFile env w oldScriptPath).2 else w
  if hasScriptHeader content then CreateScriptFileWithContent env w1 taskID scriptType content
  else CreateScriptFile env w1 taskID taskName scriptType content

/-- `GetScriptContent` of `script_service.go`. -/
def GetScriptContent (env : Env) (w : World) (scriptPath : Str) : Except Err Str :=
  if scriptPath = [] then .ok []
  else
    let fullPath := env.filepathJoin env.dataDir scriptPath
    match ReadFile env w fullPath with
    | none => .error .readFile
    | some content => .ok content

/-! ## `task_service.go` -/

/-- The step `保存更新的任务信息` that ends `CreateTaskWithScript` and
`CreateTaskFull`: persist the row; on failure unschedule, delete the script
file and the row. -/
def persistCreated (env : Env) (w : World) (task : Task) (scriptPath : Str)
    (isEnabled : Bool) : Except Err Task × World :=
  match dbSave env w task with
  | (true, w1) =>
    let w2 := if isEnabled && task.GocronJobID ≠ 0
      then (UnscheduleTask env w1 task.GocronJobID).2 else w1
    let w3 := (DeleteScriptFile env w2 scriptPath).2
    (.error .updateTaskInDatabase, (dbDelete env w3 task).2)
  | (false, w1) => (.ok task, w1)

/-- The statements `CreateTaskWithScript` and `CreateTaskFull` have in common,
from the insertion of the freshly built `task` to the end: insert the row,
write the script, register the trigger if enabled, persist. -/
def createTail (env : Env) (w : World) (task : Task) (name command scriptType : Str)
    (isEnabled : Bool) : Except Err Task × World :=
  match dbCreate env w task with
  | (none, w1) => (.error .createTaskInDatabase, w1)
  | (some task, w1) =>
    match CreateScriptFile env w1 task.ID name scriptType command with
    | (.error e, w2) => (.error (.createScriptFile e), (dbDelete env w2 task).2)
    | (.ok (scriptPath, execCommand), w2) =>
      let task := { task with ScriptPath := scriptPath, Command := execCommand }
      if isEnabled then
        match ScheduleTask env w2 task with
        | (.error e, w3) =>
          let w4 := (DeleteScriptFile env w3 scriptPath).2
          (.error (.scheduleTask e), (dbDelete env w4 task).2)
        | (.ok jobUUID, w3) =>
          let task := { task with GocronJobID := jobUUID }
          persistCreated env (setCaptured w3 jobUUID task) task scriptPath isEnabled
      else persistCreated env w2 task scriptPath isEnabled

/-- The block `验证一次性任务的执行时间` of `CreateTaskFull` and `UpdateTaskFull`:
a one-shot task needs an `executeAt`, and `executeAt.Before(time.Now())` rejects
it; `none` lets the function continue. -/
def validateExecuteAt (env : Env) (scheduleType : Str) (executeAt : Option Time) : Option Err :=
  if scheduleType = "once".toList then
    match executeAt with
    | none => some .executeAtRequired
    | some t => if t < env.nowValidate then some .executeAtMustBeFuture else none
  else none

/-- `CreateTaskWithScript` of `task_service.go`. -/
def CreateTaskWithScript (env : Env) (w : World) (name command scriptType scheduleSpec : Str)
    (isEnabled : Bool) : Except Err Task × World :=
  match ValidateScriptContent scriptType command with
  | some e => (.error (.invalidScriptContent e), w)
  | none =>
    let task : Task :=
      { ID := 0, Name := name, Command := [], ScriptType := scriptType, ScriptPath := [],
        ScheduleSpec := scheduleSpec, ScheduleType := [], ExecuteAt := none,
        IsEnabled := isEnabled, GocronJobID := 0 }
    createTail env w task name command scriptType isEnabled

/-- `CreateTaskFull` of `task_service.go`. -/
def CreateTaskFull (env : Env) (w : World)
    (name command scriptType scheduleSpec scheduleType : Str) (executeAt : Option Time)
    (isEnabled : Bool) : Except Err Task × World :=
  match ValidateScriptContent scriptType command with
  | some e => (.error (.invalidScriptContent e), w)
  | none =>
    match validateExecuteAt env scheduleType executeAt with
    | some e => (.error e, w)
    | none =>
      let task : Task :=
        { ID := 0, Name := name, Command := [], ScriptType := scriptType, ScriptPath := [],
          ScheduleSpec := scheduleSpec, ScheduleType := scheduleType, ExecuteAt := executeAt,
          IsEnabled := isEnabled, GocronJobID := 0 }
      createTail env w task name command scriptType isEnabled

/-- `GetTaskByID` of `task_service.go`. -/
def GetTaskByID (env : Env) (w : World) (id : Nat) : Except Err Task :=
  match dbFirst env w id with
  | none => .error .getTask
  | some task => .ok task

/-- The step `保存到数据库` that ends `UpdateTaskWithScript` and
`UpdateTaskFull`: persist the row; on failure unschedule the new trigger. -/
def persistUpdated (env : Env) (w : World) (task : Task) (isEnabled : Bool) :
    Except Err Task × World :=
  match dbSave env w task with
  | (true, w1) =>
    let w2 := if isEnabled && task.GocronJobID ≠ 0
      then (UnscheduleTask env w1 task.GocronJobID).2 else w1
    (.error .updateTaskInDatabase, w2)
  | (false, w1) => (.ok task, w1)

/-- The statements `UpdateTaskWithScript` and `UpdateTaskFull` have in common
once the fields of `task` are assigned: register the trigger if enabled,
persist. -/
def updateTail (env : Env) (w : World) (task : Task) (isEnabled : Bool) :
    Except Err Task × World :=
  if isEnabled then
    match ScheduleTask env w task with
    | (.error e, w1) => (.error (.scheduleUpdatedTask e), w1)
    | (.ok jobUUID, w1) =>
      let task := { task with GocronJobID := jobUUID }
      persistUpdated env (setCaptured w1 jobUUID task) task isEnabled
  else persistUpdated env w task isEnabled

/-- The step `取消当前调度` of both update functions: unschedule the current
trigger, ignoring a failure, and clear the handle of the struct. -/
def unscheduleCurrent (env : Env) (w : World) (task : Task) : Task × World :=
  if task.GocronJobID ≠ 0 then
    ({ task with GocronJobID := 0 }, (UnscheduleTask env w task.GocronJobID).2)
  else (task, w)

/-- `UpdateTaskWithScript` of `task_service.go`. -/
def UpdateTaskWithScript (env : Env) (w : World) (id : Nat)
    (name command scriptType scheduleSpec : Str) (isEnabled : Bool) :
    Except Err Task × World :=
  match ValidateScriptContent scriptType command with
  | some e => (.error (.invalidScriptContent e), w)
  | none =>
    match GetTaskByID env w id with
    | .error e => (.error e, w)
    | .ok task =>
      let (task, w1) := unscheduleCurrent env w task
      let oldScriptPath := task.ScriptPath
      match UpdateScriptFile env w1 id name scriptType command oldScriptPath with
      | (.error e, w2) => (.error (.updateScriptFile e), w2)
      | (.ok (scriptPath, execCommand), w2) =>
        let task :=
          { task with Name := name, Command := execCommand, ScriptType := scriptType,
                      ScriptPath := scriptPath, ScheduleSpec := scheduleSpec,
                      IsEnabled := isEnabled }
        updateTail env w2 task isEnabled

/-- `UpdateTaskFull` of `task_service.go`. -/
def UpdateTaskFull (env : Env) (w : World) (id : Nat)
    (name command scriptType scheduleSpec scheduleType : Str) (executeAt : Option Time)
    (isEnabled : Bool) : Except Err Task × World :=
  match ValidateScriptContent scriptType command with
  | some e => (.error (.invalidScriptContent e), w)
  | none =>
    match validateExecuteAt env scheduleType executeAt with
    | some e => (.error e, w)
    | none =>
      match GetTaskByID env w id with
      | .error e => (.error e, w)
      | .ok task =>
        let (task, w1) := unscheduleCurrent env w task
        let oldScriptPath := task.ScriptPath
        match UpdateScriptFile env w1 id name scriptType command oldScriptPath with
        | (.error e, w2) => (.error (.updateScriptFile e), w2)
        | (.ok (scriptPath, execCommand), w2) =>
          let task :=
            { task with Name := name, Command := execCommand, ScriptType := scriptType,
                        ScriptPath := scriptPath, ScheduleSpec := scheduleSpec,
                        ScheduleType := scheduleType, ExecuteAt := executeAt,
                        IsEnabled := isEnabled }
          updateTail env w2 task isEnabled

/-- `DeleteTask` of `task_service.go`. -/
def DeleteTask (env : Env) (w : World) (id : Nat) : Option Err × World :=
  match GetTaskByID env w id with
  | .error e => (some e, w)
  | .ok task =>
    match (if task.GocronJobID ≠ 0 then UnscheduleTask env w task.GocronJobID else (none, w)) with
    | (some e, w1) => (some (.unscheduleTask e), w1)
    | (none, w1) =>
      let w2 := (DeleteScriptFile env w1 task.ScriptPath).2
      match dbDelete env w2 task with
      | (true, w3) => (some .deleteTaskFromDatabase, w3)
      | (false, w3) => (none, w3)

/-- `GetTaskScriptContent` of `task_service.go`. -/
def GetTaskScriptContent (env : Env) (w : World) (task : Task) : Str :=
  if task.ScriptType = "command".toList then task.Command
  else
    match GetScriptContent env w task.ScriptPath with
    | .error _ => []
    | .ok content => content

/-- `ToggleTask` of `task_service.go`. -/
def ToggleTask (env : Env) (w : World) (id : Nat) : Except Err Task × World :=
  match GetTaskByID env w id with
  | .error e => (.error e, w)
  | .ok task =>
    UpdateTaskWithScript env w id task.Name (GetTaskScriptContent env w task) task.ScriptType
      task.ScheduleSpec (!task.IsEnabled)

/-! ## Names used in the statements -/

/-- The relative path `CreateScriptFile` gives the script of task `taskID`:
`filepath.Join(scriptType, "task_<id>.<ext>")`. -/
def scriptPathOf (env : Env) (taskID : Nat) (scriptType : Str) : Str :=
  env.filepathJoin scriptType
    ("task_".toList ++ Nat.toDigits 10 taskID ++ ".".toList ++ getScriptExtension scriptType)

/-- The location of that script on disk: `filepath.Join(dataDir, scriptPath)`. -/
def fullPathOf (env : Env) (taskID : Nat) (scriptType : Str) : Str :=
  env.filepathJoin env.dataDir (scriptPathOf env taskID scriptType)

/-- The header `generateScriptContent` puts before a shell script: the format
string of the source with the task name, the timestamp and the task id filled
in. -/
def shellHeader (taskName timestamp : Str) (taskID : Nat) : Str :=
  "#!/bin/bash\n# B1Cron Task: ".toList ++ taskName ++ "\n# Created: ".toList ++ timestamp ++
    "\n# Task ID: ".toList ++ Nat.toDigits 10 taskID ++ "\n\n".toList

/-- The header `generateScriptContent` puts before a python script. -/
def pythonHeader (taskName timestamp : Str) (taskID : Nat) : Str :=
  "#!/usr/bin/env python3\n# -*- coding: utf-8 -*-\n# B1Cron Task: ".toList ++ taskName ++
    "\n# Created: ".toList ++ timestamp ++
    "\n# Task ID: ".toList ++ Nat.toDigits 10 taskID ++ "\n\n".toList

/-! ## Sample environment and world -/

/-- An environment in which no external call fails: paths are joined with a
slash, gocron accepts every definition, durations are whole seconds written
`<digit>s`, and every command prints `hi` and exits with status 0. -/
def sampleEnv : Env where
  dataDir := "data".toList
  filepathJoin := fun a b => a ++ "/".toList ++ b
  ParseDuration := fun s =>
    match s with
    | [d, 's'] => if d.isDigit then some ((d.toNat - 48 : Nat) * 1000000000) else none
    | _ => none
  gocronAccepts := fun _ => true
  nowValidate := 100
  nowSchedule := 100
  timestamp := "2024-05-01 10:00:00".toList
  startTime := 2000000000
  completedAt := 2750000000
  runCommand := fun _ => ("hi\n".toList, none)
  mkdirAllFails := fun _ => false
  writeFileFails := fun _ => false
  removeFails := fun _ => false
  readFileFails := fun _ => false
  dbCreateFails := false
  dbSaveFails := fun _ => false
  dbDeleteFails := fun _ => false
  dbUpdateFails := fun _ => false
  dbFirstFails := fun _ => false
  dbFindFails := false
  execCreateFails := false
  execSaveFails := false

/-- The world of a fresh installation: no rows, no files, no triggers. -/
def emptyWorld : World :=
  { tasks := [], nextTaskID := 0, executions := [], nextExecutionID := 0,
    files := [], dirs := [], jobs := [], nextJobID := 0 }

/-- An enabled inline-command task with the schedule spec `spec`. -/
def commandTask (spec : Str) : Task :=
  { ID := 1, Name := "ping".toList, Command := "echo hi".toList, ScriptType := "command".toList,
    ScriptPath := [], ScheduleSpec := spec, ScheduleType := "cron".toList, ExecuteAt := none,
    IsEnabled := true, GocronJobID := 0 }

/-- The world in which `sampleEnv` has created the inline-command task `ping`,
with id 1, passing enabled = false: the task has no trigger, and its row
carries the flag of the column default. -/
def worldWithPing : World :=
  (CreateTaskFull sampleEnv emptyWorld "ping".toList "echo hi".toList "command".toList
    "* * * * *".toList "cron".toList none false).2

/-- As `sampleEnv`, but gocron refuses an interval of zero, as its
`DurationJob` does. -/
def zeroIntervalEnv : Env := { sampleEnv with gocronAccepts := fun d => d != .DurationJob 0 }

/-- As `sampleEnv`, but gocron rejects every job definition: a forced
registration failure. -/
def rejectingEnv : Env := { sampleEnv with gocronAccepts := fun _ => false }

/-- As `rejectingEnv`, and in addition every `Delete` of a task row fails. -/
def rejectingEnvDeleteFails : Env := { rejectingEnv with dbDeleteFails := fun _ => true }

/-- As `rejectingEnv`, and in addition every `os.Remove` fails. -/
def rejectingEnvRemoveFails : Env := { rejectingEnv with removeFails := fun _ => true }

/-- The enabled one-shot inline-command task `once`, due at instant 500, as
`CreateTaskFull` returns and stores it in `emptyWorld`: id 1, handle 1. -/
def onceTask : Task :=
  { ID := 1, Name := "once".toList, Command := "echo hi".toList, ScriptType := "command".toList,
    ScriptPath := [], ScheduleSpec := [], ScheduleType := "once".toList, ExecuteAt := some 500,
    IsEnabled := true, GocronJobID := 1 }

/-- The world in which `sampleEnv` (clock at 100) has created `onceTask`. -/
def worldWithOnce : World :=
  (CreateTaskFull sampleEnv emptyWorld "once".toList "echo hi".toList "command".toList
    [] "once".toList (some 500) true).2

/-- The world in which `sampleEnv` has created the enabled shell task `job`
with the cron spec `* * * * *`: row 1, script `data/shell/task_1.sh`,
trigger 1. -/
def worldWithJob : World :=
  (CreateTaskFull sampleEnv emptyWorld "job".toList "echo hi".toList "shell".toList
    "* * * * *".toList "cron".toList none true).2

/-- The row of `job` in `worldWithJob`. -/
def jobTask : Task :=
  { ID := 1, Name := "job".toList, Command := "/bin/bash data/shell/task_1.sh".toList,
    ScriptType := "shell".toList, ScriptPath := "shell/task_1.sh".toList,
    ScheduleSpec := "* * * * *".toList, ScheduleType := "cron".toList, ExecuteAt := none,
    IsEnabled := true, GocronJobID := 1 }

/-- The content of `data/shell/task_1.sh` in `worldWithJob`. -/
def jobScript : Str :=
  "#!/bin/bash\n# B1Cron Task: job\n# Created: 2024-05-01 10:00:00\n# Task ID: 1\n\necho hi".toList

/-- As `sampleEnv`, but every `os.Remove` fails. -/
def removeFailsEnv : Env := { sampleEnv with removeFails := fun _ => true }

/-- As `sampleEnv`, but every `Save` of a task row fails. -/
def saveFailsEnv : Env := { sampleEnv with dbSaveFails := fun _ => true }

/-- As `saveFailsEnv`, and in addition every `os.Remove` fails. -/
def saveAndRemoveFailEnv : Env := { saveFailsEnv with removeFails := fun _ => true }

/-- As `sampleEnv`, but the `Create` of an execution record fails. -/
def execCreateFailsEnv : Env := { sampleEnv with execCreateFails := true }

/-- As `sampleEnv`, but the `Save` of an execution record fails. -/
def execSaveFailsEnv : Env := { sampleEnv with execSaveFails := true }

/-- The record `executeTask` builds at fire time, before it is first written. -/
def runningExecution (env : Env) (task : Task) : TaskExecution :=
  { ID := 0, TaskID := task.ID, Status := "running".toList, StartedAt := env.startTime,
    CompletedAt := none, Duration := 0, Output := [], ErrorMsg := [] }

/-- The world while the command of `executeTask` runs: the world after the
first write to the Execution Store. -/
def executeTaskRunning (env : Env) (w : World) (task : Task) : World :=
  (execCreate env w (runningExecution env task)).2.2

/-- The statements `UpdateTaskWithScript` and `UpdateTaskFull` have in common
from `取消当前调度` on, for the row `task0` that `GetTaskByID` returned;
`assign` stands for the field assignments, in which the two differ. -/
def updateFrom (env : Env) (w : World) (id : Nat) (name command scriptType : Str)
    (isEnabled : Bool) (task0 : Task) (assign : Task → Str → Str → Task) :
    Except Err Task × World :=
  let (task, w1) := unscheduleCurrent env w task0
  let oldScriptPath := task.ScriptPath
  match UpdateScriptFile env w1 id name scriptType command oldScriptPath with
  | (.error e, w2) => (.error (.updateScriptFile e), w2)
  | (.ok (scriptPath, execCommand), w2) =>
    updateTail env w2 (assign task scriptPath execCommand) isEnabled

/-- The field assignments of `UpdateTaskWithScript`. -/
def assignWithScript (name scriptType scheduleSpec : Str) (isEnabled : Bool)
    (task : Task) (scriptPath execCommand : Str) : Task :=
  { task with Name := name, Command := execCommand, ScriptType := scriptType,
              ScriptPath := scriptPath, ScheduleSpec := scheduleSpec,
              IsEnabled := isEnabled }

/-- The field assignments of `UpdateTaskFull`. -/
def assignFull (name scriptType scheduleSpec scheduleType : Str) (executeAt : Option Time)
    (isEnabled : Bool) (task : Task) (scriptPath execCommand : Str) : Task :=
  { task with Name := name, Command := execCommand, ScriptType := scriptType,
              ScriptPath := scriptPath, ScheduleSpec := scheduleSpec,
              ScheduleType := scheduleType, ExecuteAt := executeAt,
              IsEnabled := isEnabled }

/-- The row `task` and its script are as Create and Update leave them: an
inline command has no script path; a script task has the path and the command
that `CreateScriptFile` derives from the task id and the kind, and the file at
that path, if there is one, contains the header marker. -/
def materialized (env : Env) (w : World) (task : Task) : Bool :=
  if task.ScriptType = "command".toList then task.ScriptPath == []
  else
    task.ScriptPath == scriptPathOf env task.ID task.ScriptType &&
    task.Command ==
      generateExecCommand task.ScriptType (fullPathOf env task.ID task.ScriptType) &&
    (match w.files.lookup (fullPathOf env task.ID task.ScriptType) with
     | some content => hasScriptHeader content
     | none => true)

/-- As `sampleEnv`, but the clock of the scheduler reads 1000: the one-shot
task `once`, due at 500, is overdue. -/
def lateEnv : Env := { sampleEnv with nowSchedule := 1000 }

/-- As `lateEnv`, and in addition every `Update` of a column of a task row
fails. -/
def lateEnvUpdateFails : Env := { lateEnv with dbUpdateFails := fun _ => true }

/-- One read-back / update cycle on the script of task `taskID`, the way
`ToggleTask` runs it: `GetScriptContent` on the task's script path, then
`UpdateScriptFile` with what was read and that path as the old one.  A failed
read ends the cycle. -/
def readBackUpdate (env : Env) (taskID : Nat) (taskName scriptType : Str) (w : World) : World :=
  match GetScriptContent env w (scriptPathOf env taskID scriptType) with
  | .error _ => w
  | .ok content =>
    (UpdateScriptFile env w taskID taskName scriptType content
      (scriptPathOf env taskID scriptType)).2

/-- The row of the enabled shell task `name` with the cron spec `* * * * *`
that `sampleEnv` creates first in `emptyWorld`: id 1, handle 1. -/
def shellRow (name : Str) : Task :=
  { ID := 1, Name := name, Command := "/bin/bash data/shell/task_1.sh".toList,
    ScriptType := "shell".toList, ScriptPath := "shell/task_1.sh".toList,
    ScheduleSpec := "* * * * *".toList, ScheduleType := "cron".toList, ExecuteAt := none,
    IsEnabled := true, GocronJobID := 1 }

/-- The world after `sampleEnv` has created that task with the content `c` in
`emptyWorld`: its row, its script with the generated header, its trigger. -/
def shellWorld (name c : Str) : World :=
  { tasks := [shellRow name], nextTaskID := 1, executions := [], nextExecutionID := 0,
    files := [("data/shell/task_1.sh".toList,
      generateScriptContent sampleEnv 1 name "shell".toList c)],
    dirs := ["data/shell".toList],
    jobs := [Job.mk 1 (.CronJob "* * * * *".toList false) (shellRow name)], nextJobID := 1 }

/-- A script of exactly 1048576 bytes, the largest `ValidateScriptContent`
accepts. -/
def bigContent : Str := List.replicate 1048576 'a'

/-- A Task Store at startup, with a scheduler that holds no trigger yet: the
enabled task 1 (cron), the enabled task 2 whose interval spec does not parse,
the disabled task 3, and the enabled task 4 (cron). -/
def reloadWorld : World :=
  { emptyWorld with
    tasks := [commandTask "* * * * *".toList,
              { commandTask "@every x".toList with ID := 2 },
              { commandTask "* * * * *".toList with ID := 3, IsEnabled := false },
              { commandTask "0 3 * * *".toList with ID := 4 }],
    nextTaskID := 4 }

/-- As `sampleEnv`, but every `Update` of a column of a task row fails. -/
def updateFailsEnv : Env := { sampleEnv with dbUpdateFails := fun _ => true }

/-- The world after the trigger of `onceTask` has fired in `worldWithOnce`:
the trigger is gone, and the row is disabled but keeps the handle 1. -/
def firedOnceWorld : World := fire sampleEnv worldWithOnce 1

/-! ## Lemmas on the string functions -/

theorem Contains_iff_infix (s substr : Str) : Contains s substr = true ↔ substr <:+: s := by
  induction s with
  | nil =>
    simp [Contains, List.isEmpty_iff]
  | cons c cs ih =>
    simp only [Contains, Bool.or_eq_true, ih, List.isPrefixOf_iff_prefix]
    rw [List.infix_cons_iff]

theorem len_replicate (n : Nat) (c : Char) : len (List.replicate n c) = n * c.utf8Size := by
  induction n with
  | zero => simp [len]
  | succ k ih => simp [List.replicate_succ, len, ih]; ring

theorem dropWhile_eq_nil_iff_all (p : Char → Bool) (s : Str) :
    s.dropWhile p = [] ↔ ∀ c ∈ s, p c = true := by
  induction s with
  | nil => simp
  | cons a t ih =>
    by_cases h : p a = true
    · simp [List.dropWhile_cons, h, ih]
    · simp [List.dropWhile_cons, h]

theorem TrimSpace_eq_nil_iff (s : Str) : TrimSpace s = [] ↔ ∀ c ∈ s, isSpace c = true := by
  unfold TrimSpace
  rw [List.reverse_eq_nil_iff, dropWhile_eq_nil_iff_all]
  constructor
  · intro h c hc
    by_contra hns
    -- the first non-space rune of `s` survives `dropWhile`
    have hmem : ∃ x ∈ s.dropWhile isSpace, isSpace x ≠ true := by
      clear h
      induction s with
      | nil => simp at hc
      | cons a t ih =>
        by_cases ha : isSpace a = true
        · simp only [List.dropWhile_cons, ha, if_true]
          rcases List.mem_cons.1 hc with rfl | hct
          · exact absurd ha hns
          · exact ih hct
        · exact ⟨a, by simp [List.dropWhile_cons, ha], ha⟩
    obtain ⟨x, hx, hxs⟩ := hmem
    exact hxs (h x (List.mem_reverse.2 hx))
  · intro h c hc
    exact h c ((List.dropWhile_sublist _).subset (List.mem_reverse.1 hc))

/-! ## `Fields` and `Join` -/

theorem fieldsLoop_fields (s cur : Str) (hcur : ∀ c ∈ cur, isSpace c = false) :
    ∀ f ∈ fieldsLoop s cur, f ≠ [] ∧ ∀ c ∈ f, isSpace c = false := by
  induction s generalizing cur with
  | nil =>
    intro f hf
    unfold fieldsLoop at hf
    split at hf
    · simp at hf
    · next hne =>
      rw [List.mem_singleton] at hf
      subst hf
      refine ⟨?_, fun c hc => hcur c (List.mem_reverse.1 hc)⟩
      intro h
      exact hne (by simpa using h)
  | cons a t ih =>
    intro f hf
    unfold fieldsLoop at hf
    split at hf
    · split at hf
      · exact ih [] (by simp) f hf
      · next hne =>
        rcases List.mem_cons.1 hf with h | h
        · subst h
          refine ⟨?_, fun c hc => hcur c (List.mem_reverse.1 hc)⟩
          intro h
          exact hne (by simpa using h)
        · exact ih [] (by simp) f h
    · next hsp =>
      refine ih (a :: cur) ?_ f hf
      intro c hc
      rcases List.mem_cons.1 hc with h | h
      · subst h; simpa using hsp
      · exact hcur c h

/-- Every field returned by `Fields` is non-empty and free of white space. -/
theorem Fields_fields (s : Str) :
    ∀ f ∈ Fields s, f ≠ [] ∧ ∀ c ∈ f, isSpace c = false :=
  fieldsLoop_fields s [] (by simp)

theorem fieldsLoop_append (f rest cur : Str) (hf : ∀ c ∈ f, isSpace c = false) :
    fieldsLoop (f ++ rest) cur = fieldsLoop rest (f.reverse ++ cur) := by
  induction f generalizing cur with
  | nil => rfl
  | cons a t ih =>
    have ha : isSpace a = false := hf a (List.mem_cons_self _ _)
    rw [List.cons_append, fieldsLoop, if_neg (by simp [ha]),
      ih (a :: cur) (fun c hc => hf c (List.mem_cons_of_mem _ hc))]
    simp

/-- Splitting what `Join` built from white-space free, non-empty fields with
a single space gives the fields back. -/
theorem Fields_Join (fs : List Str) (h : ∀ f ∈ fs, f ≠ [] ∧ ∀ c ∈ f, isSpace c = false) :
    Fields (Join fs [' ']) = fs := by
  unfold Fields
  induction fs with
  | nil => rfl
  | cons a t ih =>
    obtain ⟨hne, hsp⟩ := h a (List.mem_cons_self _ _)
    have hrev : a.reverse.isEmpty = false := by
      cases a with
      | nil => exact absurd rfl hne
      | cons x xs => simp
    cases t with
    | nil =>
      have := fieldsLoop_append a [] [] hsp
      simp only [List.append_nil] at this
      rw [Join, this, fieldsLoop, hrev]
      simp
    | cons b rest =>
      have ih' := ih (fun f hf => h f (List.mem_cons_of_mem _ hf))
      rw [Join, List.append_assoc, fieldsLoop_append a _ [] hsp, List.append_nil]
      simp only [List.singleton_append]
      rw [fieldsLoop, if_pos (by decide), hrev]
      simp only [Bool.false_eq_true, if_false, List.reverse_reverse]
      rw [ih']

/-! ## Cron normalisation -/

/-- C1: a spec that splits into exactly six white-space separated fields is
normalised to its last five fields joined by single spaces, the first
(seconds) field being dropped, so that the result splits into exactly those
five fields; `"0 30 2 * * *"` becomes `"30 2 * * *"`. -/
theorem normalizeCronSpec_six_fields (spec : Str) (h : (Fields spec).length = 6) :
    normalizeCronSpec spec = Join ((Fields spec).drop 1) [' '] ∧
    ((Fields spec).drop 1).length = 5 ∧
    (∀ f0 f1 f2 f3 f4 f5 : Str, Fields spec = [f0, f1, f2, f3, f4, f5] →
      normalizeCronSpec spec = f1 ++ [' '] ++ (f2 ++ [' '] ++ (f3 ++ [' '] ++ (f4 ++ [' '] ++ f5)))) ∧
    Fields (normalizeCronSpec spec) = (Fields spec).drop 1 ∧
    normalizeCronSpec "0 30 2 * * *".toList = "30 2 * * *".toList := by
  have hn : normalizeCronSpec spec = Join ((Fields spec).drop 1) [' '] := by
    simp [normalizeCronSpec, h]
  refine ⟨hn, by simp [h], ?_, ?_, by decide⟩
  · intro f0 f1 f2 f3 f4 f5 hf
    rw [hn, hf]
    simp [Join]
  · rw [hn]
    exact Fields_Join _ (fun f hf => Fields_fields spec f (List.mem_of_mem_drop hf))

theorem normalizeCronSpec_six_fields_witness :
    (Fields "0  30 2 * *\t* ".toList).length = 6 ∧
    normalizeCronSpec "0  30 2 * *\t* ".toList = "30 2 * * *".toList :=
  ⟨by decide,
   (normalizeCronSpec_six_fields "0  30 2 * *\t* ".toList (by decide)).1.trans (by decide)⟩

/-- C2: a spec whose number of white-space separated fields is not six (five,
or any other count, zero included) is returned unchanged, white space and
all; the function is total and has no error result. -/
theorem normalizeCronSpec_not_six_fields (spec : Str) (h : (Fields spec).length ≠ 6) :
    normalizeCronSpec spec = spec := by
  simp [normalizeCronSpec, h]

theorem normalizeCronSpec_not_six_fields_witness :
    (Fields "  30 2  * * *\t".toList).length ≠ 6 ∧
    normalizeCronSpec "  30 2  * * *\t".toList = "  30 2  * * *\t".toList :=
  ⟨by decide, normalizeCronSpec_not_six_fields "  30 2  * * *\t".toList (by decide)⟩

/-! ## Interval specs -/

theorem parseDuration_ok_iff (env : Env) (spec : Str) (dur : Int) :
    parseDuration env spec = .ok dur ↔
      ∃ d, Fields spec = ["@every".toList, d] ∧ env.ParseDuration d = some dur := by
  unfold parseDuration
  rcases hf : Fields spec with _ | ⟨a, _ | ⟨b, _ | ⟨c, rest⟩⟩⟩
  · simp
  · simp
  · by_cases ha : a = "@every".toList
    · subst ha
      cases hp : env.ParseDuration b <;> simp [hp]
    · simp only [List.length_cons, List.length_nil, List.head?_cons, Option.some.injEq]
      constructor
      · intro h
        have ha1 : ¬ a = ['@', 'e', 'v', 'e', 'r', 'y'] := ha
        simp [ha1] at h
      · rintro ⟨d, hd, -⟩
        simp only [List.cons.injEq] at hd
        exact absurd hd.1 ha
  · simp

/-- C3, as stated, fails: the spec `@every 0s` splits into the two fields
`@every` and `0s`, and `0s` parses as the duration 0, but gocron refuses a
zero interval: `createJob` returns gocron's error and registers nothing. -/
theorem every_zero_interval_is_not_registered :
    (commandTask "@every 0s".toList).ScheduleType ≠ "once".toList ∧
    HasPrefix (commandTask "@every 0s".toList).ScheduleSpec "@every".toList = true ∧
    Fields (commandTask "@every 0s".toList).ScheduleSpec = ["@every".toList, "0s".toList] ∧
    zeroIntervalEnv.ParseDuration "0s".toList = some 0 ∧
    createJob zeroIntervalEnv emptyWorld (commandTask "@every 0s".toList) =
      (.error .gocronNewJob, emptyWorld) := by
  refine ⟨?_, ?_, ?_, ?_, ?_⟩ <;> decide

/-- C3, amended: for a task that is not one-shot and whose spec begins with
`@every`, `createJob` never builds a cron trigger.  It hands gocron a
`DurationJob` exactly when the spec splits into exactly two fields, the first
being `@every` and the second parsing as a duration, and the job has that
duration; the interval trigger is registered when gocron accepts the job, and
when gocron refuses it `createJob` returns gocron's error and registers
nothing.  In every other case (`@every`, `@every5s`, `@every 1s 2s`,
`@everyday 1h`, ...) it returns an error and registers nothing. -/
theorem createJob_every (env : Env) (w : World) (task : Task)
    (hKind : task.ScheduleType ≠ "once".toList)
    (hPrefix : HasPrefix task.ScheduleSpec "@every".toList = true) :
    (∀ d dur, Fields task.ScheduleSpec = ["@every".toList, d] → env.ParseDuration d = some dur →
      createJob env w task = NewJob env w (.DurationJob dur) task ∧
      (env.gocronAccepts (.DurationJob dur) = true →
        (createJob env w task).1 = .ok (w.nextJobID + 1) ∧
        (createJob env w task).2.jobs =
          w.jobs ++ [Job.mk (w.nextJobID + 1) (.DurationJob dur) task]) ∧
      (env.gocronAccepts (.DurationJob dur) = false →
        createJob env w task = (.error .gocronNewJob, w))) ∧
    ((¬ ∃ d dur, Fields task.ScheduleSpec = ["@every".toList, d] ∧
        env.ParseDuration d = some dur) →
      ∃ e, createJob env w task = (.error e, w)) ∧
    (∀ id w', createJob env w task = (.ok id, w') →
      ∃ d dur, Fields task.ScheduleSpec = ["@every".toList, d] ∧ env.ParseDuration d = some dur ∧
        env.gocronAccepts (.DurationJob dur) = true ∧
        id ≠ 0 ∧
        w' = { w with jobs := w.jobs ++ [{ ID := id, definition := .DurationJob dur, task := task }],
                      nextJobID := w.nextJobID + 1 }) ∧
    (∀ e w', createJob env w task = (.error e, w') → w' = w) ∧
    (task.ScheduleSpec ∈ ["@every".toList, "@every5s".toList, "@every 1s 2s".toList,
        "@everyday 1h".toList] →
      ∃ e, createJob env w task = (.error e, w)) := by
  have hcj : createJob env w task =
      match parseDuration env task.ScheduleSpec with
      | .error e => (.error e, w)
      | .ok duration => NewJob env w (.DurationJob duration) task := by
    unfold createJob
    rw [if_neg hKind, if_pos hPrefix]
  have hbad : (¬ ∃ d dur, Fields task.ScheduleSpec = ["@every".toList, d] ∧
        env.ParseDuration d = some dur) → ∃ e, createJob env w task = (.error e, w) := by
    intro hno
    rw [hcj]
    cases hp : parseDuration env task.ScheduleSpec with
    | error e => exact ⟨e, rfl⟩
    | ok dur =>
      obtain ⟨d, hd, hpd⟩ := (parseDuration_ok_iff env _ dur).1 hp
      exact absurd ⟨d, dur, hd, hpd⟩ hno
  refine ⟨?_, hbad, ?_, ?_, ?_⟩
  · intro d dur hf hp
    have hN : createJob env w task = NewJob env w (.DurationJob dur) task := by
      rw [hcj, (parseDuration_ok_iff env _ dur).2 ⟨d, hf, hp⟩]
    refine ⟨hN, ?_, ?_⟩
    · intro hacc
      rw [hN]
      unfold NewJob
      rw [hacc]
      exact ⟨rfl, rfl⟩
    · intro hacc
      rw [hN]
      unfold NewJob
      rw [hacc]
      rfl
  · intro id w' h
    rw [hcj] at h
    cases hp : parseDuration env task.ScheduleSpec with
    | error e => rw [hp] at h; simp at h
    | ok dur =>
      rw [hp] at h
      obtain ⟨d, hd, hpd⟩ := (parseDuration_ok_iff env _ dur).1 hp
      refine ⟨d, dur, hd, hpd, ?_⟩
      simp only [NewJob] at h
      by_cases hacc : env.gocronAccepts (.DurationJob dur) = true
      · simp only [hacc, if_true, Prod.mk.injEq, Except.ok.injEq] at h
        obtain ⟨hid, hw⟩ := h
        subst hid
        exact ⟨hacc, Nat.succ_ne_zero _, hw.symm⟩
      · simp [hacc] at h
  · intro e w' h
    rw [hcj] at h
    cases hp : parseDuration env task.ScheduleSpec with
    | error e0 =>
      rw [hp] at h
      simp only [Prod.mk.injEq] at h
      exact h.2.symm
    | ok dur =>
      rw [hp] at h
      simp only [NewJob] at h
      by_cases hacc : env.gocronAccepts (.DurationJob dur) = true
      · simp [hacc] at h
      · simp only [hacc, Bool.false_eq_true, if_false, Prod.mk.injEq] at h
        exact h.2.symm
  · intro hmem
    apply hbad
    rintro ⟨d, dur, hf, -⟩
    simp only [List.mem_cons, List.mem_singleton, List.not_mem_nil, or_false] at hmem
    have h2 : (Fields task.ScheduleSpec).length = 2 ∧
        (Fields task.ScheduleSpec).head? = some "@every".toList := by
      rw [hf]; exact ⟨rfl, rfl⟩
    rcases hmem with h | h | h | h <;> rw [h] at h2 <;> revert h2 <;> decide

theorem createJob_every_witness :
    (commandTask "@every 5s".toList).ScheduleType ≠ "once".toList ∧
    HasPrefix (commandTask "@every 5s".toList).ScheduleSpec "@every".toList = true ∧
    zeroIntervalEnv.gocronAccepts (.DurationJob 5000000000) = true ∧
    (createJob zeroIntervalEnv emptyWorld (commandTask "@every 5s".toList)).1 = .ok 1 ∧
    (createJob zeroIntervalEnv emptyWorld (commandTask "@every 5s".toList)).2.jobs =
      [Job.mk 1 (.DurationJob 5000000000) (commandTask "@every 5s".toList)] :=
  ⟨by decide, by decide, by decide,
   (((createJob_every zeroIntervalEnv emptyWorld (commandTask "@every 5s".toList) (by decide)
     (by decide)).1 "5s".toList 5000000000 (by decide) (by decide)).2.1 (by decide)).1,
   (((createJob_every zeroIntervalEnv emptyWorld (commandTask "@every 5s".toList) (by decide)
     (by decide)).1 "5s".toList 5000000000 (by decide) (by decide)).2.1 (by decide)).2⟩

/-! ## Script validation -/

/-- C4: `ValidateScriptContent` returns no error exactly when the content has a
rune that is not white space (it is not empty after trimming), its byte length
is at most 1048576, and `../` does not occur in it; the script kind plays no
part.  Content of exactly 1048576 bytes is accepted, one byte more is not. -/
theorem ValidateScriptContent_eq_none_iff (scriptType content : Str) :
    (ValidateScriptContent scriptType content = none ↔
      TrimSpace content ≠ [] ∧ len content ≤ 1048576 ∧ Contains content "../".toList = false) ∧
    (TrimSpace content ≠ [] ↔ ∃ c ∈ content, isSpace c = false) ∧
    (Contains content "../".toList = false ↔ ¬ "../".toList <:+: content) ∧
    (∀ otherType : Str,
      ValidateScriptContent otherType content = ValidateScriptContent scriptType content) ∧
    ValidateScriptContent scriptType (List.replicate 1048576 'a') = none ∧
    ValidateScriptContent scriptType (List.replicate 1048577 'a') = some .scriptTooLarge := by
  have hTrim : ∀ s : Str, TrimSpace s ≠ [] ↔ ∃ c ∈ s, isSpace c = false := by
    intro s
    rw [Ne, TrimSpace_eq_nil_iff]
    simp
  have hCont : ∀ s : Str, Contains s "../".toList = false ↔ ¬ "../".toList <:+: s := by
    intro s
    rw [← Contains_iff_infix]
    simp
  have hIff : ∀ (k s : Str), ValidateScriptContent k s = none ↔
      TrimSpace s ≠ [] ∧ len s ≤ 1048576 ∧ Contains s "../".toList = false := by
    intro k s
    unfold ValidateScriptContent
    by_cases h1 : TrimSpace s = []
    · simp [h1]
    · by_cases h2 : len s > 1024 * 1024
      · simp only [h1, h2, if_true, if_false]
        constructor
        · intro h; cases h
        · rintro ⟨_, h, _⟩; omega
      · have h2' : len s ≤ 1048576 := by omega
        cases h3 : Contains s "../".toList
        · simp only [h1, h2, if_false]
          exact ⟨fun _ => ⟨h1, h2', trivial⟩, fun _ => by simp⟩
        · simp only [h1, h2, if_false, if_true]
          constructor
          · intro h; cases h
          · rintro ⟨_, _, h⟩; cases h
  have hA : ∀ n : Nat, 0 < n → TrimSpace (List.replicate n 'a') ≠ [] := by
    intro n hn
    rw [hTrim]
    exact ⟨'a', by simp [List.mem_replicate]; omega, by decide⟩
  have hB : ∀ n : Nat, Contains (List.replicate n 'a') "../".toList = false := by
    intro n
    rw [hCont]
    intro hinf
    have hmem : '.' ∈ List.replicate n 'a' := hinf.subset (by decide)
    exact absurd (List.eq_of_mem_replicate hmem) (by decide)
  have hlen : ∀ n : Nat, len (List.replicate n 'a') = n := by
    intro n
    rw [len_replicate]
    have h1 : Char.utf8Size 'a' = 1 := by decide
    rw [h1, Nat.mul_one]
  refine ⟨hIff scriptType content, hTrim content, hCont content, fun _ => rfl, ?_, ?_⟩
  · rw [hIff]
    exact ⟨hA _ (by norm_num), by rw [hlen], hB _⟩
  · unfold ValidateScriptContent
    rw [if_neg (hA _ (by norm_num)), hlen, if_pos (by norm_num)]

/-! ## Validation in `CreateTaskFull` and `UpdateTaskFull` -/

/-- C5, as stated, fails: with the clock at 100, a one-shot task whose fire-at
is exactly 100 passes the check `executeAt.Before(time.Now())`, so
`CreateTaskFull` and `UpdateTaskFull` succeed (the row that Create returns has
the flag of the column default); and with empty content and a past fire-at the
error is the invalid-script one, not the schedule-in-past one. -/
theorem executeAt_eq_now_is_accepted :
    sampleEnv.nowValidate = 100 ∧
    (CreateTaskFull sampleEnv emptyWorld "ping".toList "echo hi".toList "command".toList
        [] "once".toList (some 100) false).1 =
      .ok { ID := 1, Name := "ping".toList, Command := "echo hi".toList,
            ScriptType := "command".toList, ScriptPath := [], ScheduleSpec := [],
            ScheduleType := "once".toList, ExecuteAt := some 100, IsEnabled := true,
            GocronJobID := 0 } ∧
    (UpdateTaskFull sampleEnv worldWithPing 1 "ping".toList "echo hi".toList "command".toList
        [] "once".toList (some 100) false).1 =
      .ok { ID := 1, Name := "ping".toList, Command := "echo hi".toList,
            ScriptType := "command".toList, ScriptPath := [], ScheduleSpec := [],
            ScheduleType := "once".toList, ExecuteAt := some 100, IsEnabled := false,
            GocronJobID := 0 } ∧
    (CreateTaskFull sampleEnv emptyWorld "ping".toList [] "command".toList
        [] "once".toList (some 50) false).1 = .error (.invalidScriptContent .scriptEmpty) := by
  refine ⟨rfl, ?_, ?_, ?_⟩ <;> decide

/-- C5, amended: for a one-shot task whose fire-at is strictly earlier than the
current time, `CreateTaskFull` and `UpdateTaskFull` fail and change nothing;
when the script content is valid the error is the schedule-in-past one
(`execute_at must be in the future`). -/
theorem past_executeAt_is_rejected (env : Env) (w : World) (id : Nat)
    (name command scriptType scheduleSpec : Str) (t : Time) (isEnabled : Bool)
    (hPast : t < env.nowValidate) :
    (∃ e, CreateTaskFull env w name command scriptType scheduleSpec "once".toList (some t)
        isEnabled = (.error e, w) ∧
      (ValidateScriptContent scriptType command = none → e = .executeAtMustBeFuture)) ∧
    (∃ e, UpdateTaskFull env w id name command scriptType scheduleSpec "once".toList (some t)
        isEnabled = (.error e, w) ∧
      (ValidateScriptContent scriptType command = none → e = .executeAtMustBeFuture)) := by
  have hv : validateExecuteAt env "once".toList (some t) = some .executeAtMustBeFuture := by
    simp [validateExecuteAt, hPast]
  constructor
  · unfold CreateTaskFull
    cases hc : ValidateScriptContent scriptType command with
    | some e => exact ⟨_, rfl, fun h => by cases h⟩
    | none => simp only [hv]; exact ⟨_, rfl, fun _ => rfl⟩
  · unfold UpdateTaskFull
    cases hc : ValidateScriptContent scriptType command with
    | some e => exact ⟨_, rfl, fun h => by cases h⟩
    | none => simp only [hv]; exact ⟨_, rfl, fun _ => rfl⟩

theorem past_executeAt_is_rejected_witness :
    (99 : Time) < sampleEnv.nowValidate ∧
    ∃ e, CreateTaskFull sampleEnv emptyWorld "ping".toList "echo hi".toList "command".toList
        [] "once".toList (some 99) true = (.error e, emptyWorld) ∧
      (ValidateScriptContent "command".toList "echo hi".toList = none →
        e = .executeAtMustBeFuture) :=
  ⟨by decide,
   (past_executeAt_is_rejected sampleEnv emptyWorld 1 "ping".toList "echo hi".toList
     "command".toList [] 99 true (by decide)).1⟩

/-- C6: when `CreateTaskFull` or `UpdateTaskFull` rejects its input at
validation (invalid script content, or a one-shot task whose fire-at is missing
or earlier than the current time), it returns an error and the world is the one
it was called in: same rows, same files, same registered triggers. -/
theorem validation_rejection_changes_nothing (env : Env) (w : World) (id : Nat)
    (name command scriptType scheduleSpec scheduleType : Str) (executeAt : Option Time)
    (isEnabled : Bool)
    (hReject : ValidateScriptContent scriptType command ≠ none ∨
      (scheduleType = "once".toList ∧
        (executeAt = none ∨ ∃ t, executeAt = some t ∧ t < env.nowValidate))) :
    (∃ e, CreateTaskFull env w name command scriptType scheduleSpec scheduleType executeAt
        isEnabled = (.error e, w)) ∧
    (∃ e, UpdateTaskFull env w id name command scriptType scheduleSpec scheduleType executeAt
        isEnabled = (.error e, w)) ∧
    (∀ r, r = CreateTaskFull env w name command scriptType scheduleSpec scheduleType executeAt
          isEnabled ∨
        r = UpdateTaskFull env w id name command scriptType scheduleSpec scheduleType executeAt
          isEnabled →
      r.2.tasks = w.tasks ∧ r.2.files = w.files ∧ r.2.dirs = w.dirs ∧ r.2.jobs = w.jobs) := by
  have hC : ∃ e, CreateTaskFull env w name command scriptType scheduleSpec scheduleType executeAt
      isEnabled = (.error e, w) := by
    unfold CreateTaskFull
    cases hc : ValidateScriptContent scriptType command with
    | some e => exact ⟨_, rfl⟩
    | none =>
      rcases hReject with h | ⟨hk, h⟩
      · exact absurd hc h
      · rcases h with h | ⟨t, h, ht⟩
        · simp [validateExecuteAt, hk, h]
        · simp [validateExecuteAt, hk, h, ht]
  have hU : ∃ e, UpdateTaskFull env w id name command scriptType scheduleSpec scheduleType
      executeAt isEnabled = (.error e, w) := by
    unfold UpdateTaskFull
    cases hc : ValidateScriptContent scriptType command with
    | some e => exact ⟨_, rfl⟩
    | none =>
      rcases hReject with h | ⟨hk, h⟩
      · exact absurd hc h
      · rcases h with h | ⟨t, h, ht⟩
        · simp [validateExecuteAt, hk, h]
        · simp [validateExecuteAt, hk, h, ht]
  refine ⟨hC, hU, ?_⟩
  obtain ⟨e1, h1⟩ := hC
  obtain ⟨e2, h2⟩ := hU
  rintro r (hr | hr)
  · rw [hr, h1]; exact ⟨rfl, rfl, rfl, rfl⟩
  · rw [hr, h2]; exact ⟨rfl, rfl, rfl, rfl⟩

theorem validation_rejection_changes_nothing_witness :
    (ValidateScriptContent "shell".toList "cat ../secret".toList ≠ none ∨
      ("cron".toList = "once".toList ∧
        ((none : Option Time) = none ∨
          ∃ t, (none : Option Time) = some t ∧ t < sampleEnv.nowValidate))) ∧
    ∃ e, UpdateTaskFull sampleEnv worldWithPing 1 "ping".toList "cat ../secret".toList
        "shell".toList "* * * * *".toList "cron".toList none true = (.error e, worldWithPing) :=
  ⟨Or.inl (by decide),
   (validation_rejection_changes_nothing sampleEnv worldWithPing 1 "ping".toList
     "cat ../secret".toList "shell".toList "* * * * *".toList "cron".toList none true
     (Or.inl (by decide))).2.1⟩

/-! ## Frame lemmas for the primitives -/

theorem filter_ne_map_same {α : Type} (l : List α) (key : α → Nat) (k : Nat) (f : α → α)
    (hf : ∀ x, key (f x) = key x) :
    (l.map (fun x => if key x = k then f x else x)).filter (fun x => key x != k) =
      l.filter (fun x => key x != k) := by
  induction l with
  | nil => rfl
  | cons a t ih =>
    by_cases h : key a = k
    · simp only [List.map_cons, h, if_true]
      rw [List.filter_cons_of_neg (by simp [hf, h]), List.filter_cons_of_neg (by simp [h])]
      simpa [h] using ih
    · simp only [List.map_cons, h, if_false]
      rw [List.filter_cons_of_pos (by simp [h]), List.filter_cons_of_pos (by simp [h])]
      rw [ih]

theorem lookup_filter_ne (l : List (Str × Str)) (p : Str) :
    (l.filter (fun f => f.1 != p)).lookup p = none := by
  induction l with
  | nil => rfl
  | cons a t ih =>
    by_cases h : a.1 = p
    · rw [List.filter_cons_of_neg (by simp [h])]; exact ih
    · rw [List.filter_cons_of_pos (by simp [h])]
      obtain ⟨k, v⟩ := a
      have hk : (p == k) = false := by
        simp only [beq_eq_false_iff_ne, ne_eq]
        exact fun hpk => h hpk.symm
      simp only [List.lookup, hk]
      exact ih

theorem filter_filter_same {α : Type} (l : List α) (q : α → Bool) :
    (l.filter q).filter q = l.filter q := by
  simp [List.filter_filter]

theorem createJob_frame (env : Env) (w : World) (task : Task) :
    (createJob env w task).2.files = w.files ∧
    (createJob env w task).2.dirs = w.dirs ∧
    (createJob env w task).2.nextTaskID = w.nextTaskID ∧
    (createJob env w task).2.tasks.filter (fun t => t.ID != task.ID) =
      w.tasks.filter (fun t => t.ID != task.ID) := by
  have hNew : ∀ d, (NewJob env w d task).2.files = w.files ∧
      (NewJob env w d task).2.dirs = w.dirs ∧
      (NewJob env w d task).2.nextTaskID = w.nextTaskID ∧
      (NewJob env w d task).2.tasks.filter (fun t => t.ID != task.ID) =
        w.tasks.filter (fun t => t.ID != task.ID) := by
    intro d
    unfold NewJob
    split <;> exact ⟨rfl, rfl, rfl, rfl⟩
  unfold createJob
  split
  · split
    · exact ⟨rfl, rfl, rfl, rfl⟩
    · split
      · unfold dbUpdateIsEnabled
        split
        · exact ⟨rfl, rfl, rfl, rfl⟩
        · refine ⟨rfl, rfl, rfl, ?_⟩
          exact filter_ne_map_same w.tasks (fun t => t.ID) task.ID
            (fun t => { t with IsEnabled := false }) (fun _ => rfl)
      · exact hNew _
  · split
    · split
      · exact ⟨rfl, rfl, rfl, rfl⟩
      · exact hNew _
    · exact hNew _

theorem ScheduleTask_frame (env : Env) (w : World) (task : Task) :
    (ScheduleTask env w task).2.files = w.files ∧
    (ScheduleTask env w task).2.dirs = w.dirs ∧
    (ScheduleTask env w task).2.nextTaskID = w.nextTaskID ∧
    (ScheduleTask env w task).2.tasks.filter (fun t => t.ID != task.ID) =
      w.tasks.filter (fun t => t.ID != task.ID) := by
  have h := createJob_frame env w task
  unfold ScheduleTask
  split
  · next e w1 heq => rw [heq] at h; exact h
  · next id w1 heq => rw [heq] at h; exact h

theorem createJob_ok (env : Env) (w : World) (task : Task) (id : UUID) (w1 : World)
    (h : createJob env w task = (.ok id, w1)) :
    id = w.nextJobID + 1 ∧ ∃ d, w1 = { w with
      jobs := w.jobs ++ [{ ID := id, definition := d, task := task }],
      nextJobID := w.nextJobID + 1 } := by
  have hNew : ∀ d, NewJob env w d task = (.ok id, w1) →
      id = w.nextJobID + 1 ∧ ∃ d, w1 = { w with
        jobs := w.jobs ++ [{ ID := id, definition := d, task := task }],
        nextJobID := w.nextJobID + 1 } := by
    intro d hd
    unfold NewJob at hd
    split at hd
    · simp only [Prod.mk.injEq, Except.ok.injEq] at hd
      obtain ⟨hid, hw⟩ := hd
      subst hid
      exact ⟨rfl, d, hw.symm⟩
    · simp at hd
  unfold createJob at h
  split at h
  · split at h
    · simp at h
    · split at h
      · simp at h
      · exact hNew _ h
  · split at h
    · split at h
      · simp at h
      · exact hNew _ h
    · exact hNew _ h

theorem ScheduleTask_ok (env : Env) (w : World) (task : Task) (id : UUID) (w1 : World)
    (h : ScheduleTask env w task = (.ok id, w1)) :
    id = w.nextJobID + 1 ∧ ∃ d, w1 = { w with
      jobs := w.jobs ++ [{ ID := id, definition := d, task := task }],
      nextJobID := w.nextJobID + 1 } := by
  unfold ScheduleTask at h
  split at h
  · simp at h
  · next id1 w2 heq =>
    simp only [Prod.mk.injEq, Except.ok.injEq] at h
    obtain ⟨h1, h2⟩ := h
    subst h1; subst h2
    exact createJob_ok env w task _ _ heq

theorem MkdirAll_frame (env : Env) (w : World) (dir : Str) :
    (MkdirAll env w dir).2.files = w.files ∧ (MkdirAll env w dir).2.tasks = w.tasks ∧
    (MkdirAll env w dir).2.jobs = w.jobs ∧ (MkdirAll env w dir).2.nextTaskID = w.nextTaskID ∧
    (MkdirAll env w dir).2.nextJobID = w.nextJobID := by
  unfold MkdirAll
  split
  · exact ⟨rfl, rfl, rfl, rfl, rfl⟩
  · split <;> exact ⟨rfl, rfl, rfl, rfl, rfl⟩

theorem WriteFile_ok (env : Env) (w : World) (path content : Str) (w1 : World)
    (h : WriteFile env w path content = (false, w1)) :
    w1.files = (path, content) :: w.files.filter (fun f => f.1 != path) ∧ w1.tasks = w.tasks ∧
    w1.jobs = w.jobs ∧ w1.nextTaskID = w.nextTaskID ∧ w1.nextJobID = w.nextJobID := by
  unfold WriteFile at h
  split at h
  · simp at h
  · simp only [Prod.mk.injEq, true_and] at h
    subst h
    exact ⟨rfl, rfl, rfl, rfl, rfl⟩

theorem writeScriptFile_ok (env : Env) (w : World) (taskID : Nat) (scriptType fileContent : Str)
    (scriptPath execCommand : Str) (w1 : World)
    (h : writeScriptFile env w taskID scriptType fileContent = (.ok (scriptPath, execCommand), w1)) :
    scriptPath = scriptPathOf env taskID scriptType ∧
    execCommand = generateExecCommand scriptType (fullPathOf env taskID scriptType) ∧
    getScriptExtension scriptType ≠ [] ∧
    w1.files = (fullPathOf env taskID scriptType, fileContent) ::
      w.files.filter (fun f => f.1 != fullPathOf env taskID scriptType) ∧
    w1.tasks = w.tasks ∧ w1.jobs = w.jobs ∧ w1.nextTaskID = w.nextTaskID ∧
    w1.nextJobID = w.nextJobID := by
  unfold writeScriptFile at h
  simp only [] at h
  have hmk := MkdirAll_frame env w (env.filepathJoin env.dataDir scriptType)
  generalize MkdirAll env w (env.filepathJoin env.dataDir scriptType) = r at h hmk
  obtain ⟨b, w0⟩ := r
  obtain ⟨hf, ht, hj, hn, hnj⟩ := hmk
  simp only at hf ht hj hn hnj
  cases b
  · simp only at h
    split at h
    · simp at h
    · next hext =>
      generalize hwf : WriteFile env w0 _ fileContent = r2 at h
      obtain ⟨b2, w2⟩ := r2
      cases b2
      · simp only [Prod.mk.injEq, Except.ok.injEq] at h
        obtain ⟨⟨h1, h2⟩, h3⟩ := h
        subst h1; subst h2; subst h3
        obtain ⟨g1, g2, g3, g4, g5⟩ := WriteFile_ok _ _ _ _ _ hwf
        refine ⟨rfl, rfl, hext, ?_, g2.trans ht, g3.trans hj, g4.trans hn, g5.trans hnj⟩
        rw [g1, hf]; rfl
      · simp at h
  · simp at h

theorem CreateScriptFile_ok (env : Env) (w : World) (taskID : Nat)
    (taskName scriptType content scriptPath execCommand : Str) (w1 : World)
    (h : CreateScriptFile env w taskID taskName scriptType content =
      (.ok (scriptPath, execCommand), w1)) :
    w1.tasks = w.tasks ∧ w1.jobs = w.jobs ∧ w1.nextTaskID = w.nextTaskID ∧
    w1.nextJobID = w.nextJobID ∧
    (scriptType = "command".toList → scriptPath = [] ∧ execCommand = content ∧ w1 = w) ∧
    (scriptType ≠ "command".toList →
      scriptPath = scriptPathOf env taskID scriptType ∧
      execCommand = generateExecCommand scriptType (fullPathOf env taskID scriptType) ∧
      getScriptExtension scriptType ≠ [] ∧
      w1.files = (fullPathOf env taskID scriptType,
          generateScriptContent env taskID taskName scriptType content) ::
        w.files.filter (fun f => f.1 != fullPathOf env taskID scriptType)) := by
  unfold CreateScriptFile at h
  split at h
  · next hc =>
    simp only [Prod.mk.injEq, Except.ok.injEq] at h
    obtain ⟨⟨h1, h2⟩, h3⟩ := h
    subst h1; subst h2; subst h3
    exact ⟨rfl, rfl, rfl, rfl, fun _ => ⟨rfl, rfl, rfl⟩, fun hn => absurd hc hn⟩
  · next hc =>
    obtain ⟨h1, h2, h3, h4, h5, h6, h7, h8⟩ := writeScriptFile_ok _ _ _ _ _ _ _ _ h
    exact ⟨h5, h6, h7, h8, fun hn => absurd hn hc, fun _ => ⟨h1, h2, h3, h4⟩⟩

theorem DeleteScriptFile_frame (env : Env) (w : World) (scriptPath : Str) :
    (DeleteScriptFile env w scriptPath).2.tasks = w.tasks ∧
    (DeleteScriptFile env w scriptPath).2.jobs = w.jobs ∧
    (DeleteScriptFile env w scriptPath).2.nextTaskID = w.nextTaskID ∧
    (scriptPath = [] → (DeleteScriptFile env w scriptPath).2 = w) ∧
    (scriptPath ≠ [] → env.removeFails (env.filepathJoin env.dataDir scriptPath) = false →
      (DeleteScriptFile env w scriptPath).2.files =
        w.files.filter (fun f => f.1 != env.filepathJoin env.dataDir scriptPath)) := by
  unfold DeleteScriptFile Remove
  by_cases hp : scriptPath = []
  · simp [hp]
  · by_cases hr : env.removeFails (env.filepathJoin env.dataDir scriptPath) = true
    · simp [hp, hr]
    · simp [hp, hr]

theorem persistCreated_error (env : Env) (w : World) (task : Task) (scriptPath : Str)
    (isEnabled : Bool) (e : Err) (w1 : World)
    (h : persistCreated env w task scriptPath isEnabled = (.error e, w1)) :
    e = .updateTaskInDatabase := by
  unfold persistCreated at h
  split at h
  · simp only [Prod.mk.injEq, Except.error.injEq] at h
    exact h.1.symm
  · simp at h

theorem persistCreated_ok (env : Env) (w : World) (task : Task) (scriptPath : Str)
    (isEnabled : Bool) (t : Task) (w1 : World)
    (h : persistCreated env w task scriptPath isEnabled = (.ok t, w1)) :
    t = task ∧ w1.jobs = w.jobs ∧ w1.files = w.files ∧
    w1.tasks = (dbSave env w task).2.tasks ∧ (dbSave env w task).1 = false := by
  unfold persistCreated at h
  split at h
  · simp at h
  · next w2 hs =>
    simp only [Prod.mk.injEq, Except.ok.injEq] at h
    obtain ⟨h1, h2⟩ := h
    subst h1; subst h2
    have hj : w2.jobs = w.jobs ∧ w2.files = w.files := by
      unfold dbSave at hs
      split at hs
      · simp at hs
      · split at hs <;>
        · simp only [Prod.mk.injEq, true_and] at hs
          subst hs; exact ⟨rfl, rfl⟩
    rw [hs]
    exact ⟨rfl, hj.1, hj.2, rfl, rfl⟩

theorem dbCreate_some (env : Env) (w : World) (task task1 : Task) (w1 : World)
    (h : dbCreate env w task = (some task1, w1)) :
    task1 = { withColumnDefaults task with ID := w.nextTaskID + 1 } ∧
    w1 = { w with tasks := w.tasks ++ [task1], nextTaskID := w.nextTaskID + 1 } := by
  unfold dbCreate at h
  split at h
  · simp at h
  · simp only [Prod.mk.injEq, Option.some.injEq] at h
    obtain ⟨h1, h2⟩ := h
    subst h1
    exact ⟨rfl, h2.symm⟩

theorem dbDelete_tasks (env : Env) (w : World) (task : Task)
    (h : env.dbDeleteFails task.ID = false) :
    (dbDelete env w task).2.tasks = w.tasks.filter (fun t => t.ID != task.ID) ∧
    (dbDelete env w task).2.files = w.files ∧ (dbDelete env w task).2.jobs = w.jobs := by
  simp [dbDelete, h]

theorem dbDelete_files (env : Env) (w : World) (task : Task) :
    (dbDelete env w task).2.files = w.files := by
  unfold dbDelete
  split <;> rfl

/-- What `createTail` leaves behind when it reports a registration failure:
no row of the attempt when the deletion of the row succeeds, and no file of
the attempt when the removal of the file succeeds. -/
theorem createTail_scheduleTask_error (env : Env) (w : World) (task : Task)
    (name command scriptType : Str) (isEnabled : Bool) (e : Err) (w' : World)
    (h : createTail env w task name command scriptType isEnabled =
      (.error (.scheduleTask e), w')) :
    isEnabled = true ∧
    (env.dbDeleteFails (w.nextTaskID + 1) = false →
      w'.tasks = w.tasks.filter (fun t => t.ID != w.nextTaskID + 1)) ∧
    (scriptType = "command".toList → w'.files = w.files) ∧
    (scriptType ≠ "command".toList →
      env.removeFails (fullPathOf env (w.nextTaskID + 1) scriptType) = false →
      scriptPathOf env (w.nextTaskID + 1) scriptType ≠ [] →
      w'.files = w.files.filter (fun f => f.1 != fullPathOf env (w.nextTaskID + 1) scriptType)) := by
  unfold createTail at h
  generalize hdb : dbCreate env w task = r at h
  obtain ⟨o, w1⟩ := r
  cases o with
  | none => simp at h
  | some task1 =>
    obtain ⟨ht1, hw1⟩ := dbCreate_some _ _ _ _ _ hdb
    have hid : task1.ID = w.nextTaskID + 1 := by rw [ht1]
    simp only at h
    generalize hcs : CreateScriptFile env w1 task1.ID name scriptType command = r at h
    obtain ⟨res, w2⟩ := r
    cases res with
    | error e1 => simp at h
    | ok pc =>
      obtain ⟨scriptPath, execCommand⟩ := pc
      obtain ⟨c1, c2, c3, c4, c5, c6⟩ := CreateScriptFile_ok _ _ _ _ _ _ _ _ _ hcs
      simp only at h
      cases isEnabled with
      | false =>
        simp only [Bool.false_eq_true, if_false] at h
        have := persistCreated_error _ _ _ _ _ _ _ h
        cases this
      | true =>
        simp only [if_true] at h
        generalize hst : ScheduleTask env w2
          { task1 with ScriptPath := scriptPath, Command := execCommand } = r at h
        obtain ⟨res, w3⟩ := r
        cases res with
        | ok id =>
          simp only at h
          have := persistCreated_error _ _ _ _ _ _ _ h
          cases this
        | error e2 =>
          simp only [Prod.mk.injEq, Except.error.injEq] at h
          obtain ⟨-, hw'⟩ := h
          have hfr := ScheduleTask_frame env w2
            { task1 with ScriptPath := scriptPath, Command := execCommand }
          rw [hst] at hfr
          obtain ⟨f1, -, -, f4⟩ := hfr
          simp only at f1 f4
          have hds := DeleteScriptFile_frame env w3 scriptPath
          obtain ⟨d1, -, -, d4, d5⟩ := hds
          have k2 := dbDelete_files env (DeleteScriptFile env w3 scriptPath).2
            { task1 with ScriptPath := scriptPath, Command := execCommand }
          rw [hw'] at k2
          simp only [hid] at f4
          refine ⟨rfl, ?_, ?_, ?_⟩
          · intro hDel
            have hdd := dbDelete_tasks env (DeleteScriptFile env w3 scriptPath).2
              { task1 with ScriptPath := scriptPath, Command := execCommand }
              (by simpa [hid] using hDel)
            rw [hw'] at hdd
            obtain ⟨k1, -, -⟩ := hdd
            simp only [hid] at k1
            rw [k1, d1, f4, c1, hw1]
            simp [List.filter_append, hid]
          · intro hc
            obtain ⟨p1, -, p3⟩ := c5 hc
            rw [k2, d4 p1, f1, p3, hw1]
          · intro hc hRm hJoin
            obtain ⟨p1, -, -, p4⟩ := c6 hc
            rw [hid] at p1 p4
            have hne : scriptPath ≠ [] := by rw [p1]; exact hJoin
            have hfull : env.filepathJoin env.dataDir scriptPath =
                fullPathOf env (w.nextTaskID + 1) scriptType := by rw [p1]; rfl
            rw [k2, d5 hne (by rw [hfull]; exact hRm), hfull, f1, p4, hw1]
            rw [List.filter_cons_of_neg (by simp), filter_filter_same]

/-- A successful `createTail` of an enabled task has registered a trigger and
stored its non-nil handle on the task. -/
theorem createTail_ok_enabled (env : Env) (w : World) (task : Task)
    (name command scriptType : Str) (t : Task) (w' : World)
    (h : createTail env w task name command scriptType true = (.ok t, w')) :
    t.GocronJobID ≠ 0 ∧ ∃ j ∈ w'.jobs, j.ID = t.GocronJobID := by
  unfold createTail at h
  generalize dbCreate env w task = r at h
  obtain ⟨o, w1⟩ := r
  cases o with
  | none => simp at h
  | some task1 =>
    simp only at h
    generalize CreateScriptFile env w1 task1.ID name scriptType command = r at h
    obtain ⟨res, w2⟩ := r
    cases res with
    | error e1 => simp at h
    | ok pc =>
      obtain ⟨scriptPath, execCommand⟩ := pc
      simp only [if_true] at h
      generalize hst : ScheduleTask env w2
        { task1 with ScriptPath := scriptPath, Command := execCommand } = r at h
      obtain ⟨res, w3⟩ := r
      cases res with
      | error e2 => simp at h
      | ok id =>
        simp only at h
        obtain ⟨hid, d, hw3⟩ := ScheduleTask_ok _ _ _ _ _ hst
        obtain ⟨p1, p2, -⟩ := persistCreated_ok _ _ _ _ _ _ _ h
        subst p1
        refine ⟨by simp [hid], ?_⟩
        rw [p2, hw3]
        simp only [setCaptured, List.map_append, List.map_cons, List.map_nil, if_true]
        exact ⟨_, List.mem_append_right _ (List.mem_singleton.2 rfl), rfl⟩

/-- What a successful `createTail` returns and leaves on disk. -/
theorem createTail_ok (env : Env) (w : World) (task : Task)
    (name command scriptType : Str) (isEnabled : Bool) (t : Task) (w' : World)
    (h : createTail env w task name command scriptType isEnabled = (.ok t, w')) :
    t.ID = w.nextTaskID + 1 ∧ t.ScriptType = (withColumnDefaults task).ScriptType ∧
    (scriptType = "command".toList →
      t.ScriptPath = [] ∧ t.Command = command ∧ w'.files = w.files) ∧
    (scriptType ≠ "command".toList →
      t.ScriptPath = scriptPathOf env (w.nextTaskID + 1) scriptType ∧
      t.Command = generateExecCommand scriptType (fullPathOf env (w.nextTaskID + 1) scriptType) ∧
      getScriptExtension scriptType ≠ [] ∧
      w'.files = (fullPathOf env (w.nextTaskID + 1) scriptType,
          generateScriptContent env (w.nextTaskID + 1) name scriptType command) ::
        w.files.filter (fun f => f.1 != fullPathOf env (w.nextTaskID + 1) scriptType)) := by
  unfold createTail at h
  generalize hdb : dbCreate env w task = r at h
  obtain ⟨o, w1⟩ := r
  cases o with
  | none => simp at h
  | some task1 =>
    obtain ⟨ht1, hw1⟩ := dbCreate_some _ _ _ _ _ hdb
    have hid : task1.ID = w.nextTaskID + 1 := by rw [ht1]
    have hst1 : task1.ScriptType = (withColumnDefaults task).ScriptType := by rw [ht1]
    simp only at h
    generalize hcs : CreateScriptFile env w1 task1.ID name scriptType command = r at h
    obtain ⟨res, w2⟩ := r
    cases res with
    | error e1 => simp at h
    | ok pc =>
      obtain ⟨scriptPath, execCommand⟩ := pc
      obtain ⟨-, -, -, -, c5, c6⟩ := CreateScriptFile_ok _ _ _ _ _ _ _ _ _ hcs
      rw [hid] at c6
      simp only at h
      have hfin : ∀ (tk : Task) (w3 : World), w3.files = w2.files →
          tk.ID = task1.ID → tk.ScriptType = task1.ScriptType → tk.ScriptPath = scriptPath →
          tk.Command = execCommand →
          persistCreated env w3 tk scriptPath isEnabled = (.ok t, w') →
          t.ID = w.nextTaskID + 1 ∧ t.ScriptType = (withColumnDefaults task).ScriptType ∧
          (scriptType = "command".toList →
            t.ScriptPath = [] ∧ t.Command = command ∧ w'.files = w.files) ∧
          (scriptType ≠ "command".toList →
            t.ScriptPath = scriptPathOf env (w.nextTaskID + 1) scriptType ∧
            t.Command =
              generateExecCommand scriptType (fullPathOf env (w.nextTaskID + 1) scriptType) ∧
            getScriptExtension scriptType ≠ [] ∧
            w'.files = (fullPathOf env (w.nextTaskID + 1) scriptType,
                generateScriptContent env (w.nextTaskID + 1) name scriptType command) ::
              w.files.filter (fun f => f.1 != fullPathOf env (w.nextTaskID + 1) scriptType)) := by
        intro tk w3 hf3 h1 h2 h3 h4 hp
        obtain ⟨p1, -, p3, -, -⟩ := persistCreated_ok _ _ _ _ _ _ _ hp
        subst p1
        refine ⟨h1.trans hid, h2.trans hst1, ?_, ?_⟩
        · intro hc
          obtain ⟨q1, q2, q3⟩ := c5 hc
          refine ⟨h3.trans q1, h4.trans q2, ?_⟩
          rw [p3, hf3, q3, hw1]
        · intro hc
          obtain ⟨q1, q2, q3, q4⟩ := c6 hc
          refine ⟨h3.trans q1, h4.trans q2, q3, ?_⟩
          rw [p3, hf3, q4, hw1]
      cases isEnabled with
      | false =>
        simp only [Bool.false_eq_true, if_false] at h
        exact hfin { task1 with ScriptPath := scriptPath, Command := execCommand } _
          rfl rfl rfl rfl rfl h
      | true =>
        simp only [if_true] at h
        generalize hst : ScheduleTask env w2
          { task1 with ScriptPath := scriptPath, Command := execCommand } = r at h
        obtain ⟨res, w3⟩ := r
        cases res with
        | error e2 => simp at h
        | ok id =>
          simp only at h
          obtain ⟨-, d, hw3⟩ := ScheduleTask_ok _ _ _ _ _ hst
          refine hfin { task1 with ScriptPath := scriptPath, Command := execCommand,
                                   GocronJobID := id } _ ?_ rfl rfl rfl rfl h
          rw [hw3]; rfl

/-- A successful `createTail` stores the script kind it was given: the column
default replaces only the empty kind, for which no script can be created. -/
theorem createTail_ok_scriptType (env : Env) (w : World) (task : Task)
    (name command scriptType : Str) (isEnabled : Bool) (t : Task) (w' : World)
    (hType : task.ScriptType = scriptType)
    (h : createTail env w task name command scriptType isEnabled = (.ok t, w')) :
    t.ScriptType = scriptType := by
  obtain ⟨-, a2, -, a4⟩ := createTail_ok _ _ _ _ _ _ _ _ _ h
  have hne : scriptType ≠ [] := by
    by_cases hc : scriptType = "command".toList
    · rw [hc]
      decide
    · obtain ⟨-, -, hext, -⟩ := a4 hc
      intro h0
      rw [h0] at hext
      exact hext (by decide)
  rw [a2]
  show (if task.ScriptType = [] then "command".toList else task.ScriptType) = scriptType
  rw [hType, if_neg hne]

/-! ## Create: failure of the trigger registration -/

/-- C7, as stated, fails: the two clean-up calls after a failed registration
(`DeleteScriptFile`, `Delete(task)`) can fail themselves and their errors are
dropped.  With gocron rejecting the job, `CreateTaskFull` returns the
registration error; when the row deletion fails too, row 1 stays in the Task
Store, and when the file removal fails too, `data/shell/task_1.sh` stays on
disk. -/
theorem registration_failure_cleanup_can_fail :
    (CreateTaskFull rejectingEnvDeleteFails emptyWorld "job".toList "echo hi".toList
        "shell".toList "* * * * *".toList "cron".toList none true).1 =
      .error (.scheduleTask (.createJob .gocronNewJob)) ∧
    (CreateTaskFull rejectingEnvDeleteFails emptyWorld "job".toList "echo hi".toList
        "shell".toList "* * * * *".toList "cron".toList none true).2.tasks.map (fun t => t.ID) =
      [1] ∧
    (CreateTaskFull rejectingEnvRemoveFails emptyWorld "job".toList "echo hi".toList
        "shell".toList "* * * * *".toList "cron".toList none true).1 =
      .error (.scheduleTask (.createJob .gocronNewJob)) ∧
    (CreateTaskFull rejectingEnvRemoveFails emptyWorld "job".toList "echo hi".toList
        "shell".toList "* * * * *".toList "cron".toList none true).2.files.map (fun f => f.1) =
      ["data/shell/task_1.sh".toList] := by
  refine ⟨?_, ?_, ?_, ?_⟩ <;> decide

/-- C7, amended: Create (`CreateTaskFull`, `CreateTaskWithScript`) never
returns success for an enabled task without a registered trigger, so a failed
registration makes it return an error, and the registration error is returned
only with enabled = true.  When Create returns the registration error: if the
deletion of the row succeeds, the Task Store has no row with the id of the
attempt and its other rows are as before; for an inline command no file was
written; and for a script, if the removal of the file succeeds, the script
directory has no file for the attempt.  Create drops the errors of both
clean-up calls. -/
theorem create_registration_failure (env : Env) (w : World)
    (name command scriptType scheduleSpec scheduleType : Str) (executeAt : Option Time)
    (isEnabled : Bool) :
    ∀ r, (r = CreateTaskFull env w name command scriptType scheduleSpec scheduleType executeAt
            isEnabled ∨
          r = CreateTaskWithScript env w name command scriptType scheduleSpec isEnabled) →
      (∀ t, r.1 = .ok t → isEnabled = true →
        t.GocronJobID ≠ 0 ∧ ∃ j ∈ r.2.jobs, j.ID = t.GocronJobID) ∧
      (∀ e, r.1 = .error (.scheduleTask e) →
        isEnabled = true ∧
        (env.dbDeleteFails (w.nextTaskID + 1) = false →
          (∀ t ∈ r.2.tasks, t.ID ≠ w.nextTaskID + 1) ∧
          r.2.tasks = w.tasks.filter (fun t => t.ID != w.nextTaskID + 1)) ∧
        (scriptType = "command".toList → r.2.files = w.files) ∧
        (scriptType ≠ "command".toList →
          env.removeFails (fullPathOf env (w.nextTaskID + 1) scriptType) = false →
          scriptPathOf env (w.nextTaskID + 1) scriptType ≠ [] →
          r.2.files.lookup (fullPathOf env (w.nextTaskID + 1) scriptType) = none ∧
          r.2.files =
            w.files.filter (fun f => f.1 != fullPathOf env (w.nextTaskID + 1) scriptType))) := by
  have key : ∀ (task : Task) (r : Except Err Task × World),
      r = createTail env w task name command scriptType isEnabled →
      (∀ t, r.1 = .ok t → isEnabled = true →
        t.GocronJobID ≠ 0 ∧ ∃ j ∈ r.2.jobs, j.ID = t.GocronJobID) ∧
      (∀ e, r.1 = .error (.scheduleTask e) →
        isEnabled = true ∧
        (env.dbDeleteFails (w.nextTaskID + 1) = false →
          (∀ t ∈ r.2.tasks, t.ID ≠ w.nextTaskID + 1) ∧
          r.2.tasks = w.tasks.filter (fun t => t.ID != w.nextTaskID + 1)) ∧
        (scriptType = "command".toList → r.2.files = w.files) ∧
        (scriptType ≠ "command".toList →
          env.removeFails (fullPathOf env (w.nextTaskID + 1) scriptType) = false →
          scriptPathOf env (w.nextTaskID + 1) scriptType ≠ [] →
          r.2.files.lookup (fullPathOf env (w.nextTaskID + 1) scriptType) = none ∧
          r.2.files =
            w.files.filter (fun f => f.1 != fullPathOf env (w.nextTaskID + 1) scriptType))) := by
    intro task r hr
    constructor
    · intro t ht hen
      subst hen
      have h : createTail env w task name command scriptType true = (.ok t, r.2) := by
        rw [← hr, ← ht]
      exact createTail_ok_enabled _ _ _ _ _ _ _ _ h
    · intro e he
      have h : createTail env w task name command scriptType isEnabled =
          (.error (.scheduleTask e), r.2) := by
        rw [← hr, ← he]
      obtain ⟨a0, a1, a2, a3⟩ := createTail_scheduleTask_error _ _ _ _ _ _ _ _ _ h
      refine ⟨a0, fun hDel => ⟨?_, a1 hDel⟩, a2, fun hc hRm hJoin => ⟨?_, a3 hc hRm hJoin⟩⟩
      · intro t ht
        rw [a1 hDel] at ht
        have := (List.mem_filter.1 ht).2
        simpa using this
      · rw [a3 hc hRm hJoin]
        exact lookup_filter_ne _ _
  have bad : ∀ (e0 : Err) (r : Except Err Task × World), r = (.error (.invalidScriptContent e0), w) ∨
      r = (.error .executeAtRequired, w) ∨ r = (.error .executeAtMustBeFuture, w) →
      (∀ t, r.1 = .ok t → isEnabled = true →
        t.GocronJobID ≠ 0 ∧ ∃ j ∈ r.2.jobs, j.ID = t.GocronJobID) ∧
      (∀ e, r.1 = .error (.scheduleTask e) →
        isEnabled = true ∧
        (env.dbDeleteFails (w.nextTaskID + 1) = false →
          (∀ t ∈ r.2.tasks, t.ID ≠ w.nextTaskID + 1) ∧
          r.2.tasks = w.tasks.filter (fun t => t.ID != w.nextTaskID + 1)) ∧
        (scriptType = "command".toList → r.2.files = w.files) ∧
        (scriptType ≠ "command".toList →
          env.removeFails (fullPathOf env (w.nextTaskID + 1) scriptType) = false →
          scriptPathOf env (w.nextTaskID + 1) scriptType ≠ [] →
          r.2.files.lookup (fullPathOf env (w.nextTaskID + 1) scriptType) = none ∧
          r.2.files =
            w.files.filter (fun f => f.1 != fullPathOf env (w.nextTaskID + 1) scriptType))) := by
    intro e0 r hr
    rcases hr with h | h | h <;> subst h <;>
      exact ⟨fun t ht => by simp at ht, fun e he => by simp at he⟩
  intro r hr
  rcases hr with hr | hr
  · unfold CreateTaskFull at hr
    cases hv : ValidateScriptContent scriptType command with
    | some e0 => rw [hv] at hr; exact bad e0 r (Or.inl hr)
    | none =>
      rw [hv] at hr
      simp only at hr
      cases hx : validateExecuteAt env scheduleType executeAt with
      | some e1 =>
        rw [hx] at hr
        simp only at hr
        unfold validateExecuteAt at hx
        split at hx
        · split at hx
          · cases hx; exact bad .scriptEmpty r (Or.inr (Or.inl hr))
          · split at hx
            · cases hx; exact bad .scriptEmpty r (Or.inr (Or.inr hr))
            · cases hx
        · cases hx
      | none =>
        rw [hx] at hr
        exact key _ r hr
  · unfold CreateTaskWithScript at hr
    cases hv : ValidateScriptContent scriptType command with
    | some e0 => rw [hv] at hr; exact bad e0 r (Or.inl hr)
    | none =>
      rw [hv] at hr
      exact key _ r hr

theorem create_registration_failure_witness :
    (CreateTaskFull rejectingEnv emptyWorld "job".toList "echo hi".toList "shell".toList
        "* * * * *".toList "cron".toList none true).1 =
      .error (.scheduleTask (.createJob .gocronNewJob)) ∧
    rejectingEnv.dbDeleteFails (emptyWorld.nextTaskID + 1) = false ∧
    (∀ t ∈ (CreateTaskFull rejectingEnv emptyWorld "job".toList "echo hi".toList "shell".toList
        "* * * * *".toList "cron".toList none true).2.tasks, t.ID ≠ emptyWorld.nextTaskID + 1) ∧
    rejectingEnv.removeFails (fullPathOf rejectingEnv (emptyWorld.nextTaskID + 1) "shell".toList) =
      false ∧
    scriptPathOf rejectingEnv (emptyWorld.nextTaskID + 1) "shell".toList ≠ [] ∧
    (CreateTaskFull rejectingEnv emptyWorld "job".toList "echo hi".toList "shell".toList
        "* * * * *".toList "cron".toList none true).2.files.lookup
      (fullPathOf rejectingEnv (emptyWorld.nextTaskID + 1) "shell".toList) = none :=
  ⟨by decide, rfl,
   (((create_registration_failure rejectingEnv emptyWorld "job".toList "echo hi".toList
      "shell".toList "* * * * *".toList "cron".toList none true _
      (Or.inl rfl)).2 (.createJob .gocronNewJob) (by decide)).2.1 rfl).1,
   rfl, by decide,
   (((create_registration_failure rejectingEnv emptyWorld "job".toList "echo hi".toList
      "shell".toList "* * * * *".toList "cron".toList none true _
      (Or.inl rfl)).2 (.createJob .gocronNewJob) (by decide)).2.2.2 (by decide) rfl
      (by decide)).1⟩

/-! ## The fire callback -/

theorem UnscheduleTask_tasks (env : Env) (w : World) (id : UUID) :
    (UnscheduleTask env w id).2.tasks = w.tasks := by
  unfold UnscheduleTask RemoveJob
  split <;> rename_i heq <;> (split at heq <;> try split at heq) <;>
    simp only [Prod.mk.injEq] at heq <;> obtain ⟨-, rfl⟩ := heq <;> rfl

theorem execCreate_tasks (env : Env) (w : World) (e : TaskExecution) :
    (execCreate env w e).2.2.tasks = w.tasks := by
  unfold execCreate
  split <;> rfl

theorem execSave_tasks (env : Env) (w : World) (e : TaskExecution) :
    (execSave env w e).2.tasks = w.tasks := by
  unfold execSave
  split
  · rfl
  · split
    · rfl
    · split <;> rfl

/-- C8: the fire callback breaks the invariant.  When a one-shot task with a
non-empty command fires and the store update succeeds, `executeTask` rewrites
the task's row with `is_enabled = false` and nothing else, so a row that
carried a non-nil trigger handle is left disabled with that handle still on
it. -/
theorem executeTask_disables_but_keeps_handle (env : Env) (w : World) (task : Task)
    (hOnce : task.ScheduleType = "once".toList) (hCmd : task.Command ≠ [])
    (hUpd : env.dbUpdateFails task.ID = false) :
    (executeTask env w task).tasks =
      w.tasks.map (fun t => if t.ID = task.ID then { t with IsEnabled := false } else t) ∧
    (∀ t ∈ w.tasks, t.ID = task.ID → t.GocronJobID ≠ 0 →
      ∃ t' ∈ (executeTask env w task).tasks,
        t'.ID = task.ID ∧ t'.IsEnabled = false ∧ t'.GocronJobID = t.GocronJobID ∧
        t'.GocronJobID ≠ 0) := by
  have hT : (executeTask env w task).tasks =
      w.tasks.map (fun t => if t.ID = task.ID then { t with IsEnabled := false } else t) := by
    unfold executeTask
    rw [if_neg hCmd]
    simp only [hOnce, if_true]
    have hupd : ∀ w0 : World, (dbUpdateIsEnabled env w0 task false).2.tasks =
        w0.tasks.map (fun t => if t.ID = task.ID then { t with IsEnabled := false } else t) := by
      intro w0
      simp [dbUpdateIsEnabled, hUpd]
    split
    · rw [UnscheduleTask_tasks, hupd, execSave_tasks, execCreate_tasks]
    · rw [hupd, execSave_tasks, execCreate_tasks]
  refine ⟨hT, ?_⟩
  intro t ht hid hh
  refine ⟨{ t with IsEnabled := false }, ?_, hid, rfl, rfl, hh⟩
  rw [hT]
  exact List.mem_map.2 ⟨t, ht, by simp [hid]⟩

theorem executeTask_disables_but_keeps_handle_witness :
    onceTask.ScheduleType = "once".toList ∧ onceTask.Command ≠ [] ∧
    sampleEnv.dbUpdateFails onceTask.ID = false ∧
    worldWithOnce.tasks = [onceTask] ∧
    (executeTask sampleEnv worldWithOnce onceTask).tasks =
      [{ onceTask with IsEnabled := false }] :=
  ⟨by decide, by decide, rfl, by decide,
   (executeTask_disables_but_keeps_handle sampleEnv worldWithOnce onceTask (by decide)
     (by decide) rfl).1.trans (by decide)⟩

/-- C9: a run of the code.  `sampleEnv` creates the one-shot task `once` (row
1, handle 1, trigger 1 registered with the task struct as captured); the
trigger fires, nothing fails.  Afterwards the execution is recorded as a
success, the trigger is gone from the scheduler and the row is disabled, but
the row still carries handle 1. -/
theorem fired_one_shot_row_keeps_handle :
    worldWithOnce.tasks = [onceTask] ∧
    worldWithOnce.jobs = [{ ID := 1, definition := .OneTimeJob 500, task := onceTask }] ∧
    (fire sampleEnv worldWithOnce 1).jobs = [] ∧
    (fire sampleEnv worldWithOnce 1).executions.map (fun e => e.Status) = ["success".toList] ∧
    (fire sampleEnv worldWithOnce 1).tasks.map (fun t => (t.ID, t.IsEnabled, t.GocronJobID)) =
      [(1, false, 1)] := by
  refine ⟨?_, ?_, ?_, ?_, ?_⟩ <;> decide

/-! ## Round trip of the script content -/

theorem generateScriptContent_shell (env : Env) (taskID : Nat) (taskName userContent : Str) :
    generateScriptContent env taskID taskName "shell".toList userContent =
      shellHeader taskName env.timestamp taskID ++ userContent := by
  simp [generateScriptContent, shellHeader]

theorem generateScriptContent_python (env : Env) (taskID : Nat) (taskName userContent : Str) :
    generateScriptContent env taskID taskName "python".toList userContent =
      pythonHeader taskName env.timestamp taskID ++ userContent := by
  have h : "python".toList ≠ "shell".toList := by decide
  unfold generateScriptContent pythonHeader
  rw [if_neg h, if_pos rfl]

/-- What `GetScriptContent` and `GetTaskScriptContent` return for a script
task whose file holds `content`, when reading the file does not fail. -/
theorem read_back (env : Env) (w : World) (t : Task) (content : Str)
    (hType : t.ScriptType ≠ "command".toList) (hPath : t.ScriptPath ≠ [])
    (hFile : w.files.lookup (env.filepathJoin env.dataDir t.ScriptPath) = some content)
    (hRead : env.readFileFails (env.filepathJoin env.dataDir t.ScriptPath) = false) :
    GetScriptContent env w t.ScriptPath = .ok content ∧
    GetTaskScriptContent env w t = content := by
  have h1 : GetScriptContent env w t.ScriptPath = .ok content := by
    simp [GetScriptContent, hPath, ReadFile, hRead, hFile]
  refine ⟨h1, ?_⟩
  unfold GetTaskScriptContent
  rw [if_neg hType, h1]

/-- C10: after a successful Create of a shell or python task, the script file
holds the generated header (shebang, task name, creation timestamp, task id)
followed by the original content, which is therefore a suffix of it, and that
is what `GetScriptContent` and `GetTaskScriptContent` read back; for an inline
command `GetTaskScriptContent` returns the original input. -/
theorem created_script_round_trip (env : Env) (w : World)
    (name command scriptType scheduleSpec scheduleType : Str) (executeAt : Option Time)
    (isEnabled : Bool)
    (hJoin : scriptPathOf env (w.nextTaskID + 1) scriptType ≠ []) :
    ∀ r t, (r = CreateTaskFull env w name command scriptType scheduleSpec scheduleType executeAt
              isEnabled ∨
            r = CreateTaskWithScript env w name command scriptType scheduleSpec isEnabled) →
      r.1 = .ok t →
      (scriptType = "command".toList → GetTaskScriptContent env r.2 t = command) ∧
      (scriptType = "shell".toList ∨ scriptType = "python".toList →
        ∃ header,
          (scriptType = "shell".toList → header = shellHeader name env.timestamp t.ID) ∧
          (scriptType = "python".toList → header = pythonHeader name env.timestamp t.ID) ∧
          r.2.files.lookup (env.filepathJoin env.dataDir t.ScriptPath) = some (header ++ command) ∧
          command <:+ header ++ command ∧
          (env.readFileFails (env.filepathJoin env.dataDir t.ScriptPath) = false →
            GetScriptContent env r.2 t.ScriptPath = .ok (header ++ command) ∧
            GetTaskScriptContent env r.2 t = header ++ command)) := by
  have key : ∀ (task : Task) (r : Except Err Task × World) (t : Task),
      task.ScriptType = scriptType →
      r = createTail env w task name command scriptType isEnabled → r.1 = .ok t →
      (scriptType = "command".toList → GetTaskScriptContent env r.2 t = command) ∧
      (scriptType = "shell".toList ∨ scriptType = "python".toList →
        ∃ header,
          (scriptType = "shell".toList → header = shellHeader name env.timestamp t.ID) ∧
          (scriptType = "python".toList → header = pythonHeader name env.timestamp t.ID) ∧
          r.2.files.lookup (env.filepathJoin env.dataDir t.ScriptPath) = some (header ++ command) ∧
          command <:+ header ++ command ∧
          (env.readFileFails (env.filepathJoin env.dataDir t.ScriptPath) = false →
            GetScriptContent env r.2 t.ScriptPath = .ok (header ++ command) ∧
            GetTaskScriptContent env r.2 t = header ++ command)) := by
    intro task r t hty hr ht
    have h : createTail env w task name command scriptType isEnabled = (.ok t, r.2) := by
      rw [← hr, ← ht]
    obtain ⟨a1, -, a3, a4⟩ := createTail_ok _ _ _ _ _ _ _ _ _ h
    have a2 := createTail_ok_scriptType _ _ _ _ _ _ _ _ _ hty h
    constructor
    · intro hc
      obtain ⟨-, b2, -⟩ := a3 hc
      unfold GetTaskScriptContent
      rw [if_pos (by rw [a2, hc]), b2]
    · intro hk
      have hnc : scriptType ≠ "command".toList := by
        rcases hk with hk | hk <;> rw [hk] <;> decide
      obtain ⟨b1, -, -, b4⟩ := a4 hnc
      have hfull : env.filepathJoin env.dataDir t.ScriptPath =
          fullPathOf env (w.nextTaskID + 1) scriptType := by rw [b1]; rfl
      have hgen : ∃ header,
          (scriptType = "shell".toList → header = shellHeader name env.timestamp t.ID) ∧
          (scriptType = "python".toList → header = pythonHeader name env.timestamp t.ID) ∧
          generateScriptContent env (w.nextTaskID + 1) name scriptType command =
            header ++ command := by
        rcases hk with hk | hk
        · refine ⟨shellHeader name env.timestamp t.ID, fun _ => rfl, fun hp => ?_, ?_⟩
          · rw [hk] at hp; exact absurd hp (by decide)
          · rw [hk, a1]; exact generateScriptContent_shell _ _ _ _
        · refine ⟨pythonHeader name env.timestamp t.ID, fun hp => ?_, fun _ => rfl, ?_⟩
          · rw [hk] at hp; exact absurd hp (by decide)
          · rw [hk, a1]; exact generateScriptContent_python _ _ _ _
      obtain ⟨header, g1, g2, g3⟩ := hgen
      have hfile : r.2.files.lookup (env.filepathJoin env.dataDir t.ScriptPath) =
          some (header ++ command) := by
        rw [hfull, b4, g3]
        simp [List.lookup]
      refine ⟨header, g1, g2, hfile, List.suffix_append _ _, fun hread => ?_⟩
      exact read_back env r.2 t _ (by rw [a2]; exact hnc) (by rw [b1]; exact hJoin)
        hfile hread
  intro r t hr ht
  rcases hr with hr | hr
  · unfold CreateTaskFull at hr
    cases hv : ValidateScriptContent scriptType command with
    | some e0 => rw [hv] at hr; rw [hr] at ht; simp at ht
    | none =>
      rw [hv] at hr
      simp only at hr
      cases hx : validateExecuteAt env scheduleType executeAt with
      | some e1 => rw [hx] at hr; rw [hr] at ht; simp at ht
      | none => rw [hx] at hr; exact key _ r t rfl hr ht
  · unfold CreateTaskWithScript at hr
    cases hv : ValidateScriptContent scriptType command with
    | some e0 => rw [hv] at hr; rw [hr] at ht; simp at ht
    | none => rw [hv] at hr; exact key _ r t rfl hr ht

theorem created_script_round_trip_witness :
    scriptPathOf sampleEnv (emptyWorld.nextTaskID + 1) "shell".toList ≠ [] ∧
    GetScriptContent sampleEnv
        (CreateTaskFull sampleEnv emptyWorld "job".toList "echo hi".toList "shell".toList
          "* * * * *".toList "cron".toList none true).2 "shell/task_1.sh".toList =
      .ok "#!/bin/bash\n# B1Cron Task: job\n# Created: 2024-05-01 10:00:00\n# Task ID: 1\n\necho hi".toList :=
  ⟨by decide, by
    obtain ⟨header, h1, -, -, -, h5⟩ :=
      (created_script_round_trip sampleEnv emptyWorld "job".toList "echo hi".toList
        "shell".toList "* * * * *".toList "cron".toList none true (by decide) _
        { ID := 1, Name := "job".toList,
          Command := "/bin/bash data/shell/task_1.sh".toList, ScriptType := "shell".toList,
          ScriptPath := "shell/task_1.sh".toList, ScheduleSpec := "* * * * *".toList,
          ScheduleType := "cron".toList, ExecuteAt := none, IsEnabled := true, GocronJobID := 1 }
        (Or.inl rfl) (by decide)).2 (Or.inl rfl)
    rw [h1 rfl] at h5
    exact (h5 rfl).1⟩

/-! ## Sanity of the sample worlds -/

theorem worldWithJob_eq :
    worldWithJob.tasks = [jobTask] ∧
    worldWithJob.files = [("data/shell/task_1.sh".toList, jobScript)] ∧
    worldWithJob.jobs =
      [{ ID := 1, definition := .CronJob "* * * * *".toList false, task := jobTask }] := by
  refine ⟨?_, ?_, ?_⟩ <;> decide

/-! ## Firing a task without command -/

/-- C18: firing a task whose resolved command is empty is a no-op.
`executeTask` returns the world it was called in (no execution record is
created or changed, the task rows and the registered triggers are as before),
whatever the schedule kind and whatever the environment; so does the firing of
a trigger whose task has no command. -/
theorem executeTask_empty_command (env : Env) (w : World) (task : Task)
    (hCmd : task.Command = []) :
    executeTask env w task = w ∧
    (executeTask env w task).executions = w.executions ∧
    (executeTask env w task).tasks = w.tasks ∧
    (executeTask env w task).jobs = w.jobs ∧
    (∀ id j, w.jobs.find? (fun x => x.ID == id) = some j → j.task = task →
      fire env w id = w) := by
  have h : executeTask env w task = w := by
    unfold executeTask
    rw [if_pos hCmd]
  refine ⟨h, by rw [h], by rw [h], by rw [h], ?_⟩
  intro id j hj hjt
  unfold fire
  rw [hj]
  simp only
  rw [hjt]
  exact h

theorem executeTask_empty_command_witness :
    ({ onceTask with Command := [] } : Task).Command = [] ∧
    executeTask sampleEnv worldWithOnce { onceTask with Command := [] } = worldWithOnce :=
  ⟨rfl, (executeTask_empty_command sampleEnv worldWithOnce { onceTask with Command := [] } rfl).1⟩

/-! ## Delete -/

theorem UnscheduleTask_frame (env : Env) (w : World) (id : UUID) :
    (UnscheduleTask env w id).2.tasks = w.tasks ∧
    (UnscheduleTask env w id).2.files = w.files ∧
    (UnscheduleTask env w id).2.executions = w.executions ∧
    (UnscheduleTask env w id).2.nextJobID = w.nextJobID ∧
    (UnscheduleTask env w id).2.nextTaskID = w.nextTaskID ∧
    ((UnscheduleTask env w id).1 ≠ none → (UnscheduleTask env w id).2 = w) ∧
    ((UnscheduleTask env w id).1 = none →
      (UnscheduleTask env w id).2.jobs = w.jobs.filter (fun j => j.ID != id)) ∧
    (∀ j ∈ (UnscheduleTask env w id).2.jobs, j ∈ w.jobs) ∧
    (UnscheduleTask env w id).2.jobs = w.jobs.filter (fun j => j.ID != id) := by
  unfold UnscheduleTask RemoveJob
  by_cases h2 : (w.jobs.any fun j => j.ID == id) = true
  · rw [if_pos h2]
    refine ⟨rfl, rfl, rfl, rfl, rfl, fun h => absurd rfl h, fun _ => rfl, ?_, rfl⟩
    intro j hj
    exact (List.mem_filter.1 hj).1
  · rw [if_neg h2]
    have hself : w.jobs = w.jobs.filter (fun j => j.ID != id) := by
      symm
      rw [List.filter_eq_self]
      intro j hj
      simp only [List.any_eq_true, not_exists, not_and] at h2
      simpa using h2 j hj
    exact ⟨rfl, rfl, rfl, rfl, rfl, fun _ => rfl, (fun h => by cases h), fun j hj => hj,
      hself⟩

theorem UnscheduleTask_none_iff (env : Env) (w : World) (id : UUID) :
    (UnscheduleTask env w id).1 = none ↔ ∃ j ∈ w.jobs, j.ID = id := by
  have hex : (w.jobs.any fun j => j.ID == id) = true ↔ ∃ j ∈ w.jobs, j.ID = id := by
    simp
  unfold UnscheduleTask RemoveJob
  by_cases h2 : (w.jobs.any fun j => j.ID == id) = true
  · rw [if_pos h2]
    exact ⟨fun _ => hex.1 h2, fun _ => rfl⟩
  · rw [if_neg h2]
    exact ⟨(fun h => by cases h), fun h => absurd (hex.2 h) h2⟩

theorem GetTaskByID_ok (env : Env) (w : World) (id : Nat) (task : Task)
    (h : GetTaskByID env w id = .ok task) :
    task ∈ w.tasks ∧ task.ID = id ∧ w.tasks.find? (fun t => t.ID == id) = some task := by
  unfold GetTaskByID dbFirst at h
  split at h
  · next hd =>
    split at hd <;> simp at hd h
  · next t hd =>
    simp only [Except.ok.injEq] at h
    subst h
    split at hd
    · simp at hd
    · refine ⟨List.mem_of_find?_eq_some hd, ?_, hd⟩
      have := List.find?_some hd
      simpa using this

/-- C15: when unregistering the task's trigger fails, `DeleteTask` returns
the unschedule error and the world is the one it was called in: the task's row
is still in the Task Store and the script files are untouched. -/
theorem DeleteTask_unschedule_failure (env : Env) (w : World) (id : Nat) (task : Task)
    (hGet : GetTaskByID env w id = .ok task) (hHandle : task.GocronJobID ≠ 0)
    (hFail : (UnscheduleTask env w task.GocronJobID).1 ≠ none) :
    (∃ e, DeleteTask env w id = (some (.unscheduleTask e), w)) ∧
    task ∈ (DeleteTask env w id).2.tasks ∧
    (DeleteTask env w id).2.tasks = w.tasks ∧
    (DeleteTask env w id).2.files = w.files ∧
    (DeleteTask env w id).2.jobs = w.jobs := by
  have hw := (UnscheduleTask_frame env w task.GocronJobID).2.2.2.2.2.1 hFail
  have hD : ∃ e, DeleteTask env w id = (some (.unscheduleTask e), w) := by
    unfold DeleteTask
    rw [hGet]
    simp only [if_pos hHandle]
    generalize hu : UnscheduleTask env w task.GocronJobID = r at hFail hw
    obtain ⟨o, w1⟩ := r
    cases o with
    | none => exact absurd rfl hFail
    | some e =>
      simp only at hw
      subst hw
      exact ⟨e, rfl⟩
  obtain ⟨e, he⟩ := hD
  rw [he]
  exact ⟨⟨e, rfl⟩, (GetTaskByID_ok _ _ _ _ hGet).1, rfl, rfl, rfl⟩

theorem DeleteTask_unschedule_failure_witness :
    GetTaskByID sampleEnv firedOnceWorld 1 = .ok { onceTask with IsEnabled := false } ∧
    ({ onceTask with IsEnabled := false } : Task).GocronJobID ≠ 0 ∧
    (UnscheduleTask sampleEnv firedOnceWorld 1).1 ≠ none ∧
    (DeleteTask sampleEnv firedOnceWorld 1).2.tasks = firedOnceWorld.tasks ∧
    (DeleteTask sampleEnv firedOnceWorld 1).2.files = firedOnceWorld.files :=
  ⟨by decide, by decide, by decide,
   (DeleteTask_unschedule_failure sampleEnv firedOnceWorld 1 { onceTask with IsEnabled := false }
     (by decide) (by decide) (by decide)).2.2.1,
   (DeleteTask_unschedule_failure sampleEnv firedOnceWorld 1 { onceTask with IsEnabled := false }
     (by decide) (by decide) (by decide)).2.2.2.1⟩

/-- What a successful `DeleteTask` has done, step by step. -/
theorem DeleteTask_none (env : Env) (w : World) (id : Nat) (w' : World)
    (h : DeleteTask env w id = (none, w')) :
    ∃ task, GetTaskByID env w id = .ok task ∧ env.dbDeleteFails task.ID = false ∧
      (task.GocronJobID ≠ 0 → (UnscheduleTask env w task.GocronJobID).1 = none) ∧
      w'.tasks = w.tasks.filter (fun t => t.ID != task.ID) ∧
      w'.jobs = (if task.GocronJobID ≠ 0 then w.jobs.filter (fun j => j.ID != task.GocronJobID)
                 else w.jobs) := by
  unfold DeleteTask at h
  cases hg : GetTaskByID env w id with
  | error e => rw [hg] at h; simp at h
  | ok task =>
    rw [hg] at h
    simp only at h
    refine ⟨task, rfl, ?_⟩
    have hfr := UnscheduleTask_frame env w task.GocronJobID
    by_cases hh : task.GocronJobID ≠ 0
    · rw [if_pos hh] at h
      generalize hu : UnscheduleTask env w task.GocronJobID = r at h hfr
      obtain ⟨o, w1⟩ := r
      cases o with
      | some e => simp at h
      | none =>
        simp only at h
        obtain ⟨f1, -, -, -, -, -, f7, -, -⟩ := hfr
        simp only at f1 f7
        have hds := DeleteScriptFile_frame env w1 task.ScriptPath
        obtain ⟨d1, d2, -, -, -⟩ := hds
        cases hdel : env.dbDeleteFails task.ID with
        | true => simp [dbDelete, hdel] at h
        | false =>
          simp only [dbDelete, hdel, Bool.false_eq_true, if_false, Prod.mk.injEq, true_and] at h
          subst h
          refine ⟨rfl, fun _ => rfl, ?_, ?_⟩
          · show List.filter _ (DeleteScriptFile env w1 task.ScriptPath).2.tasks = _
            rw [d1, f1]
          · show (DeleteScriptFile env w1 task.ScriptPath).2.jobs = _
            rw [d2, if_pos hh, f7 trivial]
    · rw [if_neg hh] at h
      simp only at h
      have hds := DeleteScriptFile_frame env w task.ScriptPath
      obtain ⟨d1, d2, -, -, -⟩ := hds
      cases hdel : env.dbDeleteFails task.ID with
      | true => simp [dbDelete, hdel] at h
      | false =>
        simp only [dbDelete, hdel, Bool.false_eq_true, if_false, Prod.mk.injEq, true_and] at h
        subst h
        refine ⟨rfl, fun h0 => absurd h0 hh, ?_, ?_⟩
        · show List.filter _ (DeleteScriptFile env w task.ScriptPath).2.tasks = _
          rw [d1]
        · show (DeleteScriptFile env w task.ScriptPath).2.jobs = _
          rw [d2, if_neg hh]

/-- The steps of `DeleteTask_none` are also sufficient, whatever `os.Remove`
does. -/
theorem DeleteTask_none_of (env : Env) (w : World) (id : Nat) (task : Task)
    (hGet : GetTaskByID env w id = .ok task) (hDel : env.dbDeleteFails task.ID = false)
    (hUn : task.GocronJobID ≠ 0 → (UnscheduleTask env w task.GocronJobID).1 = none) :
    (DeleteTask env w id).1 = none := by
  unfold DeleteTask
  rw [hGet]
  simp only
  by_cases hh : task.GocronJobID ≠ 0
  · rw [if_pos hh]
    have hu := hUn hh
    generalize UnscheduleTask env w task.GocronJobID = r at hu
    obtain ⟨o, w1⟩ := r
    simp only at hu
    subst hu
    simp [dbDelete, hDel]
  · rw [if_neg hh]
    simp [dbDelete, hDel]

/-- C16: when `DeleteTask` returns success for an id, the Task Store has no
row with that id any more (a lookup reports not-found) and no registered
trigger carries the task's handle.  The outcome of the script file removal
plays no part: with any other behaviour of `os.Remove`, failure included,
`DeleteTask` still succeeds and leaves the same rows and the same triggers. -/
theorem DeleteTask_success (env : Env) (w : World) (id : Nat) (w' : World)
    (h : DeleteTask env w id = (none, w')) :
    (∀ t ∈ w'.tasks, t.ID ≠ id) ∧
    (∀ env', GetTaskByID env' w' id = .error .getTask) ∧
    (∀ task, GetTaskByID env w id = .ok task → task.GocronJobID ≠ 0 →
      ∀ j ∈ w'.jobs, j.ID ≠ task.GocronJobID) ∧
    (∀ f : Str → Bool,
      (DeleteTask { env with removeFails := f } w id).1 = none ∧
      (DeleteTask { env with removeFails := f } w id).2.tasks = w'.tasks ∧
      (DeleteTask { env with removeFails := f } w id).2.jobs = w'.jobs) := by
  obtain ⟨task, hg, hdel, hun, ht, hj⟩ := DeleteTask_none env w id w' h
  obtain ⟨-, hid, -⟩ := GetTaskByID_ok _ _ _ _ hg
  have hno : ∀ t ∈ w'.tasks, t.ID ≠ id := by
    intro t hmem
    rw [ht] at hmem
    have := (List.mem_filter.1 hmem).2
    rw [hid] at this
    simpa using this
  refine ⟨hno, ?_, ?_, ?_⟩
  · intro env'
    have hnone : w'.tasks.find? (fun t => t.ID == id) = none := by
      rw [List.find?_eq_none]
      intro t hmem
      simpa using hno t hmem
    unfold GetTaskByID dbFirst
    rw [hnone]
    simp
  · intro task' hg' hh j hjm
    rw [hg] at hg'
    cases hg'
    rw [hj, if_pos hh] at hjm
    have := (List.mem_filter.1 hjm).2
    simpa using this
  · intro f
    have hg2 : GetTaskByID { env with removeFails := f } w id = .ok task := hg
    have h1 : (DeleteTask { env with removeFails := f } w id).1 = none :=
      DeleteTask_none_of { env with removeFails := f } w id task hg2 hdel hun
    generalize hr : DeleteTask { env with removeFails := f } w id = r at h1
    obtain ⟨o, w2⟩ := r
    simp only at h1
    subst h1
    obtain ⟨task2, hg3, -, -, ht2, hj2⟩ := DeleteTask_none _ w id w2 hr
    rw [hg2] at hg3
    cases hg3
    exact ⟨rfl, ht2.trans ht.symm, hj2.trans hj.symm⟩

theorem DeleteTask_success_witness :
    DeleteTask removeFailsEnv worldWithJob 1 =
      (none, { worldWithJob with tasks := [], jobs := [] }) ∧
    (∀ t ∈ ({ worldWithJob with tasks := [], jobs := [] } : World).tasks, t.ID ≠ 1) :=
  ⟨by decide,
   (DeleteTask_success removeFailsEnv worldWithJob 1 { worldWithJob with tasks := [], jobs := [] }
     (by decide)).1⟩

/-! ## The two writes of an execution record -/

theorem dbUpdateIsEnabled_executions (env : Env) (w : World) (task : Task) (v : Bool) :
    (dbUpdateIsEnabled env w task v).2.executions = w.executions := by
  unfold dbUpdateIsEnabled
  split <;> rfl

/-- The execution records after `executeTask`, for a task with a command: those
after the second write. -/
theorem executeTask_executions (env : Env) (w : World) (task : Task) (hCmd : task.Command ≠ []) :
    (executeTask env w task).executions =
      (execSave env (executeTaskRunning env w task)
        (match (env.runCommand task.Command).2 with
         | some msg =>
           { (execCreate env w (runningExecution env task)).2.1 with
               CompletedAt := some env.completedAt,
               Duration := Int.tdiv (env.completedAt - env.startTime) 1000000,
               Output := (env.runCommand task.Command).1,
               Status := "failed".toList, ErrorMsg := msg }
         | none =>
           { (execCreate env w (runningExecution env task)).2.1 with
               CompletedAt := some env.completedAt,
               Duration := Int.tdiv (env.completedAt - env.startTime) 1000000,
               Output := (env.runCommand task.Command).1,
               Status := "success".toList })).2.executions := by
  unfold executeTask
  rw [if_neg hCmd]
  simp only [executeTaskRunning, runningExecution]
  split
  · split
    · rw [(UnscheduleTask_frame _ _ _).2.2.1, dbUpdateIsEnabled_executions]
    · rw [dbUpdateIsEnabled_executions]
  · rfl

/-- C19, as stated, fails when a write to the Execution Store fails, which
`executeTask` only logs.  When the first write fails, no `running` record
exists while the command runs and the second write inserts a new record at
once in its final state; when the second write fails, the record stays
`running` without completed-at. -/
theorem execution_record_writes_can_fail :
    (executeTaskRunning execCreateFailsEnv emptyWorld (commandTask "* * * * *".toList)).executions
      = [] ∧
    (executeTask execCreateFailsEnv emptyWorld (commandTask "* * * * *".toList)).executions.map
        (fun e => (e.ID, e.Status)) = [(1, "success".toList)] ∧
    (executeTask execSaveFailsEnv emptyWorld (commandTask "* * * * *".toList)).executions.map
        (fun e => (e.ID, e.Status, e.CompletedAt)) = [(1, "running".toList, none)] := by
  refine ⟨?_, ?_, ?_⟩ <;> decide

/-- C19, amended: for every fire of a task with a non-empty command, provided
the two writes to the Execution Store succeed, `executeTask` first adds one
record for the task's id with status `running`, started-at set, no
completed-at and duration 0, and after the command returned rewrites the
record with that id: status `failed` exactly when the command returned an
error and `success` otherwise, completed-at set, duration the milliseconds
between started-at and completed-at, the combined output stored, and an error
message only with status `failed`. -/
theorem execution_record_two_phases (env : Env) (w : World) (task : Task)
    (hCmd : task.Command ≠ []) (hCreate : env.execCreateFails = false)
    (hSave : env.execSaveFails = false) :
    (executeTaskRunning env w task).executions =
      w.executions ++
        [{ ID := w.nextExecutionID + 1, TaskID := task.ID, Status := "running".toList,
           StartedAt := env.startTime, CompletedAt := none, Duration := 0, Output := [],
           ErrorMsg := [] }] ∧
    ∃ final : TaskExecution,
      (executeTask env w task).executions =
        (executeTaskRunning env w task).executions.map
          (fun x => if x.ID = w.nextExecutionID + 1 then final else x) ∧
      final.ID = w.nextExecutionID + 1 ∧ final.TaskID = task.ID ∧
      final.StartedAt = env.startTime ∧ final.CompletedAt = some env.completedAt ∧
      final.Duration = Int.tdiv (env.completedAt - env.startTime) 1000000 ∧
      final.Output = (env.runCommand task.Command).1 ∧
      (final.Status = "failed".toList ↔ (env.runCommand task.Command).2 ≠ none) ∧
      (final.Status = "success".toList ↔ (env.runCommand task.Command).2 = none) ∧
      (∀ msg, (env.runCommand task.Command).2 = some msg → final.ErrorMsg = msg) ∧
      (final.ErrorMsg ≠ [] → final.Status = "failed".toList) := by
  have hrun : (executeTaskRunning env w task).executions =
      w.executions ++
        [{ ID := w.nextExecutionID + 1, TaskID := task.ID, Status := "running".toList,
           StartedAt := env.startTime, CompletedAt := none, Duration := 0, Output := [],
           ErrorMsg := [] }] := by
    simp [executeTaskRunning, execCreate, hCreate, runningExecution]
  have hrec : (execCreate env w (runningExecution env task)).2.1 =
      { runningExecution env task with ID := w.nextExecutionID + 1 } := by
    simp [execCreate, hCreate]
  have hsave : ∀ e : TaskExecution, e.ID = w.nextExecutionID + 1 →
      (execSave env (executeTaskRunning env w task) e).2.executions =
        (executeTaskRunning env w task).executions.map
          (fun x => if x.ID = w.nextExecutionID + 1 then e else x) := by
    intro e he
    unfold execSave
    rw [hSave]
    simp only [Bool.false_eq_true, if_false]
    rw [if_neg (by rw [he]; exact Nat.succ_ne_zero _)]
    rw [if_pos (by rw [hrun, he]; simp)]
    rw [he]
  refine ⟨hrun, ?_⟩
  rw [executeTask_executions env w task hCmd, hrec]
  cases hout : (env.runCommand task.Command).2 with
  | none =>
    refine ⟨_, hsave _ rfl, rfl, rfl, rfl, rfl, rfl, rfl, ?_, ?_, ?_, ?_⟩
    · simp only [ne_eq, not_true_eq_false, iff_false]
      decide
    · simp
    · intro msg h; cases h
    · intro h; exact absurd rfl h
  | some msg =>
    refine ⟨_, hsave _ rfl, rfl, rfl, rfl, rfl, rfl, rfl, ?_, ?_, ?_, ?_⟩
    · simp
    · simp only [reduceCtorEq, iff_false]
      decide
    · intro m h; cases h; rfl
    · intro _; rfl

theorem execution_record_two_phases_witness :
    (commandTask "* * * * *".toList).Command ≠ [] ∧ sampleEnv.execCreateFails = false ∧
    sampleEnv.execSaveFails = false ∧
    (executeTaskRunning sampleEnv emptyWorld (commandTask "* * * * *".toList)).executions =
      [{ ID := 1, TaskID := 1, Status := "running".toList, StartedAt := 2000000000,
         CompletedAt := none, Duration := 0, Output := [], ErrorMsg := [] }] ∧
    (executeTask sampleEnv emptyWorld (commandTask "* * * * *".toList)).executions =
      [{ ID := 1, TaskID := 1, Status := "success".toList, StartedAt := 2000000000,
         CompletedAt := some 2750000000, Duration := 750, Output := "hi\n".toList,
         ErrorMsg := [] }] :=
  ⟨by decide, rfl, rfl,
   (execution_record_two_phases sampleEnv emptyWorld (commandTask "* * * * *".toList)
     (by decide) rfl rfl).1,
   by decide⟩

/-! ## Frame lemmas for Update -/

theorem unscheduleCurrent_frame (env : Env) (w : World) (task : Task) :
    (unscheduleCurrent env w task).1 = { task with GocronJobID := 0 } ∧
    (unscheduleCurrent env w task).2.tasks = w.tasks ∧
    (unscheduleCurrent env w task).2.files = w.files ∧
    (unscheduleCurrent env w task).2.nextJobID = w.nextJobID ∧
    (∀ j ∈ (unscheduleCurrent env w task).2.jobs, j ∈ w.jobs) ∧
    (task.GocronJobID = 0 → (unscheduleCurrent env w task).2 = w) ∧
    (task.GocronJobID ≠ 0 →
      (unscheduleCurrent env w task).2.jobs =
        w.jobs.filter (fun j => j.ID != task.GocronJobID)) := by
  unfold unscheduleCurrent
  by_cases h : task.GocronJobID ≠ 0
  · rw [if_pos h]
    obtain ⟨f1, f2, -, f4, -, -, -, f8, f9⟩ := UnscheduleTask_frame env w task.GocronJobID
    exact ⟨rfl, f1, f2, f4, f8, fun h0 => absurd h0 h, fun _ => f9⟩
  · rw [if_neg h]
    have h0 : task.GocronJobID = 0 := by simpa using h
    refine ⟨?_, rfl, rfl, rfl, fun j hj => hj, fun _ => rfl, fun h1 => absurd h0 h1⟩
    cases task
    simp only at h0
    subst h0
    rfl

theorem DeleteScriptFile_frame2 (env : Env) (w : World) (scriptPath : Str) :
    (DeleteScriptFile env w scriptPath).2.nextJobID = w.nextJobID ∧
    (DeleteScriptFile env w scriptPath).2.executions = w.executions ∧
    (∀ f ∈ (DeleteScriptFile env w scriptPath).2.files, f ∈ w.files) := by
  unfold DeleteScriptFile Remove
  by_cases hp : scriptPath = []
  · simp [hp]
  · cases hr : env.removeFails (env.filepathJoin env.dataDir scriptPath) with
    | true => simp [hp, hr]
    | false =>
      simp only [hp, hr, if_false, Bool.false_eq_true]
      exact ⟨trivial, trivial, fun f hf => (List.mem_filter.1 hf).1⟩

theorem lookup_cons_self (l : List (Str × Str)) (p c : Str) :
    ((p, c) :: l).lookup p = some c := by
  simp [List.lookup]

/-- What a successful `UpdateScriptFile` returns and writes. -/
theorem UpdateScriptFile_ok (env : Env) (w : World) (taskID : Nat)
    (taskName scriptType content oldScriptPath scriptPath execCommand : Str) (w1 : World)
    (h : UpdateScriptFile env w taskID taskName scriptType content oldScriptPath =
      (.ok (scriptPath, execCommand), w1)) :
    w1.tasks = w.tasks ∧ w1.jobs = w.jobs ∧ w1.nextJobID = w.nextJobID ∧
    (scriptType = "command".toList → scriptPath = [] ∧ execCommand = content) ∧
    (scriptType ≠ "command".toList →
      scriptPath = scriptPathOf env taskID scriptType ∧
      execCommand = generateExecCommand scriptType (fullPathOf env taskID scriptType) ∧
      getScriptExtension scriptType ≠ [] ∧
      w1.files.lookup (fullPathOf env taskID scriptType) =
        some (if hasScriptHeader content then content
              else generateScriptContent env taskID taskName scriptType content)) := by
  unfold UpdateScriptFile at h
  simp only at h
  have hw0 : ∀ w0 : World, w0 = (if oldScriptPath ≠ [] then (DeleteScriptFile env w oldScriptPath).2
      else w) → w0.tasks = w.tasks ∧ w0.jobs = w.jobs ∧ w0.nextJobID = w.nextJobID := by
    intro w0 hw0
    by_cases hp : oldScriptPath ≠ []
    · rw [if_pos hp] at hw0
      subst hw0
      obtain ⟨d1, d2, -, -, -⟩ := DeleteScriptFile_frame env w oldScriptPath
      exact ⟨d1, d2, (DeleteScriptFile_frame2 env w oldScriptPath).1⟩
    · rw [if_neg hp] at hw0
      subst hw0
      exact ⟨rfl, rfl, rfl⟩
  generalize hg : (if oldScriptPath ≠ [] then (DeleteScriptFile env w oldScriptPath).2 else w) = w0
    at h
  obtain ⟨a1, a2, a3⟩ := hw0 w0 hg.symm
  by_cases hh : hasScriptHeader content = true
  · rw [if_pos hh] at h
    unfold CreateScriptFileWithContent at h
    by_cases hc : scriptType = "command".toList
    · rw [if_pos hc] at h
      simp only [Prod.mk.injEq, Except.ok.injEq] at h
      obtain ⟨⟨h1, h2⟩, h3⟩ := h
      subst h1; subst h2; subst h3
      exact ⟨a1, a2, a3, fun _ => ⟨rfl, rfl⟩, fun hn => absurd hc hn⟩
    · rw [if_neg hc] at h
      obtain ⟨b1, b2, b3, b4, b5, b6, -, b8⟩ := writeScriptFile_ok _ _ _ _ _ _ _ _ h
      refine ⟨b5.trans a1, b6.trans a2, b8.trans a3, fun hn => absurd hn hc, fun _ => ?_⟩
      refine ⟨b1, b2, b3, ?_⟩
      rw [b4, if_pos hh]
      exact lookup_cons_self _ _ _
  · rw [if_neg hh] at h
    obtain ⟨c1, c2, -, c4, c5, c6⟩ := CreateScriptFile_ok _ _ _ _ _ _ _ _ _ h
    refine ⟨c1.trans a1, c2.trans a2, c4.trans a3, fun hc => ?_, fun hc => ?_⟩
    · obtain ⟨q1, q2, -⟩ := c5 hc
      exact ⟨q1, q2⟩
    · obtain ⟨q1, q2, q3, q4⟩ := c6 hc
      refine ⟨q1, q2, q3, ?_⟩
      rw [q4, if_neg hh]
      exact lookup_cons_self _ _ _

/-- A failed `ScheduleTask` registers nothing and touches no file; the only
thing it can have written is `is_enabled = false` on the rows of the task. -/
theorem ScheduleTask_error (env : Env) (w : World) (task : Task) (e : Err) (w1 : World)
    (h : ScheduleTask env w task = (.error e, w1)) :
    w1.jobs = w.jobs ∧ w1.files = w.files ∧ w1.nextJobID = w.nextJobID ∧
    (w1.tasks = w.tasks ∨
      w1.tasks = w.tasks.map
        (fun t => if t.ID = task.ID then { t with IsEnabled := false } else t)) := by
  have hNew : ∀ d e0 w0, NewJob env w d task = (.error e0, w0) → w0 = w := by
    intro d e0 w0 hd
    unfold NewJob at hd
    split at hd
    · simp at hd
    · simp only [Prod.mk.injEq] at hd
      exact hd.2.symm
  have hcj : ∀ e0 w0, createJob env w task = (.error e0, w0) →
      w0.jobs = w.jobs ∧ w0.files = w.files ∧ w0.nextJobID = w.nextJobID ∧
      (w0.tasks = w.tasks ∨
        w0.tasks = w.tasks.map
          (fun t => if t.ID = task.ID then { t with IsEnabled := false } else t)) := by
    intro e0 w0 hc
    unfold createJob at hc
    split at hc
    · split at hc
      · simp only [Prod.mk.injEq] at hc
        obtain ⟨-, rfl⟩ := hc
        exact ⟨rfl, rfl, rfl, Or.inl rfl⟩
      · split at hc
        · simp only [Prod.mk.injEq] at hc
          obtain ⟨-, rfl⟩ := hc
          unfold dbUpdateIsEnabled
          split
          · exact ⟨rfl, rfl, rfl, Or.inl rfl⟩
          · exact ⟨rfl, rfl, rfl, Or.inr rfl⟩
        · rw [hNew _ _ _ hc]
          exact ⟨rfl, rfl, rfl, Or.inl rfl⟩
    · split at hc
      · split at hc
        · simp only [Prod.mk.injEq] at hc
          obtain ⟨-, rfl⟩ := hc
          exact ⟨rfl, rfl, rfl, Or.inl rfl⟩
        · rw [hNew _ _ _ hc]
          exact ⟨rfl, rfl, rfl, Or.inl rfl⟩
      · rw [hNew _ _ _ hc]
        exact ⟨rfl, rfl, rfl, Or.inl rfl⟩
  unfold ScheduleTask at h
  split at h
  · next e0 w0 heq =>
    simp only [Prod.mk.injEq] at h
    obtain ⟨-, rfl⟩ := h
    exact hcj e0 _ heq
  · simp at h

/-! ## The header guard of `UpdateScriptFile` -/

theorem getScriptExtension_ne_nil (scriptType : Str) (h : getScriptExtension scriptType ≠ []) :
    scriptType = "shell".toList ∨ scriptType = "python".toList := by
  unfold getScriptExtension at h
  by_cases h1 : scriptType = "shell".toList
  · exact Or.inl h1
  · by_cases h2 : scriptType = "python".toList
    · exact Or.inr h2
    · rw [if_neg h1, if_neg h2] at h
      exact absurd rfl h

theorem generateScriptContent_header (env : Env) (taskID : Nat)
    (taskName scriptType userContent : Str)
    (h : scriptType = "shell".toList ∨ scriptType = "python".toList) :
    ∃ header,
      (scriptType = "shell".toList → header = shellHeader taskName env.timestamp taskID) ∧
      (scriptType = "python".toList → header = pythonHeader taskName env.timestamp taskID) ∧
      generateScriptContent env taskID taskName scriptType userContent = header ++ userContent := by
  rcases h with h | h
  · refine ⟨shellHeader taskName env.timestamp taskID, fun _ => rfl, fun hp => ?_, ?_⟩
    · rw [h] at hp; exact absurd hp (by decide)
    · rw [h]; exact generateScriptContent_shell _ _ _ _
  · refine ⟨pythonHeader taskName env.timestamp taskID, fun hp => ?_, fun _ => rfl, ?_⟩
    · rw [h] at hp; exact absurd hp (by decide)
    · rw [h]; exact generateScriptContent_python _ _ _ _

/-- C11: when `UpdateScriptFile` succeeds for a script kind (which is then
shell or python), the file it wrote is the input itself, byte for byte, if the
input contains the header marker (nothing is put in front of it, so the update
adds no second header block), and otherwise the generated header followed by
the input: exactly one header in front of content that had no marker.  For an
inline command no file is written and the input is the command. -/
theorem UpdateScriptFile_header_guard (env : Env) (w : World) (taskID : Nat)
    (taskName scriptType content oldScriptPath scriptPath execCommand : Str) (w1 : World)
    (h : UpdateScriptFile env w taskID taskName scriptType content oldScriptPath =
      (.ok (scriptPath, execCommand), w1)) :
    (scriptType = "command".toList → scriptPath = [] ∧ execCommand = content) ∧
    (scriptType ≠ "command".toList →
      (scriptType = "shell".toList ∨ scriptType = "python".toList) ∧
      (hasScriptHeader content = true →
        w1.files.lookup (env.filepathJoin env.dataDir scriptPath) = some content ∧
        ∀ prepended : Str, prepended ≠ [] →
          w1.files.lookup (env.filepathJoin env.dataDir scriptPath) ≠
            some (prepended ++ content)) ∧
      (hasScriptHeader content = false →
        ∃ header,
          (scriptType = "shell".toList → header = shellHeader taskName env.timestamp taskID) ∧
          (scriptType = "python".toList → header = pythonHeader taskName env.timestamp taskID) ∧
          w1.files.lookup (env.filepathJoin env.dataDir scriptPath) =
            some (header ++ content))) := by
  obtain ⟨-, -, -, a4, a5⟩ := UpdateScriptFile_ok _ _ _ _ _ _ _ _ _ _ h
  refine ⟨a4, fun hk => ?_⟩
  obtain ⟨b1, -, b3, b4⟩ := a5 hk
  have hkind := getScriptExtension_ne_nil _ b3
  have hfull : env.filepathJoin env.dataDir scriptPath = fullPathOf env taskID scriptType := by
    rw [b1]; rfl
  rw [hfull]
  refine ⟨hkind, fun hh => ?_, fun hh => ?_⟩
  · rw [if_pos hh] at b4
    refine ⟨b4, fun prepended hp heq => ?_⟩
    rw [b4] at heq
    have hlen := congrArg List.length (Option.some.inj heq)
    rw [List.length_append] at hlen
    have : prepended.length = 0 := by omega
    exact hp (List.length_eq_zero.1 this)
  · rw [if_neg (by simp [hh])] at b4
    obtain ⟨header, g1, g2, g3⟩ :=
      generateScriptContent_header env taskID taskName scriptType content hkind
    exact ⟨header, g1, g2, by rw [b4, g3]⟩

theorem UpdateScriptFile_header_guard_witness :
    UpdateScriptFile sampleEnv worldWithJob 1 "job".toList "shell".toList jobScript
        "shell/task_1.sh".toList =
      (.ok ("shell/task_1.sh".toList, "/bin/bash data/shell/task_1.sh".toList), worldWithJob) ∧
    hasScriptHeader jobScript = true ∧
    worldWithJob.files.lookup
        (sampleEnv.filepathJoin sampleEnv.dataDir "shell/task_1.sh".toList) = some jobScript :=
  ⟨by decide, by decide,
   (((UpdateScriptFile_header_guard sampleEnv worldWithJob 1 "job".toList "shell".toList
      jobScript "shell/task_1.sh".toList "shell/task_1.sh".toList
      "/bin/bash data/shell/task_1.sh".toList worldWithJob (by decide)).2 (by decide)).2.1
      (by decide)).1⟩

/-! ## The structure of Update -/

theorem UpdateTaskWithScript_eq (env : Env) (w : World) (id : Nat)
    (name command scriptType scheduleSpec : Str) (isEnabled : Bool) :
    UpdateTaskWithScript env w id name command scriptType scheduleSpec isEnabled =
      match ValidateScriptContent scriptType command with
      | some e => (.error (.invalidScriptContent e), w)
      | none =>
        match GetTaskByID env w id with
        | .error e => (.error e, w)
        | .ok task0 =>
          updateFrom env w id name command scriptType isEnabled task0
            (assignWithScript name scriptType scheduleSpec isEnabled) := rfl

theorem UpdateTaskFull_eq (env : Env) (w : World) (id : Nat)
    (name command scriptType scheduleSpec scheduleType : Str) (executeAt : Option Time)
    (isEnabled : Bool) :
    UpdateTaskFull env w id name command scriptType scheduleSpec scheduleType executeAt
        isEnabled =
      match ValidateScriptContent scriptType command with
      | some e => (.error (.invalidScriptContent e), w)
      | none =>
        match validateExecuteAt env scheduleType executeAt with
        | some e => (.error e, w)
        | none =>
          match GetTaskByID env w id with
          | .error e => (.error e, w)
          | .ok task0 =>
            updateFrom env w id name command scriptType isEnabled task0
              (assignFull name scriptType scheduleSpec scheduleType executeAt isEnabled) := rfl

theorem updateFrom_cases (env : Env) (w : World) (id : Nat) (name command scriptType : Str)
    (isEnabled : Bool) (task0 : Task) (assign : Task → Str → Str → Task) :
    (∃ e w2,
      UpdateScriptFile env (unscheduleCurrent env w task0).2 id name scriptType command
        task0.ScriptPath = (.error e, w2) ∧
      updateFrom env w id name command scriptType isEnabled task0 assign =
        (.error (.updateScriptFile e), w2)) ∨
    (∃ p c w2,
      UpdateScriptFile env (unscheduleCurrent env w task0).2 id name scriptType command
        task0.ScriptPath = (.ok (p, c), w2) ∧
      updateFrom env w id name command scriptType isEnabled task0 assign =
        updateTail env w2 (assign { task0 with GocronJobID := 0 } p c) isEnabled) := by
  have h1 := (unscheduleCurrent_frame env w task0).1
  unfold updateFrom
  generalize unscheduleCurrent env w task0 = r at h1
  obtain ⟨task, w1⟩ := r
  simp only at h1
  subst h1
  simp only
  generalize UpdateScriptFile env w1 id name scriptType command task0.ScriptPath = r
  obtain ⟨res, w2⟩ := r
  cases res with
  | error e => exact Or.inl ⟨e, w2, rfl, rfl⟩
  | ok pc =>
    obtain ⟨p, c⟩ := pc
    exact Or.inr ⟨p, c, w2, rfl, rfl⟩

theorem dbSave_cases (env : Env) (w : World) (task : Task) :
    (env.dbSaveFails task.ID = true ∧ dbSave env w task = (true, w)) ∨
    (env.dbSaveFails task.ID = false ∧ (dbSave env w task).1 = false ∧
      (dbSave env w task).2.jobs = w.jobs ∧ (dbSave env w task).2.files = w.files ∧
      ((∃ x ∈ w.tasks, x.ID = task.ID) →
        (dbSave env w task).2.tasks =
          w.tasks.map (fun x => if x.ID = task.ID then task else x)) ∧
      task ∈ (dbSave env w task).2.tasks) := by
  unfold dbSave
  cases hs : env.dbSaveFails task.ID with
  | true => exact Or.inl ⟨rfl, by simp⟩
  | false =>
    refine Or.inr ⟨rfl, ?_⟩
    simp only [Bool.false_eq_true, if_false]
    by_cases hany : (w.tasks.any fun t => t.ID == task.ID) = true
    · rw [if_pos hany]
      refine ⟨rfl, rfl, rfl, fun _ => rfl, ?_⟩
      simp only [List.any_eq_true, beq_iff_eq] at hany
      obtain ⟨x, hx, hxid⟩ := hany
      exact List.mem_map.2 ⟨x, hx, by simp [hxid]⟩
    · rw [if_neg hany]
      refine ⟨rfl, rfl, rfl, fun hex => ?_, by simp⟩
      obtain ⟨x, hx, hxid⟩ := hex
      exact absurd (List.any_eq_true.2 ⟨x, hx, by simp [hxid]⟩) hany

theorem persistUpdated_ok (env : Env) (w : World) (task : Task) (isEnabled : Bool)
    (t : Task) (w' : World) (h : persistUpdated env w task isEnabled = (.ok t, w')) :
    t = task ∧ env.dbSaveFails task.ID = false ∧ w'.jobs = w.jobs ∧ w'.files = w.files ∧
    ((∃ x ∈ w.tasks, x.ID = task.ID) →
      w'.tasks = w.tasks.map (fun x => if x.ID = task.ID then task else x)) ∧
    task ∈ w'.tasks := by
  unfold persistUpdated at h
  rcases dbSave_cases env w task with ⟨-, hs⟩ | ⟨hf, h1, h2, h3, h4, h5⟩
  · rw [hs] at h; simp at h
  · generalize dbSave env w task = r at h h1 h2 h3 h4 h5
    obtain ⟨b, w1⟩ := r
    simp only at h1
    subst h1
    simp only [Prod.mk.injEq, Except.ok.injEq] at h
    obtain ⟨rfl, rfl⟩ := h
    exact ⟨rfl, hf, h2, h3, h4, h5⟩

theorem persistUpdated_error (env : Env) (w : World) (task : Task) (isEnabled : Bool)
    (e : Err) (w' : World) (h : persistUpdated env w task isEnabled = (.error e, w')) :
    e = .updateTaskInDatabase ∧
    w' = (if isEnabled && task.GocronJobID ≠ 0
          then (UnscheduleTask env w task.GocronJobID).2 else w) := by
  unfold persistUpdated at h
  rcases dbSave_cases env w task with ⟨-, hs⟩ | ⟨hf, h1, -⟩
  · rw [hs] at h
    simp only [Prod.mk.injEq, Except.error.injEq] at h
    exact ⟨h.1.symm, h.2.symm⟩
  · generalize dbSave env w task = r at h h1
    obtain ⟨b, w1⟩ := r
    simp only at h1
    subst h1
    simp at h

theorem setCaptured_frame (w : World) (id : UUID) (task : Task) :
    (setCaptured w id task).tasks = w.tasks ∧ (setCaptured w id task).files = w.files ∧
    (setCaptured w id task).nextJobID = w.nextJobID ∧
    (setCaptured w id task).executions = w.executions ∧
    (∀ j ∈ (setCaptured w id task).jobs, j.ID ≠ id → j ∈ w.jobs) ∧
    (∀ j ∈ w.jobs, ∃ j' ∈ (setCaptured w id task).jobs, j'.ID = j.ID) := by
  unfold setCaptured
  refine ⟨rfl, rfl, rfl, rfl, ?_, ?_⟩
  · intro j hj hne
    simp only [List.mem_map] at hj
    obtain ⟨x, hx, hxj⟩ := hj
    by_cases hxid : x.ID = id
    · rw [if_pos hxid] at hxj
      subst hxj
      exact absurd hxid hne
    · rw [if_neg hxid] at hxj
      subst hxj
      exact hx
  · intro j hj
    refine ⟨_, List.mem_map.2 ⟨j, hj, rfl⟩, ?_⟩
    split <;> rfl

/-- What a successful `updateTail` returns and stores. -/
theorem updateTail_ok (env : Env) (w : World) (task : Task) (isEnabled : Bool)
    (t : Task) (w' : World) (h : updateTail env w task isEnabled = (.ok t, w')) :
    t = { task with GocronJobID := if isEnabled then w.nextJobID + 1 else task.GocronJobID } ∧
    env.dbSaveFails task.ID = false ∧ w'.files = w.files ∧
    ((∃ x ∈ w.tasks, x.ID = task.ID) →
      w'.tasks = w.tasks.map (fun x => if x.ID = task.ID then t else x)) ∧
    t ∈ w'.tasks ∧
    (isEnabled = true → ∃ j ∈ w'.jobs, j.ID = t.GocronJobID) ∧
    (isEnabled = false → w'.jobs = w.jobs) := by
  unfold updateTail at h
  cases isEnabled with
  | false =>
    simp only [Bool.false_eq_true, if_false] at h
    obtain ⟨p1, p2, p3, p4, p5, p6⟩ := persistUpdated_ok _ _ _ _ _ _ h
    subst p1
    exact ⟨rfl, p2, p4, p5, p6, (fun h0 => by cases h0), fun _ => p3⟩
  | true =>
    simp only [if_true] at h
    generalize hst : ScheduleTask env w task = r at h
    obtain ⟨res, w1⟩ := r
    cases res with
    | error e => simp at h
    | ok id =>
      simp only at h
      obtain ⟨hid, d, hw1⟩ := ScheduleTask_ok _ _ _ _ _ hst
      obtain ⟨p1, p2, p3, p4, p5, p6⟩ := persistUpdated_ok _ _ _ _ _ _ h
      subst p1
      subst hid
      refine ⟨rfl, p2, ?_, ?_, p6, fun _ => ?_, (fun h0 => by cases h0)⟩
      · rw [p4, hw1]; rfl
      · intro hex
        have : (setCaptured w1 (w.nextJobID + 1)
            { task with GocronJobID := w.nextJobID + 1 }).tasks = w.tasks := by
          rw [hw1]; rfl
        rw [this] at p5
        exact p5 hex
      · rw [p3, hw1]
        simp only [setCaptured, List.map_append, List.map_cons, List.map_nil, if_true]
        exact ⟨_, List.mem_append_right _ (List.mem_singleton.2 rfl), rfl⟩

/-- The two ways `updateTail` fails: the registration failed and nothing was
persisted, or the persist failed and the new trigger was unscheduled. -/
theorem updateTail_error (env : Env) (w : World) (task : Task) (isEnabled : Bool)
    (e : Err) (w' : World) (h : updateTail env w task isEnabled = (.error e, w')) :
    (∃ e', e = .scheduleUpdatedTask e' ∧ isEnabled = true ∧
      ScheduleTask env w task = (.error e', w')) ∨
    (e = .updateTaskInDatabase ∧ env.dbSaveFails task.ID = true ∧
      w'.tasks = w.tasks ∧ w'.files = w.files ∧
      (isEnabled = false → w' = w) ∧
      (isEnabled = true → ∀ j ∈ w'.jobs, j ∈ w.jobs ∧ j.ID ≠ w.nextJobID + 1)) := by
  unfold updateTail at h
  cases isEnabled with
  | false =>
    simp only [Bool.false_eq_true, if_false] at h
    obtain ⟨p1, p2⟩ := persistUpdated_error _ _ _ _ _ _ h
    simp only [Bool.false_and, Bool.false_eq_true, if_false] at p2
    subst p2
    have hs : env.dbSaveFails task.ID = true := by
      rcases dbSave_cases env w' task with ⟨hs, -⟩ | ⟨hf, h1, -⟩
      · exact hs
      · unfold persistUpdated at h
        generalize dbSave env w' task = r at h h1
        obtain ⟨b, w1⟩ := r
        simp only at h1
        subst h1
        simp at h
    exact Or.inr ⟨p1, hs, rfl, rfl, fun _ => rfl, (fun h0 => by cases h0)⟩
  | true =>
    simp only [if_true] at h
    generalize hst : ScheduleTask env w task = r at h
    obtain ⟨res, w1⟩ := r
    cases res with
    | error e' =>
      simp only [Prod.mk.injEq, Except.error.injEq] at h
      obtain ⟨rfl, rfl⟩ := h
      exact Or.inl ⟨e', rfl, rfl, rfl⟩
    | ok id =>
      simp only at h
      obtain ⟨hid, d, hw1⟩ := ScheduleTask_ok _ _ _ _ _ hst
      subst hid
      obtain ⟨p1, p2⟩ := persistUpdated_error _ _ _ _ _ _ h
      have hs : env.dbSaveFails task.ID = true := by
        rcases dbSave_cases env (setCaptured w1 (w.nextJobID + 1)
            { task with GocronJobID := w.nextJobID + 1 })
            { task with GocronJobID := w.nextJobID + 1 } with ⟨hs, -⟩ | ⟨hf, h1, -⟩
        · exact hs
        · unfold persistUpdated at h
          generalize dbSave env _ _ = r at h h1
          obtain ⟨b, w3⟩ := r
          simp only at h1
          subst h1
          simp at h
      have hcond : (true && decide (({ task with GocronJobID := w.nextJobID + 1 } : Task).GocronJobID
          ≠ 0)) = true := by simp
      rw [if_pos hcond] at p2
      obtain ⟨f1, f2, -, -, -, -, -, f8, f9⟩ := UnscheduleTask_frame env
        (setCaptured w1 (w.nextJobID + 1) { task with GocronJobID := w.nextJobID + 1 })
        (w.nextJobID + 1)
      obtain ⟨s1, s2, -, -, s5, -⟩ := setCaptured_frame w1 (w.nextJobID + 1)
        { task with GocronJobID := w.nextJobID + 1 }
      refine Or.inr ⟨p1, hs, ?_, ?_, (fun h0 => by cases h0), fun _ => ?_⟩
      · rw [p2]
        show (UnscheduleTask env _ (w.nextJobID + 1)).2.tasks = _
        rw [f1, s1, hw1]
      · rw [p2]
        show (UnscheduleTask env _ (w.nextJobID + 1)).2.files = _
        rw [f2, s2, hw1]
      · intro j hj
        rw [p2] at hj
        have hj' : j ∈ (UnscheduleTask env (setCaptured w1 (w.nextJobID + 1)
            { task with GocronJobID := w.nextJobID + 1 }) (w.nextJobID + 1)).2.jobs := hj
        rw [f9] at hj'
        obtain ⟨hmem, hne⟩ := List.mem_filter.1 hj'
        have hne' : j.ID ≠ w.nextJobID + 1 := by simpa using hne
        have := s5 j hmem hne'
        rw [hw1] at this
        simp only [List.mem_append, List.mem_singleton] at this
        rcases this with h1 | h1
        · exact ⟨h1, hne'⟩
        · rw [h1] at hne'
          exact absurd rfl hne'

/-- `updateFrom` when the registration of the trigger fails. -/
theorem updateFrom_schedule_error (env : Env) (w : World) (id : Nat)
    (name command scriptType : Str) (isEnabled : Bool) (task0 : Task)
    (assign : Task → Str → Str → Task) (hA : ∀ t p c, (assign t p c).ID = t.ID)
    (e : Err) (w' : World)
    (h : updateFrom env w id name command scriptType isEnabled task0 assign =
      (.error (.scheduleUpdatedTask e), w')) :
    isEnabled = true ∧
    (∀ j ∈ w'.jobs, j ∈ w.jobs) ∧
    (task0.GocronJobID ≠ 0 →
      w'.jobs = w.jobs.filter (fun j => j.ID != task0.GocronJobID)) ∧
    (w'.tasks = w.tasks ∨
      w'.tasks = w.tasks.map
        (fun t => if t.ID = task0.ID then { t with IsEnabled := false } else t)) ∧
    (scriptType ≠ "command".toList →
      w'.files.lookup (fullPathOf env id scriptType) =
        some (if hasScriptHeader command then command
              else generateScriptContent env id name scriptType command)) := by
  rcases updateFrom_cases env w id name command scriptType isEnabled task0 assign with
    ⟨e1, w2, -, h2⟩ | ⟨p, c, w2, h1, h2⟩
  · rw [h2] at h; simp at h
  · rw [h2] at h
    rcases updateTail_error _ _ _ _ _ _ h with ⟨e', he, hen, hst⟩ | ⟨he, -⟩
    · obtain ⟨u1, u2, u3, u4, u5⟩ := UpdateScriptFile_ok _ _ _ _ _ _ _ _ _ _ h1
      obtain ⟨-, c2, -, -, c5, -, c7⟩ := unscheduleCurrent_frame env w task0
      obtain ⟨s1, s2, -, s4⟩ := ScheduleTask_error _ _ _ _ _ hst
      rw [hA] at s4
      refine ⟨hen, ?_, ?_, ?_, ?_⟩
      · intro j hj
        rw [s1, u2] at hj
        exact c5 j hj
      · intro hh
        rw [s1, u2]
        exact c7 hh
      · rw [u1, c2] at s4
        exact s4
      · intro hk
        rw [s2]
        exact (u5 hk).2.2.2
    · cases he

/-- `updateFrom` when the final persist fails. -/
theorem updateFrom_persist_error (env : Env) (w : World) (id : Nat)
    (name command scriptType : Str) (isEnabled : Bool) (task0 : Task)
    (assign : Task → Str → Str → Task) (w' : World)
    (h : updateFrom env w id name command scriptType isEnabled task0 assign =
      (.error .updateTaskInDatabase, w')) :
    w'.tasks = w.tasks ∧
    (isEnabled = false → ∀ j ∈ w'.jobs, j ∈ w.jobs) ∧
    (isEnabled = true → ∀ j ∈ w'.jobs, j ∈ w.jobs ∧ j.ID ≠ w.nextJobID + 1) := by
  rcases updateFrom_cases env w id name command scriptType isEnabled task0 assign with
    ⟨e1, w2, -, h2⟩ | ⟨p, c, w2, h1, h2⟩
  · rw [h2] at h; simp at h
  · rw [h2] at h
    obtain ⟨u1, u2, u3, -, -⟩ := UpdateScriptFile_ok _ _ _ _ _ _ _ _ _ _ h1
    obtain ⟨-, c2, -, c4, c5, -, -⟩ := unscheduleCurrent_frame env w task0
    rcases updateTail_error _ _ _ _ _ _ h with ⟨e', he, -⟩ | ⟨-, -, t1, -, t3, t4⟩
    · cases he
    · rw [u3, c4] at t4
      refine ⟨by rw [t1, u1, c2], ?_, ?_⟩
      · intro hen j hj
        rw [t3 hen, u2] at hj
        exact c5 j hj
      · intro hen j hj
        obtain ⟨a, b⟩ := t4 hen j hj
        rw [u2] at a
        exact ⟨c5 j a, b⟩

/-- A successful `updateFrom`: what it returns, stores and writes. -/
theorem updateFrom_ok (env : Env) (w : World) (id : Nat)
    (name command scriptType : Str) (isEnabled : Bool) (task0 : Task)
    (assign : Task → Str → Str → Task) (hA : ∀ t p c, (assign t p c).ID = t.ID)
    (hMem : task0 ∈ w.tasks) (t : Task) (w' : World)
    (h : updateFrom env w id name command scriptType isEnabled task0 assign = (.ok t, w')) :
    ∃ p c,
      t = { assign { task0 with GocronJobID := 0 } p c with
              GocronJobID := if isEnabled then w.nextJobID + 1
                             else (assign { task0 with GocronJobID := 0 } p c).GocronJobID } ∧
      (scriptType = "command".toList → p = [] ∧ c = command) ∧
      (scriptType ≠ "command".toList →
        p = scriptPathOf env id scriptType ∧
        c = generateExecCommand scriptType (fullPathOf env id scriptType) ∧
        getScriptExtension scriptType ≠ [] ∧
        w'.files.lookup (fullPathOf env id scriptType) =
          some (if hasScriptHeader command then command
                else generateScriptContent env id name scriptType command)) ∧
      w'.tasks = w.tasks.map (fun x => if x.ID = task0.ID then t else x) ∧
      t ∈ w'.tasks ∧
      (isEnabled = true → ∃ j ∈ w'.jobs, j.ID = t.GocronJobID) := by
  rcases updateFrom_cases env w id name command scriptType isEnabled task0 assign with
    ⟨e1, w2, -, h2⟩ | ⟨p, c, w2, h1, h2⟩
  · rw [h2] at h; simp at h
  · rw [h2] at h
    obtain ⟨u1, u2, u3, u4, u5⟩ := UpdateScriptFile_ok _ _ _ _ _ _ _ _ _ _ h1
    obtain ⟨-, c2, -, c4, -, -, -⟩ := unscheduleCurrent_frame env w task0
    obtain ⟨t1, -, t3, t4, t5, t6, -⟩ := updateTail_ok _ _ _ _ _ _ h
    rw [u3, c4] at t1
    rw [hA] at t4
    refine ⟨p, c, t1, u4, fun hk => ?_, ?_, t5, t6⟩
    · obtain ⟨q1, q2, q3, q4⟩ := u5 hk
      exact ⟨q1, q2, q3, by rw [t3]; exact q4⟩
    · rw [u1, c2] at t4
      exact t4 ⟨task0, hMem, rfl⟩

/-! ## Update: failure of the registration and of the final persist -/

/-- C12, as stated, fails: Update has no rollback for a failed registration.
The enabled shell task `job` is updated with new content while gocron rejects
the job: `UpdateTaskFull` returns the registration error, and afterwards the
trigger the task had is gone from the scheduler, the script file holds the new
content, and the row still says enabled with the old handle. -/
theorem failed_update_is_not_rolled_back :
    (UpdateTaskFull rejectingEnv worldWithJob 1 "job".toList "echo bye".toList "shell".toList
        "* * * * *".toList "cron".toList none true).1 =
      .error (.scheduleUpdatedTask (.createJob .gocronNewJob)) ∧
    worldWithJob.jobs.map (fun j => j.ID) = [1] ∧
    (UpdateTaskFull rejectingEnv worldWithJob 1 "job".toList "echo bye".toList "shell".toList
        "* * * * *".toList "cron".toList none true).2.jobs = [] ∧
    worldWithJob.files = [("data/shell/task_1.sh".toList, jobScript)] ∧
    (UpdateTaskFull rejectingEnv worldWithJob 1 "job".toList "echo bye".toList "shell".toList
        "* * * * *".toList "cron".toList none true).2.files =
      [("data/shell/task_1.sh".toList,
        "#!/bin/bash\n# B1Cron Task: job\n# Created: 2024-05-01 10:00:00\n# Task ID: 1\n\necho bye".toList)] ∧
    (UpdateTaskFull rejectingEnv worldWithJob 1 "job".toList "echo bye".toList "shell".toList
        "* * * * *".toList "cron".toList none true).2.tasks = [jobTask] := by
  refine ⟨?_, ?_, ?_, ?_, ?_, ?_⟩ <;> decide

/-- C12, amended: if validation fails during Update (`UpdateTaskFull`,
`UpdateTaskWithScript`), Update returns an error and the world is unchanged.
If the trigger registration fails, Update returns an error, registers no
trigger and does not write the new fields to the Task Store (the only write
the rows can have seen is `is_enabled = false`, for an expired one-shot task);
what the call did before is not undone: the trigger the task had stays
unregistered and the script file stays replaced by the new content. -/
theorem update_failure_effects (env : Env) (w : World) (id : Nat)
    (name command scriptType scheduleSpec scheduleType : Str) (executeAt : Option Time)
    (isEnabled : Bool) :
    ∀ r, (r = UpdateTaskFull env w id name command scriptType scheduleSpec scheduleType
            executeAt isEnabled ∨
          r = UpdateTaskWithScript env w id name command scriptType scheduleSpec isEnabled) →
      (ValidateScriptContent scriptType command ≠ none → ∃ e, r = (.error e, w)) ∧
      (r = UpdateTaskFull env w id name command scriptType scheduleSpec scheduleType
            executeAt isEnabled →
        validateExecuteAt env scheduleType executeAt ≠ none → ∃ e, r = (.error e, w)) ∧
      (∀ e, r.1 = .error (.scheduleUpdatedTask e) →
        ∃ task0, GetTaskByID env w id = .ok task0 ∧ isEnabled = true ∧
          (∀ j ∈ r.2.jobs, j ∈ w.jobs) ∧
          (task0.GocronJobID ≠ 0 →
            r.2.jobs = w.jobs.filter (fun j => j.ID != task0.GocronJobID)) ∧
          (r.2.tasks = w.tasks ∨
            r.2.tasks = w.tasks.map
              (fun t => if t.ID = id then { t with IsEnabled := false } else t)) ∧
          (scriptType ≠ "command".toList →
            r.2.files.lookup (fullPathOf env id scriptType) =
              some (if hasScriptHeader command then command
                    else generateScriptContent env id name scriptType command))) := by
  have key : ∀ (task0 : Task) (assign : Task → Str → Str → Task)
      (r : Except Err Task × World), (∀ t p c, (assign t p c).ID = t.ID) →
      GetTaskByID env w id = .ok task0 →
      r = updateFrom env w id name command scriptType isEnabled task0 assign →
      ∀ e, r.1 = .error (.scheduleUpdatedTask e) →
        ∃ task0, GetTaskByID env w id = .ok task0 ∧ isEnabled = true ∧
          (∀ j ∈ r.2.jobs, j ∈ w.jobs) ∧
          (task0.GocronJobID ≠ 0 →
            r.2.jobs = w.jobs.filter (fun j => j.ID != task0.GocronJobID)) ∧
          (r.2.tasks = w.tasks ∨
            r.2.tasks = w.tasks.map
              (fun t => if t.ID = id then { t with IsEnabled := false } else t)) ∧
          (scriptType ≠ "command".toList →
            r.2.files.lookup (fullPathOf env id scriptType) =
              some (if hasScriptHeader command then command
                    else generateScriptContent env id name scriptType command)) := by
    intro task0 assign r hA hg hr e he
    have h : updateFrom env w id name command scriptType isEnabled task0 assign =
        (.error (.scheduleUpdatedTask e), r.2) := by rw [← hr, ← he]
    obtain ⟨a1, a2, a3, a4, a5⟩ := updateFrom_schedule_error _ _ _ _ _ _ _ _ _ hA _ _ h
    rw [(GetTaskByID_ok _ _ _ _ hg).2.1] at a4
    exact ⟨task0, hg, a1, a2, a3, a4, a5⟩
  intro r hr
  rcases hr with hr | hr
  · rw [UpdateTaskFull_eq] at hr
    cases hv : ValidateScriptContent scriptType command with
    | some e0 =>
      rw [hv] at hr
      refine ⟨fun _ => ⟨_, hr⟩, fun _ _ => ⟨_, hr⟩, fun e he => ?_⟩
      rw [hr] at he; simp at he
    | none =>
      rw [hv] at hr
      simp only at hr
      cases hx : validateExecuteAt env scheduleType executeAt with
      | some e1 =>
        rw [hx] at hr
        refine ⟨fun h => absurd rfl h, fun _ _ => ⟨_, hr⟩, fun e he => ?_⟩
        rw [hr] at he
        simp only [Except.error.injEq] at he
        subst he
        unfold validateExecuteAt at hx
        split at hx
        · split at hx
          · cases hx
          · split at hx <;> cases hx
        · cases hx
      | none =>
        rw [hx] at hr
        simp only at hr
        refine ⟨fun h => absurd rfl h, fun _ h => absurd rfl h, ?_⟩
        cases hg : GetTaskByID env w id with
        | error e2 =>
          rw [hg] at hr
          intro e he
          rw [hr] at he
          simp only [Except.error.injEq] at he
          subst he
          unfold GetTaskByID at hg
          split at hg <;> cases hg
        | ok task0 =>
          rw [hg] at hr
          have hk := key task0
            (assignFull name scriptType scheduleSpec scheduleType executeAt isEnabled) r
            (fun _ _ _ => rfl) hg hr
          rw [hg] at hk
          exact hk
  · rw [UpdateTaskWithScript_eq] at hr
    cases hv : ValidateScriptContent scriptType command with
    | some e0 =>
      rw [hv] at hr
      refine ⟨fun _ => ⟨_, hr⟩, fun hf _ => ⟨_, hr⟩, fun e he => ?_⟩
      rw [hr] at he; simp at he
    | none =>
      rw [hv] at hr
      simp only at hr
      cases hg : GetTaskByID env w id with
      | error e2 =>
        rw [hg] at hr
        refine ⟨fun h => absurd rfl h, fun _ _ => ⟨_, hr⟩, fun e he => ?_⟩
        rw [hr] at he
        simp only [Except.error.injEq] at he
        subst he
        unfold GetTaskByID at hg
        split at hg <;> cases hg
      | ok task0 =>
        rw [hg] at hr
        have hk := key task0 (assignWithScript name scriptType scheduleSpec isEnabled) r
          (fun _ _ _ => rfl) hg hr
        rw [hg] at hk
        refine ⟨fun h => absurd rfl h, ?_, hk⟩
        intro hf hx
        -- `UpdateTaskWithScript` is not `UpdateTaskFull` here unless both fail the same way
        rw [UpdateTaskFull_eq, hv] at hf
        cases hx2 : validateExecuteAt env scheduleType executeAt with
        | none => exact absurd hx2 hx
        | some e1 =>
          rw [hx2] at hf
          exact ⟨_, hf⟩

theorem update_failure_effects_witness :
    (UpdateTaskFull rejectingEnv worldWithJob 1 "job".toList "echo bye".toList "shell".toList
        "* * * * *".toList "cron".toList none true).1 =
      .error (.scheduleUpdatedTask (.createJob .gocronNewJob)) ∧
    ∃ task0, GetTaskByID rejectingEnv worldWithJob 1 = .ok task0 ∧ true = true ∧
      (∀ j ∈ (UpdateTaskFull rejectingEnv worldWithJob 1 "job".toList "echo bye".toList
          "shell".toList "* * * * *".toList "cron".toList none true).2.jobs,
        j ∈ worldWithJob.jobs) :=
  ⟨by decide, by
    obtain ⟨task0, h1, h2, h3, -⟩ :=
      (update_failure_effects rejectingEnv worldWithJob 1 "job".toList "echo bye".toList
        "shell".toList "* * * * *".toList "cron".toList none true _ (Or.inl rfl)).2.2
        (.createJob .gocronNewJob) (by decide)
    exact ⟨task0, h1, h2, h3⟩⟩

theorem updateFrom_ok_saved (env : Env) (w : World) (id : Nat)
    (name command scriptType : Str) (isEnabled : Bool) (task0 : Task)
    (assign : Task → Str → Str → Task) (hA : ∀ t p c, (assign t p c).ID = t.ID)
    (t : Task) (w' : World)
    (h : updateFrom env w id name command scriptType isEnabled task0 assign = (.ok t, w')) :
    env.dbSaveFails task0.ID = false := by
  rcases updateFrom_cases env w id name command scriptType isEnabled task0 assign with
    ⟨e1, w2, -, h2⟩ | ⟨p, c, w2, -, h2⟩
  · rw [h2] at h
    cases h
  · rw [h2] at h
    have hs := (updateTail_ok _ _ _ _ _ _ h).2.1
    rw [hA] at hs
    exact hs

/-- C14: if the final persist fails during Update (`UpdateTaskFull`,
`UpdateTaskWithScript`), Update returns an error: it never returns success
when the `Save` of the row fails, and never without having stored the row.
When it returns the persist error, the rows of the Task Store are as before
the call and the trigger registered in the call is unregistered again: every
trigger the scheduler holds afterwards was registered before the call, and
none has the id of the new one. -/
theorem update_persist_failure (env : Env) (w : World) (id : Nat)
    (name command scriptType scheduleSpec scheduleType : Str) (executeAt : Option Time)
    (isEnabled : Bool) :
    ∀ r, (r = UpdateTaskFull env w id name command scriptType scheduleSpec scheduleType
            executeAt isEnabled ∨
          r = UpdateTaskWithScript env w id name command scriptType scheduleSpec isEnabled) →
      (env.dbSaveFails id = true → ∃ e, r.1 = .error e) ∧
      (∀ t, r.1 = .ok t → t ∈ r.2.tasks) ∧
      (r.1 = .error .updateTaskInDatabase →
        r.2.tasks = w.tasks ∧
        (∀ j ∈ r.2.jobs, j ∈ w.jobs) ∧
        (isEnabled = true → ∀ j ∈ r.2.jobs, j.ID ≠ w.nextJobID + 1)) := by
  have key : ∀ (task0 : Task) (assign : Task → Str → Str → Task)
      (r : Except Err Task × World), (∀ t p c, (assign t p c).ID = t.ID) →
      GetTaskByID env w id = .ok task0 →
      r = updateFrom env w id name command scriptType isEnabled task0 assign →
      (env.dbSaveFails id = true → ∃ e, r.1 = .error e) ∧
      (∀ t, r.1 = .ok t → t ∈ r.2.tasks) ∧
      (r.1 = .error .updateTaskInDatabase →
        r.2.tasks = w.tasks ∧
        (∀ j ∈ r.2.jobs, j ∈ w.jobs) ∧
        (isEnabled = true → ∀ j ∈ r.2.jobs, j.ID ≠ w.nextJobID + 1)) := by
    intro task0 assign r hA hg hr
    refine ⟨?_, ?_, ?_⟩
    · intro hs
      cases hr1 : r.1 with
      | error e => exact ⟨e, rfl⟩
      | ok t =>
        exfalso
        have h : updateFrom env w id name command scriptType isEnabled task0 assign =
            (.ok t, r.2) := by rw [← hr, ← hr1]
        have hsave := updateFrom_ok_saved _ _ _ _ _ _ _ _ _ hA _ _ h
        rw [(GetTaskByID_ok _ _ _ _ hg).2.1, hs] at hsave
        cases hsave
    · intro t ht
      have h : updateFrom env w id name command scriptType isEnabled task0 assign =
          (.ok t, r.2) := by rw [← hr, ← ht]
      obtain ⟨p, c, -, -, -, -, hmem, -⟩ :=
        updateFrom_ok _ _ _ _ _ _ _ _ _ hA (GetTaskByID_ok _ _ _ _ hg).1 _ _ h
      exact hmem
    · intro he
      have h : updateFrom env w id name command scriptType isEnabled task0 assign =
          (.error .updateTaskInDatabase, r.2) := by rw [← hr, ← he]
      obtain ⟨a1, a2, a3⟩ := updateFrom_persist_error _ _ _ _ _ _ _ _ _ _ h
      refine ⟨a1, ?_, fun hen j hj => (a3 hen j hj).2⟩
      cases isEnabled with
      | false => exact a2 rfl
      | true => exact fun j hj => (a3 rfl j hj).1
  have bad : ∀ (e0 : Err) (r : Except Err Task × World), r = (.error e0, w) →
      e0 ≠ .updateTaskInDatabase →
      (env.dbSaveFails id = true → ∃ e, r.1 = .error e) ∧
      (∀ t, r.1 = .ok t → t ∈ r.2.tasks) ∧
      (r.1 = .error .updateTaskInDatabase →
        r.2.tasks = w.tasks ∧
        (∀ j ∈ r.2.jobs, j ∈ w.jobs) ∧
        (isEnabled = true → ∀ j ∈ r.2.jobs, j.ID ≠ w.nextJobID + 1)) := by
    intro e0 r hr hne
    subst hr
    refine ⟨fun _ => ⟨e0, rfl⟩, (fun t ht => by simp at ht), fun he => ?_⟩
    simp only [Except.error.injEq] at he
    exact absurd he hne
  have hget : ∀ e2, GetTaskByID env w id = .error e2 → e2 ≠ .updateTaskInDatabase := by
    intro e2 hg
    unfold GetTaskByID at hg
    split at hg
    · cases hg; intro h; cases h
    · cases hg
  have hval : ∀ e1, validateExecuteAt env scheduleType executeAt = some e1 →
      e1 ≠ .updateTaskInDatabase := by
    intro e1 hx
    unfold validateExecuteAt at hx
    split at hx
    · split at hx
      · cases hx; intro h; cases h
      · split at hx
        · cases hx; intro h; cases h
        · cases hx
    · cases hx
  intro r hr
  rcases hr with hr | hr
  · rw [UpdateTaskFull_eq] at hr
    cases hv : ValidateScriptContent scriptType command with
    | some e0 => rw [hv] at hr; exact bad _ r hr (by intro h; cases h)
    | none =>
      rw [hv] at hr
      simp only at hr
      cases hx : validateExecuteAt env scheduleType executeAt with
      | some e1 => rw [hx] at hr; exact bad _ r hr (hval e1 hx)
      | none =>
        rw [hx] at hr
        simp only at hr
        cases hg : GetTaskByID env w id with
        | error e2 => rw [hg] at hr; exact bad _ r hr (hget e2 hg)
        | ok task0 =>
          rw [hg] at hr
          exact key task0
            (assignFull name scriptType scheduleSpec scheduleType executeAt isEnabled) r
            (fun _ _ _ => rfl) hg hr
  · rw [UpdateTaskWithScript_eq] at hr
    cases hv : ValidateScriptContent scriptType command with
    | some e0 => rw [hv] at hr; exact bad _ r hr (by intro h; cases h)
    | none =>
      rw [hv] at hr
      simp only at hr
      cases hg : GetTaskByID env w id with
      | error e2 => rw [hg] at hr; exact bad _ r hr (hget e2 hg)
      | ok task0 =>
        rw [hg] at hr
        exact key task0 (assignWithScript name scriptType scheduleSpec isEnabled) r
          (fun _ _ _ => rfl) hg hr

theorem update_persist_failure_witness :
    saveFailsEnv.dbSaveFails 1 = true ∧
    worldWithJob.jobs.map (fun j => j.ID) = [1] ∧
    (UpdateTaskFull saveFailsEnv worldWithJob 1 "job".toList "echo bye".toList
        "shell".toList "*/5 * * * *".toList "cron".toList none true).1 =
      .error .updateTaskInDatabase ∧
    (UpdateTaskFull saveFailsEnv worldWithJob 1 "job".toList "echo bye".toList
        "shell".toList "*/5 * * * *".toList "cron".toList none true).2.tasks =
      worldWithJob.tasks ∧
    (UpdateTaskFull saveFailsEnv worldWithJob 1 "job".toList "echo bye".toList
        "shell".toList "*/5 * * * *".toList "cron".toList none true).2.jobs = [] :=
  ⟨rfl, by decide, by decide,
   ((update_persist_failure saveFailsEnv worldWithJob 1 "job".toList "echo bye".toList
      "shell".toList "*/5 * * * *".toList "cron".toList none true _ (Or.inl rfl)).2.2
      (by decide)).1,
   by decide⟩

/-! ## Create: failure of the final persist -/

theorem dbDelete_frame (env : Env) (w : World) (task : Task) :
    (dbDelete env w task).2.jobs = w.jobs ∧ (dbDelete env w task).2.files = w.files := by
  unfold dbDelete
  split <;> exact ⟨rfl, rfl⟩

theorem persistCreated_error_world (env : Env) (w : World) (task : Task) (scriptPath : Str)
    (isEnabled : Bool) (e : Err) (w' : World)
    (h : persistCreated env w task scriptPath isEnabled = (.error e, w')) :
    e = .updateTaskInDatabase ∧
    w' = (dbDelete env
      (DeleteScriptFile env
        (if isEnabled && task.GocronJobID ≠ 0 then (UnscheduleTask env w task.GocronJobID).2
         else w) scriptPath).2 task).2 := by
  unfold persistCreated at h
  rcases dbSave_cases env w task with ⟨-, hs⟩ | ⟨hf, h1, -⟩
  · rw [hs] at h
    simp only [Prod.mk.injEq, Except.error.injEq] at h
    exact ⟨h.1.symm, h.2.symm⟩
  · generalize dbSave env w task = r at h h1
    obtain ⟨b, w1⟩ := r
    simp only at h1
    subst h1
    simp at h

/-- What `createTail` leaves behind when it reports a failed final persist:
the trigger it registered is gone again, and so is the script file when its
removal succeeds. -/
theorem createTail_persist_error (env : Env) (w : World) (task : Task)
    (name command scriptType : Str) (isEnabled : Bool) (w' : World)
    (h : createTail env w task name command scriptType isEnabled =
      (.error .updateTaskInDatabase, w')) :
    (∀ j ∈ w'.jobs, j ∈ w.jobs) ∧
    (isEnabled = true → ∀ j ∈ w'.jobs, j.ID ≠ w.nextJobID + 1) ∧
    (scriptType = "command".toList → w'.files = w.files) ∧
    (scriptType ≠ "command".toList →
      env.removeFails (fullPathOf env (w.nextTaskID + 1) scriptType) = false →
      scriptPathOf env (w.nextTaskID + 1) scriptType ≠ [] →
      w'.files = w.files.filter (fun f => f.1 != fullPathOf env (w.nextTaskID + 1) scriptType)) := by
  unfold createTail at h
  generalize hdb : dbCreate env w task = r at h
  obtain ⟨o, w1⟩ := r
  cases o with
  | none => simp at h
  | some task1 =>
    obtain ⟨ht1, hw1⟩ := dbCreate_some _ _ _ _ _ hdb
    have hid : task1.ID = w.nextTaskID + 1 := by rw [ht1]
    simp only at h
    generalize hcs : CreateScriptFile env w1 task1.ID name scriptType command = r at h
    obtain ⟨res, w2⟩ := r
    cases res with
    | error e1 => simp at h
    | ok pc =>
      obtain ⟨scriptPath, execCommand⟩ := pc
      obtain ⟨-, c2, -, c4, c5, c6⟩ := CreateScriptFile_ok _ _ _ _ _ _ _ _ _ hcs
      rw [hid] at c6
      simp only at h
      -- the files after the clean-up of a world `w3` whose files are those of `w2`
      have hfiles : ∀ w3 : World, w3.files = w2.files →
          ((scriptType = "command".toList →
              (DeleteScriptFile env w3 scriptPath).2.files = w.files) ∧
           (scriptType ≠ "command".toList →
              env.removeFails (fullPathOf env (w.nextTaskID + 1) scriptType) = false →
              scriptPathOf env (w.nextTaskID + 1) scriptType ≠ [] →
              (DeleteScriptFile env w3 scriptPath).2.files =
                w.files.filter
                  (fun f => f.1 != fullPathOf env (w.nextTaskID + 1) scriptType))) := by
        intro w3 h3
        obtain ⟨-, -, -, d4, d5⟩ := DeleteScriptFile_frame env w3 scriptPath
        constructor
        · intro hc
          obtain ⟨p1, -, p3⟩ := c5 hc
          rw [d4 p1, h3, p3, hw1]
        · intro hc hRm hJoin
          obtain ⟨p1, -, -, p4⟩ := c6 hc
          have hne : scriptPath ≠ [] := by rw [p1]; exact hJoin
          have hfull : env.filepathJoin env.dataDir scriptPath =
              fullPathOf env (w.nextTaskID + 1) scriptType := by rw [p1]; rfl
          rw [d5 hne (by rw [hfull]; exact hRm), hfull, h3, p4, hw1]
          rw [List.filter_cons_of_neg (by simp), filter_filter_same]
      cases isEnabled with
      | false =>
        simp only [Bool.false_eq_true, if_false] at h
        obtain ⟨-, hw'⟩ := persistCreated_error_world _ _ _ _ _ _ _ h
        simp only [Bool.false_and, Bool.false_eq_true, if_false] at hw'
        obtain ⟨k1, k2⟩ := dbDelete_frame env (DeleteScriptFile env w2 scriptPath).2
          { task1 with ScriptPath := scriptPath, Command := execCommand }
        rw [← hw'] at k1 k2
        obtain ⟨d1, d2, -, -, -⟩ := DeleteScriptFile_frame env w2 scriptPath
        obtain ⟨f1, f2⟩ := hfiles w2 rfl
        refine ⟨?_, (fun h0 => by cases h0), fun hc => by rw [k2]; exact f1 hc,
          fun hc hRm hJoin => by rw [k2]; exact f2 hc hRm hJoin⟩
        intro j hj
        rw [k1, d2, c2, hw1] at hj
        exact hj
      | true =>
        simp only [if_true] at h
        generalize hst : ScheduleTask env w2
          { task1 with ScriptPath := scriptPath, Command := execCommand } = r at h
        obtain ⟨res, w3⟩ := r
        cases res with
        | error e2 => simp at h
        | ok id =>
          simp only at h
          obtain ⟨hjid, d, hw3⟩ := ScheduleTask_ok _ _ _ _ _ hst
          have hnj : w2.nextJobID = w.nextJobID := by rw [c4, hw1]
          rw [hnj] at hjid
          subst hjid
          have hgen : ∃ tk : Task, tk.GocronJobID = w.nextJobID + 1 ∧
              persistCreated env (setCaptured w3 (w.nextJobID + 1) tk) tk scriptPath true =
                (.error .updateTaskInDatabase, w') := ⟨_, rfl, h⟩
          obtain ⟨tk, htk, h⟩ := hgen
          obtain ⟨-, hw'⟩ := persistCreated_error_world _ _ _ _ _ _ _ h
          rw [if_pos (by simp [htk]), htk] at hw'
          obtain ⟨-, u2, -, -, -, -, -, -, u9⟩ := UnscheduleTask_frame env
            (setCaptured w3 (w.nextJobID + 1) tk) (w.nextJobID + 1)
          obtain ⟨-, s2, -, -, s5, -⟩ := setCaptured_frame w3 (w.nextJobID + 1) tk
          obtain ⟨k1, k2⟩ := dbDelete_frame env
            (DeleteScriptFile env (UnscheduleTask env
              (setCaptured w3 (w.nextJobID + 1) tk) (w.nextJobID + 1)).2 scriptPath).2 tk
          rw [← hw'] at k1 k2
          obtain ⟨-, d2, -, -, -⟩ := DeleteScriptFile_frame env (UnscheduleTask env
              (setCaptured w3 (w.nextJobID + 1) tk) (w.nextJobID + 1)).2 scriptPath
          have hf3 : (UnscheduleTask env
              (setCaptured w3 (w.nextJobID + 1) tk) (w.nextJobID + 1)).2.files = w2.files := by
            rw [u2, s2, hw3]
          obtain ⟨f1, f2⟩ := hfiles _ hf3
          have hjobs : ∀ j ∈ w'.jobs, j ∈ w.jobs ∧ j.ID ≠ w.nextJobID + 1 := by
            intro j hj
            rw [k1, d2, u9] at hj
            obtain ⟨hmem, hne⟩ := List.mem_filter.1 hj
            have hne' : j.ID ≠ w.nextJobID + 1 := by simpa using hne
            have := s5 j hmem hne'
            rw [hw3] at this
            simp only [List.mem_append, List.mem_singleton] at this
            rcases this with h1 | h1
            · rw [c2, hw1] at h1
              exact ⟨h1, hne'⟩
            · rw [h1] at hne'
              exact absurd rfl hne'
          exact ⟨fun j hj => (hjobs j hj).1, fun _ j hj => (hjobs j hj).2,
            fun hc => by rw [k2]; exact f1 hc,
            fun hc hRm hJoin => by rw [k2]; exact f2 hc hRm hJoin⟩

theorem createTail_ok_stored (env : Env) (w : World) (task : Task)
    (name command scriptType : Str) (isEnabled : Bool) (t : Task) (w' : World)
    (h : createTail env w task name command scriptType isEnabled = (.ok t, w')) :
    t ∈ w'.tasks := by
  have hp : ∀ w0 tk sp, persistCreated env w0 tk sp isEnabled = (.ok t, w') → t ∈ w'.tasks := by
    intro w0 tk sp hp
    obtain ⟨p1, -, -, p4, p5⟩ := persistCreated_ok _ _ _ _ _ _ _ hp
    subst p1
    rw [p4]
    rcases dbSave_cases env w0 t with ⟨-, hs⟩ | ⟨-, -, -, -, -, hmem⟩
    · rw [hs] at p5; cases p5
    · exact hmem
  unfold createTail at h
  generalize dbCreate env w task = r at h
  obtain ⟨o, w1⟩ := r
  cases o with
  | none => simp at h
  | some task1 =>
    simp only at h
    generalize CreateScriptFile env w1 task1.ID name scriptType command = r at h
    obtain ⟨res, w2⟩ := r
    cases res with
    | error e1 => simp at h
    | ok pc =>
      obtain ⟨scriptPath, execCommand⟩ := pc
      simp only at h
      cases isEnabled with
      | false =>
        simp only [Bool.false_eq_true, if_false] at h
        exact hp _ _ _ h
      | true =>
        simp only [if_true] at h
        generalize ScheduleTask env w2
          { task1 with ScriptPath := scriptPath, Command := execCommand } = r at h
        obtain ⟨res, w3⟩ := r
        cases res with
        | error e2 => simp at h
        | ok id => exact hp _ _ _ h

theorem createTail_ok_saved (env : Env) (w : World) (task : Task)
    (name command scriptType : Str) (isEnabled : Bool) (t : Task) (w' : World)
    (h : createTail env w task name command scriptType isEnabled = (.ok t, w')) :
    env.dbSaveFails (w.nextTaskID + 1) = false := by
  have hid := (createTail_ok _ _ _ _ _ _ _ _ _ h).1
  have hp : ∀ w0 tk sp, persistCreated env w0 tk sp isEnabled = (.ok t, w') →
      env.dbSaveFails t.ID = false := by
    intro w0 tk sp hp
    obtain ⟨p1, -, -, -, p5⟩ := persistCreated_ok _ _ _ _ _ _ _ hp
    subst p1
    rcases dbSave_cases env w0 t with ⟨-, hs⟩ | ⟨hf, -⟩
    · rw [hs] at p5; cases p5
    · exact hf
  rw [← hid]
  unfold createTail at h
  generalize dbCreate env w task = r at h
  obtain ⟨o, w1⟩ := r
  cases o with
  | none => simp at h
  | some task1 =>
    simp only at h
    generalize CreateScriptFile env w1 task1.ID name scriptType command = r at h
    obtain ⟨res, w2⟩ := r
    cases res with
    | error e1 => simp at h
    | ok pc =>
      obtain ⟨scriptPath, execCommand⟩ := pc
      simp only at h
      cases isEnabled with
      | false =>
        simp only [Bool.false_eq_true, if_false] at h
        exact hp _ _ _ h
      | true =>
        simp only [if_true] at h
        generalize ScheduleTask env w2
          { task1 with ScriptPath := scriptPath, Command := execCommand } = r at h
        obtain ⟨res, w3⟩ := r
        cases res with
        | error e2 => simp at h
        | ok id => exact hp _ _ _ h

/-- C13, as stated, fails: the removal of the script file after a failed final
persist can fail itself, and `DeleteScriptFile` returns an error that Create
drops.  `CreateTaskFull` of an enabled shell task returns the persist error
while `os.Remove` fails too: the trigger is unregistered, but
`data/shell/task_1.sh` stays on disk. -/
theorem persist_failure_cleanup_can_fail :
    (CreateTaskFull saveAndRemoveFailEnv emptyWorld "job".toList "echo hi".toList
        "shell".toList "* * * * *".toList "cron".toList none true).1 =
      .error .updateTaskInDatabase ∧
    (CreateTaskFull saveAndRemoveFailEnv emptyWorld "job".toList "echo hi".toList
        "shell".toList "* * * * *".toList "cron".toList none true).2.jobs = [] ∧
    (CreateTaskFull saveAndRemoveFailEnv emptyWorld "job".toList "echo hi".toList
        "shell".toList "* * * * *".toList "cron".toList none true).2.files.map (fun f => f.1) =
      ["data/shell/task_1.sh".toList] := by
  refine ⟨?_, ?_, ?_⟩ <;> decide

/-- C13, amended: if the final persist fails during Create (`CreateTaskFull`,
`CreateTaskWithScript`), Create returns an error: it never returns success
when the `Save` of the row fails, and never without having stored the row.
When it returns the persist error, the trigger registered in the call is
unregistered again: every trigger the scheduler holds was there before, and
none has the id of the new one.  For an inline command no file was written;
for a script, provided the removal of the file succeeds (Create drops its
error), the script directory has no file for the attempt. -/
theorem create_persist_failure (env : Env) (w : World)
    (name command scriptType scheduleSpec scheduleType : Str) (executeAt : Option Time)
    (isEnabled : Bool) :
    ∀ r, (r = CreateTaskFull env w name command scriptType scheduleSpec scheduleType executeAt
            isEnabled ∨
          r = CreateTaskWithScript env w name command scriptType scheduleSpec isEnabled) →
      (env.dbSaveFails (w.nextTaskID + 1) = true → ∃ e, r.1 = .error e) ∧
      (∀ t, r.1 = .ok t → t ∈ r.2.tasks) ∧
      (r.1 = .error .updateTaskInDatabase →
        (∀ j ∈ r.2.jobs, j ∈ w.jobs) ∧
        (isEnabled = true → ∀ j ∈ r.2.jobs, j.ID ≠ w.nextJobID + 1) ∧
        (scriptType = "command".toList → r.2.files = w.files) ∧
        (scriptType ≠ "command".toList →
          env.removeFails (fullPathOf env (w.nextTaskID + 1) scriptType) = false →
          scriptPathOf env (w.nextTaskID + 1) scriptType ≠ [] →
          r.2.files.lookup (fullPathOf env (w.nextTaskID + 1) scriptType) = none ∧
          r.2.files =
            w.files.filter (fun f => f.1 != fullPathOf env (w.nextTaskID + 1) scriptType))) := by
  have key : ∀ (task : Task) (r : Except Err Task × World),
      r = createTail env w task name command scriptType isEnabled →
      (env.dbSaveFails (w.nextTaskID + 1) = true → ∃ e, r.1 = .error e) ∧
      (∀ t, r.1 = .ok t → t ∈ r.2.tasks) ∧
      (r.1 = .error .updateTaskInDatabase →
        (∀ j ∈ r.2.jobs, j ∈ w.jobs) ∧
        (isEnabled = true → ∀ j ∈ r.2.jobs, j.ID ≠ w.nextJobID + 1) ∧
        (scriptType = "command".toList → r.2.files = w.files) ∧
        (scriptType ≠ "command".toList →
          env.removeFails (fullPathOf env (w.nextTaskID + 1) scriptType) = false →
          scriptPathOf env (w.nextTaskID + 1) scriptType ≠ [] →
          r.2.files.lookup (fullPathOf env (w.nextTaskID + 1) scriptType) = none ∧
          r.2.files =
            w.files.filter (fun f => f.1 != fullPathOf env (w.nextTaskID + 1) scriptType))) := by
    intro task r hr
    refine ⟨?_, ?_, ?_⟩
    · intro hs
      cases hr1 : r.1 with
      | error e => exact ⟨e, rfl⟩
      | ok t =>
        exfalso
        have h : createTail env w task name command scriptType isEnabled = (.ok t, r.2) := by
          rw [← hr, ← hr1]
        have hsave := createTail_ok_saved _ _ _ _ _ _ _ _ _ h
        rw [hs] at hsave
        cases hsave
    · intro t ht
      have h : createTail env w task name command scriptType isEnabled = (.ok t, r.2) := by
        rw [← hr, ← ht]
      exact createTail_ok_stored _ _ _ _ _ _ _ _ _ h
    · intro he
      have h : createTail env w task name command scriptType isEnabled =
          (.error .updateTaskInDatabase, r.2) := by rw [← hr, ← he]
      obtain ⟨a1, a2, a3, a4⟩ := createTail_persist_error _ _ _ _ _ _ _ _ h
      refine ⟨a1, a2, a3, fun hc hRm hJoin => ⟨?_, a4 hc hRm hJoin⟩⟩
      rw [a4 hc hRm hJoin]
      exact lookup_filter_ne _ _
  have bad : ∀ (e0 : Err) (r : Except Err Task × World), r = (.error e0, w) →
      e0 ≠ .updateTaskInDatabase →
      (env.dbSaveFails (w.nextTaskID + 1) = true → ∃ e, r.1 = .error e) ∧
      (∀ t, r.1 = .ok t → t ∈ r.2.tasks) ∧
      (r.1 = .error .updateTaskInDatabase →
        (∀ j ∈ r.2.jobs, j ∈ w.jobs) ∧
        (isEnabled = true → ∀ j ∈ r.2.jobs, j.ID ≠ w.nextJobID + 1) ∧
        (scriptType = "command".toList → r.2.files = w.files) ∧
        (scriptType ≠ "command".toList →
          env.removeFails (fullPathOf env (w.nextTaskID + 1) scriptType) = false →
          scriptPathOf env (w.nextTaskID + 1) scriptType ≠ [] →
          r.2.files.lookup (fullPathOf env (w.nextTaskID + 1) scriptType) = none ∧
          r.2.files =
            w.files.filter (fun f => f.1 != fullPathOf env (w.nextTaskID + 1) scriptType))) := by
    intro e0 r hr hne
    subst hr
    refine ⟨fun _ => ⟨e0, rfl⟩, (fun t ht => by simp at ht), fun he => ?_⟩
    simp only [Except.error.injEq] at he
    exact absurd he hne
  have hval : ∀ e1, validateExecuteAt env scheduleType executeAt = some e1 →
      e1 ≠ .updateTaskInDatabase := by
    intro e1 hx
    unfold validateExecuteAt at hx
    split at hx
    · split at hx
      · cases hx; intro h; cases h
      · split at hx
        · cases hx; intro h; cases h
        · cases hx
    · cases hx
  intro r hr
  rcases hr with hr | hr
  · unfold CreateTaskFull at hr
    cases hv : ValidateScriptContent scriptType command with
    | some e0 => rw [hv] at hr; exact bad _ r hr (by intro h; cases h)
    | none =>
      rw [hv] at hr
      simp only at hr
      cases hx : validateExecuteAt env scheduleType executeAt with
      | some e1 => rw [hx] at hr; exact bad _ r hr (hval e1 hx)
      | none => rw [hx] at hr; exact key _ r hr
  · unfold CreateTaskWithScript at hr
    cases hv : ValidateScriptContent scriptType command with
    | some e0 => rw [hv] at hr; exact bad _ r hr (by intro h; cases h)
    | none => rw [hv] at hr; exact key _ r hr

theorem create_persist_failure_witness :
    saveFailsEnv.dbSaveFails (emptyWorld.nextTaskID + 1) = true ∧
    (CreateTaskFull saveFailsEnv emptyWorld "job".toList "echo hi".toList "shell".toList
        "* * * * *".toList "cron".toList none true).1 = .error .updateTaskInDatabase ∧
    (∀ j ∈ (CreateTaskFull saveFailsEnv emptyWorld "job".toList "echo hi".toList "shell".toList
        "* * * * *".toList "cron".toList none true).2.jobs, j ∈ emptyWorld.jobs) ∧
    saveFailsEnv.removeFails (fullPathOf saveFailsEnv (emptyWorld.nextTaskID + 1) "shell".toList) =
      false ∧
    scriptPathOf saveFailsEnv (emptyWorld.nextTaskID + 1) "shell".toList ≠ [] ∧
    (CreateTaskFull saveFailsEnv emptyWorld "job".toList "echo hi".toList "shell".toList
        "* * * * *".toList "cron".toList none true).2.files.lookup
      (fullPathOf saveFailsEnv (emptyWorld.nextTaskID + 1) "shell".toList) = none :=
  ⟨rfl, by decide,
   ((create_persist_failure saveFailsEnv emptyWorld "job".toList "echo hi".toList
      "shell".toList "* * * * *".toList "cron".toList none true _
      (Or.inl rfl)).2.2 (by decide)).1,
   rfl, by decide,
   ((((create_persist_failure saveFailsEnv emptyWorld "job".toList "echo hi".toList
      "shell".toList "* * * * *".toList "cron".toList none true _
      (Or.inl rfl)).2.2 (by decide)).2.2.2) (by decide) rfl (by decide)).1⟩

/-! ## Toggle -/

theorem materialized_command (env : Env) (w : World) (task : Task)
    (hk : task.ScriptType = "command".toList) :
    materialized env w task = true ↔ task.ScriptPath = [] := by
  unfold materialized
  rw [if_pos hk]
  simp

theorem materialized_script (env : Env) (w : World) (task : Task)
    (hk : task.ScriptType ≠ "command".toList) :
    materialized env w task = true ↔
      task.ScriptPath = scriptPathOf env task.ID task.ScriptType ∧
      task.Command =
        generateExecCommand task.ScriptType (fullPathOf env task.ID task.ScriptType) ∧
      ∀ content, w.files.lookup (fullPathOf env task.ID task.ScriptType) = some content →
        hasScriptHeader content = true := by
  unfold materialized
  rw [if_neg hk]
  cases hl : w.files.lookup (fullPathOf env task.ID task.ScriptType) with
  | none => simp
  | some c => simp [and_assoc]

theorem hasScriptHeader_generated (env : Env) (taskID : Nat)
    (taskName scriptType userContent : Str)
    (h : scriptType = "shell".toList ∨ scriptType = "python".toList) :
    hasScriptHeader (generateScriptContent env taskID taskName scriptType userContent) = true := by
  have key : ∀ (a rest : Str), Contains a "# B1Cron Task:".toList = true →
      hasScriptHeader (a ++ rest) = true := by
    intro a rest ha
    unfold hasScriptHeader
    rw [Bool.or_eq_true]
    left
    rw [ Contains_iff_infix] at ha ⊢
    exact ha.trans (List.prefix_append a rest).isInfix
  rcases h with h | h
  · rw [h, generateScriptContent_shell]
    unfold shellHeader
    simp only [List.append_assoc]
    exact key _ _ (by decide)
  · rw [h, generateScriptContent_python]
    unfold pythonHeader
    simp only [List.append_assoc]
    exact key _ _ (by decide)

/-- The task a successful Create returns is `materialized`. -/
theorem createTail_materialized (env : Env) (w : World) (task : Task)
    (name command scriptType : Str) (isEnabled : Bool) (t : Task) (w' : World)
    (hType : task.ScriptType = scriptType)
    (h : createTail env w task name command scriptType isEnabled = (.ok t, w')) :
    materialized env w' t = true := by
  obtain ⟨a1, -, a3, a4⟩ := createTail_ok _ _ _ _ _ _ _ _ _ h
  have a2 := createTail_ok_scriptType _ _ _ _ _ _ _ _ _ hType h
  by_cases hk : scriptType = "command".toList
  · rw [materialized_command env w' t (by rw [a2]; exact hk)]
    exact (a3 hk).1
  · rw [materialized_script env w' t (by rw [a2]; exact hk)]
    obtain ⟨b1, b2, b3, b4⟩ := a4 hk
    rw [a1, a2]
    refine ⟨b1, b2, fun content hc => ?_⟩
    rw [b4, lookup_cons_self] at hc
    cases hc
    exact hasScriptHeader_generated _ _ _ _ _ (getScriptExtension_ne_nil _ b3)

theorem ValidateScriptContent_none_ne_nil (scriptType content : Str)
    (h : ValidateScriptContent scriptType content = none) : content ≠ [] := by
  intro hc
  subst hc
  revert h
  unfold ValidateScriptContent
  rw [if_pos (by rfl)]
  intro h
  cases h

theorem GetTaskScriptContent_ne_nil (env : Env) (w : World) (task : Task)
    (hk : task.ScriptType ≠ "command".toList) (hne : GetTaskScriptContent env w task ≠ []) :
    w.files.lookup (env.filepathJoin env.dataDir task.ScriptPath) =
      some (GetTaskScriptContent env w task) ∧
    env.readFileFails (env.filepathJoin env.dataDir task.ScriptPath) = false ∧
    task.ScriptPath ≠ [] := by
  unfold GetTaskScriptContent at hne ⊢
  rw [if_neg hk] at hne ⊢
  unfold GetScriptContent at hne ⊢
  by_cases hp : task.ScriptPath = []
  · rw [if_pos hp] at hne
    exact absurd rfl hne
  · rw [if_neg hp] at hne ⊢
    simp only at hne ⊢
    unfold ReadFile at hne ⊢
    cases hr : env.readFileFails (env.filepathJoin env.dataDir task.ScriptPath) with
    | true =>
      rw [hr] at hne
      simp at hne
    | false =>
      rw [hr] at hne
      simp only [Bool.false_eq_true, if_false] at hne ⊢
      cases hl : w.files.lookup (env.filepathJoin env.dataDir task.ScriptPath) with
      | none => rw [hl] at hne; exact absurd rfl hne
      | some c => simp [hp]

theorem find?_map_replace (l : List Task) (id : Nat) (a t : Task)
    (hf : l.find? (fun x => x.ID == id) = some a) (ht : t.ID = id) :
    (l.map (fun x => if x.ID = id then t else x)).find? (fun x => x.ID == id) = some t := by
  induction l with
  | nil => simp at hf
  | cons x xs ih =>
    by_cases hx : x.ID = id
    · simp [List.find?, hx, ht]
    · have hx' : (x.ID == id) = false := by simpa using hx
      rw [List.find?_cons, hx'] at hf
      simp only [List.map_cons, if_neg hx, List.find?_cons, hx']
      exact ih hf

theorem GetTaskByID_ok_env (env : Env) (w : World) (id : Nat) (task : Task)
    (h : GetTaskByID env w id = .ok task) : env.dbFirstFails id = false := by
  unfold GetTaskByID dbFirst at h
  cases hf : env.dbFirstFails id with
  | false => rfl
  | true => rw [hf] at h; simp at h

theorem GetTaskByID_of_find (env : Env) (w : World) (id : Nat) (task : Task)
    (hf : env.dbFirstFails id = false)
    (h : w.tasks.find? (fun t => t.ID == id) = some task) :
    GetTaskByID env w id = .ok task := by
  unfold GetTaskByID dbFirst
  rw [hf]
  simp [h]

/-- One successful `ToggleTask` on a `materialized` task: the stored row is
the old row with the enabled flag negated and a new handle, and the script is
read back as before. -/
theorem ToggleTask_ok (env : Env) (w : World) (id : Nat) (t : Task) (w' : World)
    (task0 : Task) (hGet : GetTaskByID env w id = .ok task0)
    (hMat : materialized env w task0 = true)
    (h : ToggleTask env w id = (.ok t, w')) :
    t = { task0 with IsEnabled := !task0.IsEnabled,
                     GocronJobID := if (!task0.IsEnabled) = true then w.nextJobID + 1 else 0 } ∧
    GetTaskByID env w' id = .ok t ∧
    materialized env w' t = true ∧
    GetTaskScriptContent env w' t = GetTaskScriptContent env w task0 ∧
    (task0.ScriptType ≠ "command".toList →
      w'.files.lookup (env.filepathJoin env.dataDir task0.ScriptPath) =
        w.files.lookup (env.filepathJoin env.dataDir task0.ScriptPath)) := by
  obtain ⟨hmem0, hid, hfind⟩ := GetTaskByID_ok _ _ _ _ hGet
  have hdb := GetTaskByID_ok_env _ _ _ _ hGet
  unfold ToggleTask at h
  rw [hGet] at h
  simp only at h
  rw [UpdateTaskWithScript_eq] at h
  cases hv : ValidateScriptContent task0.ScriptType (GetTaskScriptContent env w task0) with
  | some e0 => rw [hv] at h; simp at h
  | none =>
    rw [hv, hGet] at h
    simp only at h
    obtain ⟨p, c, ht, hcmd, hscript, htasks, -, -⟩ :=
      updateFrom_ok env w id _ _ _ _ task0
        (assignWithScript task0.Name task0.ScriptType task0.ScheduleSpec (!task0.IsEnabled))
        (fun _ _ _ => rfl) hmem0 _ _ h
    rw [hid] at htasks
    by_cases hk : task0.ScriptType = "command".toList
    · obtain ⟨hp, hc⟩ := hcmd hk
      have hF : GetTaskScriptContent env w task0 = task0.Command := by
        unfold GetTaskScriptContent
        rw [if_pos hk]
      have hpath := (materialized_command env w task0 hk).1 hMat
      rw [hF] at hc
      rw [hp, hc] at ht
      have htt : t = { task0 with IsEnabled := !task0.IsEnabled,
                                  GocronJobID := if (!task0.IsEnabled) = true
                                                 then w.nextJobID + 1 else 0 } := by
        rw [ht]
        cases task0
        simp only at hpath
        subst hpath
        rfl
      have htid : t.ID = id := by rw [htt]; exact hid
      have htk : t.ScriptType = "command".toList := by rw [htt]; exact hk
      refine ⟨htt, ?_, ?_, ?_, fun hn => absurd hk hn⟩
      · exact GetTaskByID_of_find env w' id t hdb
          (by rw [htasks]; exact find?_map_replace _ _ _ _ hfind htid)
      · rw [materialized_command env w' t htk, htt]
        exact hpath
      · rw [hF]
        unfold GetTaskScriptContent
        rw [if_pos htk, htt]
    · obtain ⟨hp, hc, -, hfile⟩ := hscript hk
      have hne := ValidateScriptContent_none_ne_nil _ _ hv
      obtain ⟨g1, g2, g3⟩ := GetTaskScriptContent_ne_nil env w task0 hk hne
      obtain ⟨m1, m2, m3⟩ := (materialized_script env w task0 hk).1 hMat
      rw [hid] at m1 m2 m3
      have hfull : env.filepathJoin env.dataDir task0.ScriptPath =
          fullPathOf env id task0.ScriptType := by rw [m1]; rfl
      rw [hfull] at g1 g2
      have hhdr := m3 _ g1
      rw [if_pos hhdr] at hfile
      rw [← m1] at hp
      rw [← m2] at hc
      rw [hp, hc] at ht
      have htt : t = { task0 with IsEnabled := !task0.IsEnabled,
                                  GocronJobID := if (!task0.IsEnabled) = true
                                                 then w.nextJobID + 1 else 0 } := by
        rw [ht]
        rfl
      have htid : t.ID = id := by rw [htt]; exact hid
      have htk : t.ScriptType ≠ "command".toList := by rw [htt]; exact hk
      have htp : t.ScriptPath = task0.ScriptPath := by rw [htt]
      have htty : t.ScriptType = task0.ScriptType := by rw [htt]
      have htc : t.Command = task0.Command := by rw [htt]
      have hfile' : w'.files.lookup (env.filepathJoin env.dataDir t.ScriptPath) =
          some (GetTaskScriptContent env w task0) := by
        rw [htp, hfull]; exact hfile
      refine ⟨htt, ?_, ?_, ?_, fun _ => ?_⟩
      · exact GetTaskByID_of_find env w' id t hdb
          (by rw [htasks]; exact find?_map_replace _ _ _ _ hfind htid)
      · rw [materialized_script env w' t htk, htid, htty, htp, htc]
        refine ⟨m1, m2, fun content hcnt => ?_⟩
        rw [hfile] at hcnt
        cases hcnt
        exact hhdr
      · exact (read_back env w' t _ htk (by rw [htp]; exact g3) hfile'
          (by rw [htp, hfull]; exact g2)).2
      · rw [hfull, hfile, g1]

/-- C17: when `ToggleTask` succeeds on a task whose row and script are as
Create and Update leave them (`materialized`), the stored row is the old row
with the enabled flag negated: name, script kind, schedule spec, schedule
kind, fire-at, resolved command and script path are the same, and so is the
content of the script; only the trigger handle is renewed.  The task is then
again `materialized`, and a second successful toggle restores the original
enabled flag with the same content. -/
theorem ToggleTask_content_preserving (env : Env) (w : World) (id : Nat) (t : Task) (w' : World)
    (h : ToggleTask env w id = (.ok t, w'))
    (hMat : ∀ task0, GetTaskByID env w id = .ok task0 → materialized env w task0 = true) :
    ∃ task0, GetTaskByID env w id = .ok task0 ∧ GetTaskByID env w' id = .ok t ∧
      t.IsEnabled = (!task0.IsEnabled) ∧
      t.Name = task0.Name ∧ t.ScriptType = task0.ScriptType ∧
      t.ScheduleSpec = task0.ScheduleSpec ∧ t.ScheduleType = task0.ScheduleType ∧
      t.ExecuteAt = task0.ExecuteAt ∧ t.Command = task0.Command ∧
      t.ScriptPath = task0.ScriptPath ∧
      GetTaskScriptContent env w' t = GetTaskScriptContent env w task0 ∧
      (task0.ScriptType ≠ "command".toList →
        w'.files.lookup (env.filepathJoin env.dataDir task0.ScriptPath) =
          w.files.lookup (env.filepathJoin env.dataDir task0.ScriptPath)) ∧
      materialized env w' t = true ∧
      (∀ t2 w2, ToggleTask env w' id = (.ok t2, w2) →
        t2.IsEnabled = task0.IsEnabled ∧ t2.Name = task0.Name ∧
        t2.ScriptType = task0.ScriptType ∧ t2.ScheduleSpec = task0.ScheduleSpec ∧
        t2.ScheduleType = task0.ScheduleType ∧ t2.ExecuteAt = task0.ExecuteAt ∧
        t2.Command = task0.Command ∧
        GetTaskScriptContent env w2 t2 = GetTaskScriptContent env w task0) := by
  cases hg : GetTaskByID env w id with
  | error e =>
    unfold ToggleTask at h
    rw [hg] at h
    simp at h
  | ok task0 =>
    obtain ⟨a1, a2, a3, a4, a5⟩ := ToggleTask_ok env w id t w' task0 hg (hMat task0 hg) h
    refine ⟨task0, rfl, a2, ?_, ?_, ?_, ?_, ?_, ?_, ?_, ?_, a4, a5, a3, ?_⟩
    · rw [a1]
    · rw [a1]
    · rw [a1]
    · rw [a1]
    · rw [a1]
    · rw [a1]
    · rw [a1]
    · rw [a1]
    · intro t2 w2 h2
      obtain ⟨b1, -, -, b4, -⟩ := ToggleTask_ok env w' id t2 w2 t a2 a3 h2
      rw [b4, a4]
      refine ⟨?_, ?_, ?_, ?_, ?_, ?_, ?_, rfl⟩
      · rw [b1, a1]; simp
      · rw [b1, a1]
      · rw [b1, a1]
      · rw [b1, a1]
      · rw [b1, a1]
      · rw [b1, a1]
      · rw [b1, a1]

theorem ToggleTask_content_preserving_witness :
    ToggleTask sampleEnv worldWithJob 1 =
      (.ok { jobTask with IsEnabled := false, GocronJobID := 0 },
       { worldWithJob with tasks := [{ jobTask with IsEnabled := false, GocronJobID := 0 }],
                           jobs := [] }) ∧
    (∀ task0, GetTaskByID sampleEnv worldWithJob 1 = .ok task0 →
      materialized sampleEnv worldWithJob task0 = true) ∧
    ∃ task0, GetTaskByID sampleEnv worldWithJob 1 = .ok task0 ∧
      GetTaskByID sampleEnv
        { worldWithJob with tasks := [{ jobTask with IsEnabled := false, GocronJobID := 0 }],
                            jobs := [] } 1 =
        .ok { jobTask with IsEnabled := false, GocronJobID := 0 } :=
  have hm : ∀ task0, GetTaskByID sampleEnv worldWithJob 1 = .ok task0 →
      materialized sampleEnv worldWithJob task0 = true := by
    intro task0 hg
    have h1 : GetTaskByID sampleEnv worldWithJob 1 = .ok jobTask := by decide
    rw [h1] at hg
    cases hg
    decide
  ⟨by decide, hm, by
    obtain ⟨task0, h1, h2, -⟩ :=
      ToggleTask_content_preserving sampleEnv worldWithJob 1 _ _
        (show ToggleTask sampleEnv worldWithJob 1 =
          (.ok { jobTask with IsEnabled := false, GocronJobID := 0 },
           { worldWithJob with tasks := [{ jobTask with IsEnabled := false, GocronJobID := 0 }],
                               jobs := [] }) by decide) hm
    exact ⟨task0, h1, h2⟩⟩

/-- The task a successful Update returns is `materialized`, like the one a
successful Create returns. -/
theorem updateFrom_materialized (env : Env) (w : World) (id : Nat)
    (name command scriptType : Str) (isEnabled : Bool) (task0 : Task)
    (assign : Task → Str → Str → Task) (hA1 : ∀ t p c, (assign t p c).ID = t.ID)
    (hA2 : ∀ t p c, (assign t p c).ScriptPath = p) (hA3 : ∀ t p c, (assign t p c).Command = c)
    (hA4 : ∀ t p c, (assign t p c).ScriptType = scriptType)
    (hGet : GetTaskByID env w id = .ok task0) (t : Task) (w' : World)
    (h : updateFrom env w id name command scriptType isEnabled task0 assign = (.ok t, w')) :
    materialized env w' t = true := by
  obtain ⟨hmem, hid, -⟩ := GetTaskByID_ok _ _ _ _ hGet
  obtain ⟨p, c, b1, b2, b3, -, -, -⟩ :=
    updateFrom_ok env w id name command scriptType isEnabled task0 assign hA1 hmem _ _ h
  have htid : t.ID = id := by rw [b1]; exact (hA1 _ _ _).trans hid
  have hpath : t.ScriptPath = p := by rw [b1]; exact hA2 _ _ _
  have hcmd : t.Command = c := by rw [b1]; exact hA3 _ _ _
  have htype : t.ScriptType = scriptType := by rw [b1]; exact hA4 _ _ _
  by_cases hk : scriptType = "command".toList
  · rw [materialized_command env w' t (by rw [htype]; exact hk), hpath]
    exact (b2 hk).1
  · rw [materialized_script env w' t (by rw [htype]; exact hk), htid, htype, hpath, hcmd]
    obtain ⟨q1, q2, q3, q4⟩ := b3 hk
    refine ⟨q1, q2, fun content hc => ?_⟩
    rw [q4] at hc
    cases hc
    by_cases hh : hasScriptHeader command = true
    · rw [if_pos hh]; exact hh
    · rw [if_neg hh]
      exact hasScriptHeader_generated _ _ _ _ _ (getScriptExtension_ne_nil _ q3)

/-! ## The script path of a task -/

theorem scriptPathOf_ne_nil (env : Env) (hJoin : ∀ a b : Str, b ≠ [] → env.filepathJoin a b ≠ [])
    (taskID : Nat) (scriptType : Str) : scriptPathOf env taskID scriptType ≠ [] := by
  unfold scriptPathOf
  apply hJoin
  simp

/-- C20: with a `filepath.Join` that never returns the empty path for a
non-empty file name, `CreateScriptFile` and `UpdateScriptFile` return the empty
path for kind `command` and, when they succeed, a non-empty path for the kinds
shell and python; and the task that a successful Create or Update returns and
stores has an empty script path exactly when its kind is `command`. -/
theorem script_path_empty_iff_command (env : Env) (w : World) (id taskID : Nat)
    (name command scriptType scheduleSpec scheduleType oldScriptPath : Str)
    (executeAt : Option Time) (isEnabled : Bool)
    (hJoin : ∀ a b : Str, b ≠ [] → env.filepathJoin a b ≠ []) :
    CreateScriptFile env w taskID name "command".toList command = (.ok ([], command), w) ∧
    (∃ w1, UpdateScriptFile env w taskID name "command".toList command oldScriptPath =
      (.ok ([], command), w1)) ∧
    (∀ p c w1, scriptType = "shell".toList ∨ scriptType = "python".toList →
      CreateScriptFile env w taskID name scriptType command = (.ok (p, c), w1) ∨
        UpdateScriptFile env w taskID name scriptType command oldScriptPath = (.ok (p, c), w1) →
      p ≠ []) ∧
    (∀ r t,
      (r = CreateTaskFull env w name command scriptType scheduleSpec scheduleType executeAt
            isEnabled ∨
        r = CreateTaskWithScript env w name command scriptType scheduleSpec isEnabled ∨
        r = UpdateTaskFull env w id name command scriptType scheduleSpec scheduleType executeAt
            isEnabled ∨
        r = UpdateTaskWithScript env w id name command scriptType scheduleSpec isEnabled) →
      r.1 = .ok t →
      (t.ScriptPath = [] ↔ t.ScriptType = "command".toList) ∧ t.ScriptType = scriptType ∧
      t ∈ r.2.tasks) := by
  have hsp := scriptPathOf_ne_nil env hJoin
  have hCre : ∀ (task : Task) (r : Except Err Task × World) (t : Task),
      task.ScriptType = scriptType →
      r = createTail env w task name command scriptType isEnabled → r.1 = .ok t →
      (t.ScriptPath = [] ↔ t.ScriptType = "command".toList) ∧ t.ScriptType = scriptType ∧
      t ∈ r.2.tasks := by
    intro task r t hty hr ht
    have h : createTail env w task name command scriptType isEnabled = (.ok t, r.2) := by
      rw [← hr, ← ht]
    obtain ⟨-, -, a3, a4⟩ := createTail_ok _ _ _ _ _ _ _ _ _ h
    have a2 := createTail_ok_scriptType _ _ _ _ _ _ _ _ _ hty h
    refine ⟨?_, a2, createTail_ok_stored _ _ _ _ _ _ _ _ _ h⟩
    rw [a2]
    by_cases hk : scriptType = "command".toList
    · exact ⟨fun _ => hk, fun _ => (a3 hk).1⟩
    · refine ⟨fun hp => ?_, fun hc => absurd hc hk⟩
      rw [(a4 hk).1] at hp
      exact absurd hp (hsp _ _)
  have hUpd : ∀ (task0 : Task) (assign : Task → Str → Str → Task)
      (r : Except Err Task × World) (t : Task),
      (∀ t p c, (assign t p c).ID = t.ID) → (∀ t p c, (assign t p c).ScriptPath = p) →
      (∀ t p c, (assign t p c).ScriptType = scriptType) →
      GetTaskByID env w id = .ok task0 →
      r = updateFrom env w id name command scriptType isEnabled task0 assign → r.1 = .ok t →
      (t.ScriptPath = [] ↔ t.ScriptType = "command".toList) ∧ t.ScriptType = scriptType ∧
      t ∈ r.2.tasks := by
    intro task0 assign r t hA1 hA2 hA3 hg hr ht
    have h : updateFrom env w id name command scriptType isEnabled task0 assign =
        (.ok t, r.2) := by rw [← hr, ← ht]
    obtain ⟨p, c, b1, b2, b3, -, b5, -⟩ :=
      updateFrom_ok env w id name command scriptType isEnabled task0 assign hA1
        (GetTaskByID_ok _ _ _ _ hg).1 _ _ h
    have hpath : t.ScriptPath = p := by rw [b1]; exact hA2 _ _ _
    have htype : t.ScriptType = scriptType := by rw [b1]; exact hA3 _ _ _
    refine ⟨?_, htype, b5⟩
    rw [hpath, htype]
    by_cases hk : scriptType = "command".toList
    · exact ⟨fun _ => hk, fun _ => (b2 hk).1⟩
    · refine ⟨fun hp => ?_, fun hc => absurd hc hk⟩
      rw [(b3 hk).1] at hp
      exact absurd hp (hsp _ _)
  refine ⟨?_, ?_, ?_, ?_⟩
  · unfold CreateScriptFile
    rw [if_pos rfl]
  · unfold UpdateScriptFile CreateScriptFileWithContent CreateScriptFile
    simp only [if_pos, ite_self]
    exact ⟨_, rfl⟩
  · intro p c w1 hk hres
    have hnc : scriptType ≠ "command".toList := by
      rcases hk with hk | hk <;> rw [hk] <;> decide
    rcases hres with hres | hres
    · rw [((CreateScriptFile_ok _ _ _ _ _ _ _ _ _ hres).2.2.2.2.2 hnc).1]
      exact hsp _ _
    · rw [((UpdateScriptFile_ok _ _ _ _ _ _ _ _ _ _ hres).2.2.2.2 hnc).1]
      exact hsp _ _
  · intro r t hr ht
    rcases hr with hr | hr | hr | hr
    · unfold CreateTaskFull at hr
      cases hv : ValidateScriptContent scriptType command with
      | some e0 => rw [hv] at hr; rw [hr] at ht; simp at ht
      | none =>
        rw [hv] at hr
        simp only at hr
        cases hx : validateExecuteAt env scheduleType executeAt with
        | some e1 => rw [hx] at hr; rw [hr] at ht; simp at ht
        | none => rw [hx] at hr; exact hCre _ r t rfl hr ht
    · unfold CreateTaskWithScript at hr
      cases hv : ValidateScriptContent scriptType command with
      | some e0 => rw [hv] at hr; rw [hr] at ht; simp at ht
      | none => rw [hv] at hr; exact hCre _ r t rfl hr ht
    · rw [UpdateTaskFull_eq] at hr
      cases hv : ValidateScriptContent scriptType command with
      | some e0 => rw [hv] at hr; rw [hr] at ht; simp at ht
      | none =>
        rw [hv] at hr
        simp only at hr
        cases hx : validateExecuteAt env scheduleType executeAt with
        | some e1 => rw [hx] at hr; rw [hr] at ht; simp at ht
        | none =>
          rw [hx] at hr
          simp only at hr
          cases hg : GetTaskByID env w id with
          | error e2 => rw [hg] at hr; rw [hr] at ht; simp at ht
          | ok task0 =>
            rw [hg] at hr
            exact hUpd task0
              (assignFull name scriptType scheduleSpec scheduleType executeAt isEnabled) r t
              (fun _ _ _ => rfl) (fun _ _ _ => rfl) (fun _ _ _ => rfl) hg hr ht
    · rw [UpdateTaskWithScript_eq] at hr
      cases hv : ValidateScriptContent scriptType command with
      | some e0 => rw [hv] at hr; rw [hr] at ht; simp at ht
      | none =>
        rw [hv] at hr
        simp only at hr
        cases hg : GetTaskByID env w id with
        | error e2 => rw [hg] at hr; rw [hr] at ht; simp at ht
        | ok task0 =>
          rw [hg] at hr
          exact hUpd task0 (assignWithScript name scriptType scheduleSpec isEnabled) r t
            (fun _ _ _ => rfl) (fun _ _ _ => rfl) (fun _ _ _ => rfl) hg hr ht

theorem script_path_empty_iff_command_witness :
    (∀ a b : Str, b ≠ [] → sampleEnv.filepathJoin a b ≠ []) ∧
    (jobTask.ScriptPath = [] ↔ jobTask.ScriptType = "command".toList) :=
  have hj : ∀ a b : Str, b ≠ [] → sampleEnv.filepathJoin a b ≠ [] := by
    intro a b hb
    show a ++ "/".toList ++ b ≠ []
    simp [hb]
  ⟨hj,
   ((script_path_empty_iff_command sampleEnv emptyWorld 1 1 "job".toList "echo hi".toList
      "shell".toList "* * * * *".toList "cron".toList [] none true hj).2.2.2 _ jobTask
      (Or.inl rfl) (by decide)).1⟩

/-! ## Cron normalisation is idempotent -/

/-- C24: `normalizeCronSpec` is idempotent, and its output never splits into
exactly six white-space separated fields: a six-field spec becomes its last
five fields, and any other spec is returned as it is. -/
theorem normalizeCronSpec_idempotent (s : Str) :
    normalizeCronSpec (normalizeCronSpec s) = normalizeCronSpec s ∧
    (Fields (normalizeCronSpec s)).length ≠ 6 := by
  have key : (Fields (normalizeCronSpec s)).length ≠ 6 := by
    by_cases h : (Fields s).length = 6
    · have hn : normalizeCronSpec s = Join ((Fields s).drop 1) [' '] := by
        simp [normalizeCronSpec, h]
      rw [hn, Fields_Join _ (fun f hf => Fields_fields s f (List.mem_of_mem_drop hf))]
      simp [h]
    · have hn : normalizeCronSpec s = s := by simp [normalizeCronSpec, h]
      rw [hn]
      exact h
  refine ⟨?_, key⟩
  generalize normalizeCronSpec s = t at key
  simp [normalizeCronSpec, key]

/-! ## What `CreateScriptFile` returns -/

theorem scriptPathOf_shell (env : Env) (taskID : Nat) :
    scriptPathOf env taskID "shell".toList =
      env.filepathJoin "shell".toList
        ("task_".toList ++ Nat.toDigits 10 taskID ++ ".sh".toList) := by
  unfold scriptPathOf
  have h : getScriptExtension "shell".toList = "sh".toList := by decide
  rw [h, List.append_assoc _ ".".toList]
  rfl

theorem scriptPathOf_python (env : Env) (taskID : Nat) :
    scriptPathOf env taskID "python".toList =
      env.filepathJoin "python".toList
        ("task_".toList ++ Nat.toDigits 10 taskID ++ ".py".toList) := by
  unfold scriptPathOf
  have h : getScriptExtension "python".toList = "py".toList := by decide
  rw [h, List.append_assoc _ ".".toList]
  rfl

theorem writeScriptFile_result (env : Env) (w : World) (taskID : Nat)
    (scriptType fileContent : Str) :
    (writeScriptFile env w taskID scriptType fileContent).1 =
      if env.mkdirAllFails (env.filepathJoin env.dataDir scriptType) then .error .mkdirAll
      else if getScriptExtension scriptType = [] then .error (.unsupportedScriptType scriptType)
      else if env.writeFileFails (fullPathOf env taskID scriptType) then .error .writeFile
      else .ok (scriptPathOf env taskID scriptType,
        generateExecCommand scriptType (fullPathOf env taskID scriptType)) := by
  unfold writeScriptFile MkdirAll
  cases hm : env.mkdirAllFails (env.filepathJoin env.dataDir scriptType)
  · by_cases he : getScriptExtension scriptType = []
    · by_cases hd : env.filepathJoin env.dataDir scriptType ∈ w.dirs <;> simp [hm, hd, he]
    · cases hw : env.writeFileFails (fullPathOf env taskID scriptType) <;>
        by_cases hd : env.filepathJoin env.dataDir scriptType ∈ w.dirs <;>
        · simp [fullPathOf, scriptPathOf] at hw
          simp [hm, hd, he, WriteFile, hw, fullPathOf, scriptPathOf]
  · simp [hm]

/-- C21: `CreateScriptFile` returns, for kind `command`, the empty path and the
content as the command, in the world it was called in; for kind `shell` the
path `filepath.Join("shell", "task_<id>.sh")` and the command `/bin/bash `
followed by `filepath.Join(dataDir, path)`; for kind `python` the path
`filepath.Join("python", "task_<id>.py")` and the command `python3 ` followed by
the joined path; and for every other kind an error.  For a script kind the
result is the same whatever the task name and the content.  With paths joined
by a slash, task 7 of kind shell gets `shell/task_7.sh` and
`/bin/bash data/shell/task_7.sh`. -/
theorem CreateScriptFile_result (env : Env) (w : World) (taskID : Nat)
    (taskName scriptType content : Str) :
    CreateScriptFile env w taskID taskName "command".toList content = (.ok ([], content), w) ∧
    (∀ p c w1, CreateScriptFile env w taskID taskName "shell".toList content = (.ok (p, c), w1) →
      p = env.filepathJoin "shell".toList
            ("task_".toList ++ Nat.toDigits 10 taskID ++ ".sh".toList) ∧
      c = "/bin/bash ".toList ++ env.filepathJoin env.dataDir p) ∧
    (∀ p c w1, CreateScriptFile env w taskID taskName "python".toList content = (.ok (p, c), w1) →
      p = env.filepathJoin "python".toList
            ("task_".toList ++ Nat.toDigits 10 taskID ++ ".py".toList) ∧
      c = "python3 ".toList ++ env.filepathJoin env.dataDir p) ∧
    (scriptType = "shell".toList ∨ scriptType = "python".toList →
      env.mkdirAllFails (env.filepathJoin env.dataDir scriptType) = false →
      env.writeFileFails (fullPathOf env taskID scriptType) = false →
      (CreateScriptFile env w taskID taskName scriptType content).1 =
        .ok (scriptPathOf env taskID scriptType,
          generateExecCommand scriptType (fullPathOf env taskID scriptType))) ∧
    (scriptType ≠ "command".toList → scriptType ≠ "shell".toList →
      scriptType ≠ "python".toList →
      ∃ e, (CreateScriptFile env w taskID taskName scriptType content).1 = .error e) ∧
    (scriptType ≠ "command".toList → ∀ otherName otherContent : Str,
      (CreateScriptFile env w taskID otherName scriptType otherContent).1 =
        (CreateScriptFile env w taskID taskName scriptType content).1) ∧
    (CreateScriptFile sampleEnv emptyWorld 7 "backup".toList "shell".toList
        "echo hi".toList).1 =
      .ok ("shell/task_7.sh".toList, "/bin/bash data/shell/task_7.sh".toList) ∧
    (CreateScriptFile sampleEnv emptyWorld 7 "backup".toList "python".toList
        "print(1)".toList).1 =
      .ok ("python/task_7.py".toList, "python3 data/python/task_7.py".toList) := by
  have hres : ∀ (k n c : Str), k ≠ "command".toList →
      (CreateScriptFile env w taskID n k c).1 =
        (writeScriptFile env w taskID k (generateScriptContent env taskID n k c)).1 := by
    intro k n c hk
    unfold CreateScriptFile
    rw [if_neg hk]
  refine ⟨by simp [CreateScriptFile], ?_, ?_, ?_, ?_, ?_, by decide, by decide⟩
  · intro p c w1 h
    obtain ⟨_, _, _, _, _, h6⟩ := CreateScriptFile_ok env w taskID taskName _ content p c w1 h
    obtain ⟨hp, hc, _, _⟩ := h6 (by decide)
    rw [scriptPathOf_shell] at hp
    refine ⟨hp, ?_⟩
    rw [hc, fullPathOf, scriptPathOf_shell, hp]
    rfl
  · intro p c w1 h
    obtain ⟨_, _, _, _, _, h6⟩ := CreateScriptFile_ok env w taskID taskName _ content p c w1 h
    obtain ⟨hp, hc, _, _⟩ := h6 (by decide)
    rw [scriptPathOf_python] at hp
    refine ⟨hp, ?_⟩
    rw [hc, fullPathOf, scriptPathOf_python, hp]
    rfl
  · intro hk hm hw
    have hne : scriptType ≠ "command".toList := by
      rcases hk with hk | hk <;> rw [hk] <;> decide
    have hext : getScriptExtension scriptType ≠ [] := by
      rcases hk with hk | hk <;> rw [hk] <;> decide
    rw [hres _ _ _ hne, writeScriptFile_result, hm, hw]
    simp [hext]
  · intro h1 h2 h3
    have hext : getScriptExtension scriptType = [] := by
      unfold getScriptExtension
      rw [if_neg h2, if_neg h3]
    rw [hres _ _ _ h1, writeScriptFile_result]
    by_cases hm : env.mkdirAllFails (env.filepathJoin env.dataDir scriptType) = true
    · exact ⟨_, by rw [if_pos hm]⟩
    · exact ⟨_, by rw [if_neg hm, if_pos hext]⟩
  · intro hk n c
    rw [hres _ _ _ hk, hres _ _ _ hk, writeScriptFile_result, writeScriptFile_result]

/-! ## One-shot tasks handed to the scheduler -/

theorem ScheduleTask_eq (env : Env) (w : World) (task : Task) :
    (ScheduleTask env w task).2 = (createJob env w task).2 ∧
    (∀ e, (createJob env w task).1 = .error e →
      (ScheduleTask env w task).1 = .error (.createJob e)) ∧
    (∀ id, (createJob env w task).1 = .ok id → (ScheduleTask env w task).1 = .ok id) := by
  unfold ScheduleTask
  generalize createJob env w task = r
  obtain ⟨a, b⟩ := r
  cases a <;> simp

/-- C23, as stated, fails when the write of the enabled flag fails, which
`createJob` only logs: the overdue one-shot task `once` is handed to
`ScheduleTask` while the `Update` fails; an error is returned and no trigger is
added, but the stored row is still enabled. -/
theorem expired_one_shot_may_stay_enabled :
    (ScheduleTask lateEnvUpdateFails worldWithOnce onceTask).1 =
      .error (.createJob .executionTimePassed) ∧
    (ScheduleTask lateEnvUpdateFails worldWithOnce onceTask).2.jobs = worldWithOnce.jobs ∧
    (ScheduleTask lateEnvUpdateFails worldWithOnce onceTask).2.tasks.map
        (fun t => (t.ID, t.ScheduleType, t.IsEnabled)) = [(1, "once".toList, true)] := by
  decide

/-- C23, amended: for a one-shot task handed to `createJob` / `ScheduleTask`
whose fire-at is before the current time, an error is returned and no trigger
is registered, whatever happens to the write of the flag; provided that write
succeeds, every stored row of the task has enabled = false afterwards; the
other rows are as before in any case.  A one-shot task without fire-at is
rejected with an error in an unchanged world.  The schedule spec plays no
part: with any other spec the outcome, the stored rows and the triggers' ids
and definitions are the same. -/
theorem createJob_one_shot (env : Env) (w : World) (task : Task)
    (hOnce : task.ScheduleType = "once".toList) :
    (∀ t, task.ExecuteAt = some t → t < env.nowSchedule →
      (createJob env w task).1 = .error .executionTimePassed ∧
      (ScheduleTask env w task).1 = .error (.createJob .executionTimePassed) ∧
      (createJob env w task).2.jobs = w.jobs ∧
      (ScheduleTask env w task).2.jobs = w.jobs ∧
      (ScheduleTask env w task).2 = (createJob env w task).2 ∧
      (env.dbUpdateFails task.ID = false →
        (createJob env w task).2.tasks =
          w.tasks.map (fun r => if r.ID = task.ID then { r with IsEnabled := false } else r) ∧
        (∀ r ∈ (createJob env w task).2.tasks, r.ID = task.ID → r.IsEnabled = false)) ∧
      (∀ r ∈ w.tasks, r.ID ≠ task.ID → r ∈ (createJob env w task).2.tasks)) ∧
    (task.ExecuteAt = none →
      createJob env w task = (.error .executeAtRequired, w) ∧
      ScheduleTask env w task = (.error (.createJob .executeAtRequired), w)) ∧
    (∀ spec : Str,
      (createJob env w { task with ScheduleSpec := spec }).1 = (createJob env w task).1 ∧
      (createJob env w { task with ScheduleSpec := spec }).2.tasks =
        (createJob env w task).2.tasks ∧
      (createJob env w { task with ScheduleSpec := spec }).2.jobs.map
          (fun j => (j.ID, j.definition)) =
        (createJob env w task).2.jobs.map (fun j => (j.ID, j.definition))) := by
  refine ⟨?_, ?_, ?_⟩
  · intro t ht hlt
    have hc : createJob env w task =
        (.error .executionTimePassed, (dbUpdateIsEnabled env w task false).2) := by
      unfold createJob
      rw [if_pos hOnce, ht]
      simp only [hlt, if_true]
    have hd1 : env.dbUpdateFails task.ID = false →
        (dbUpdateIsEnabled env w task false).2.tasks =
          w.tasks.map (fun r => if r.ID = task.ID then { r with IsEnabled := false } else r) := by
      intro hUpd
      unfold dbUpdateIsEnabled
      rw [hUpd]
      simp
    have hd2 : (dbUpdateIsEnabled env w task false).2.jobs = w.jobs := by
      unfold dbUpdateIsEnabled
      cases env.dbUpdateFails task.ID <;> simp
    have hd3 : ∀ r ∈ w.tasks, r.ID ≠ task.ID →
        r ∈ (dbUpdateIsEnabled env w task false).2.tasks := by
      intro r hr hid
      unfold dbUpdateIsEnabled
      cases env.dbUpdateFails task.ID
      · simp only [Bool.false_eq_true, if_false, List.mem_map]
        exact ⟨r, hr, by rw [if_neg hid]⟩
      · exact hr
    obtain ⟨s1, s2, _⟩ := ScheduleTask_eq env w task
    rw [s1, s2 _ (by rw [hc]), hc]
    refine ⟨rfl, rfl, hd2, hd2, rfl, fun hUpd => ⟨hd1 hUpd, ?_⟩, hd3⟩
    intro r hr hid
    simp only [hd1 hUpd, List.mem_map] at hr
    obtain ⟨r0, _, hr0⟩ := hr
    by_cases h0 : r0.ID = task.ID
    · rw [if_pos h0] at hr0
      rw [← hr0]
    · rw [if_neg h0] at hr0
      rw [hr0] at h0
      exact absurd hid h0
  · intro hnone
    have hc : createJob env w task = (.error .executeAtRequired, w) := by
      unfold createJob
      rw [if_pos hOnce, hnone]
    refine ⟨hc, ?_⟩
    unfold ScheduleTask
    rw [hc]
  · intro spec
    unfold createJob
    simp only [hOnce, if_true]
    cases hx : task.ExecuteAt with
    | none => simp
    | some t =>
      by_cases hlt : t < env.nowSchedule
      · simp [hlt, dbUpdateIsEnabled]
      · simp only [hlt, if_false]
        unfold NewJob
        cases hacc : env.gocronAccepts (.OneTimeJob t) <;> simp

theorem createJob_one_shot_witness :
    onceTask.ScheduleType = "once".toList ∧ onceTask.ExecuteAt = some 500 ∧
    (500 : Time) < lateEnv.nowSchedule ∧
    (createJob lateEnv worldWithOnce onceTask).1 = .error .executionTimePassed ∧
    lateEnv.dbUpdateFails onceTask.ID = false ∧
    (∀ r ∈ (createJob lateEnv worldWithOnce onceTask).2.tasks,
      r.ID = onceTask.ID → r.IsEnabled = false) ∧
    (createJob lateEnvUpdateFails worldWithOnce onceTask).1 = .error .executionTimePassed ∧
    (createJob lateEnvUpdateFails worldWithOnce onceTask).2.jobs = worldWithOnce.jobs :=
  ⟨by decide, by decide, by decide,
   ((createJob_one_shot lateEnv worldWithOnce onceTask (by decide)).1 500
      (by decide) (by decide)).1,
   by decide,
   (((createJob_one_shot lateEnv worldWithOnce onceTask (by decide)).1 500
      (by decide) (by decide)).2.2.2.2.2.1 (by decide)).2,
   ((createJob_one_shot lateEnvUpdateFails worldWithOnce onceTask (by decide)).1 500
      (by decide) (by decide)).1,
   ((createJob_one_shot lateEnvUpdateFails worldWithOnce onceTask (by decide)).1 500
      (by decide) (by decide)).2.2.1⟩

/-! ## Read-back and update of a generated script -/

theorem writeScriptFile_files (env : Env) (w : World) (taskID : Nat)
    (scriptType fileContent : Str) :
    (writeScriptFile env w taskID scriptType fileContent).2.files = w.files ∨
    ((writeScriptFile env w taskID scriptType fileContent).2.files =
        (fullPathOf env taskID scriptType, fileContent) ::
          w.files.filter (fun f => f.1 != fullPathOf env taskID scriptType) ∧
      env.mkdirAllFails (env.filepathJoin env.dataDir scriptType) = false ∧
      getScriptExtension scriptType ≠ [] ∧
      env.writeFileFails (fullPathOf env taskID scriptType) = false) := by
  unfold writeScriptFile MkdirAll
  cases hm : env.mkdirAllFails (env.filepathJoin env.dataDir scriptType)
  · by_cases he : getScriptExtension scriptType = []
    · by_cases hd : env.filepathJoin env.dataDir scriptType ∈ w.dirs <;> simp [hm, hd, he]
    · cases hw : env.writeFileFails (fullPathOf env taskID scriptType) <;>
        by_cases hd : env.filepathJoin env.dataDir scriptType ∈ w.dirs <;>
        · simp [fullPathOf, scriptPathOf] at hw
          simp [hm, hd, he, WriteFile, hw, fullPathOf, scriptPathOf]
  · simp [hm]

theorem DeleteScriptFile_files (env : Env) (w : World) (scriptPath : Str) :
    (DeleteScriptFile env w scriptPath).2.files = w.files ∨
    (DeleteScriptFile env w scriptPath).2.files =
      w.files.filter (fun f => f.1 != env.filepathJoin env.dataDir scriptPath) := by
  unfold DeleteScriptFile Remove
  by_cases hp : scriptPath = []
  · simp [hp]
  · cases hr : env.removeFails (env.filepathJoin env.dataDir scriptPath) <;> simp [hp, hr]

theorem lookup_filter_self (l : List (Str × Str)) (p : Str) :
    (l.filter (fun f => f.1 != p)).lookup p = none := by
  induction l with
  | nil => rfl
  | cons a l ih =>
    obtain ⟨k, v⟩ := a
    by_cases hk : k = p
    · simp [List.filter, hk, ih]
    · have hne : (k != p) = true := by simp [hk]
      have hne2 : (p == k) = false := by simp [Ne.symm hk]
      simp only [List.filter, hne, List.lookup, hne2]
      exact ih

theorem UpdateScriptFile_header_files (env : Env) (w : World) (taskID : Nat)
    (taskName scriptType content oldScriptPath : Str)
    (hKind : scriptType ≠ "command".toList) (hHeader : hasScriptHeader content = true)
    (hOld : oldScriptPath = [] ∨ oldScriptPath = scriptPathOf env taskID scriptType) :
    ((UpdateScriptFile env w taskID taskName scriptType content oldScriptPath).2.files.lookup
        (fullPathOf env taskID scriptType) = some content ∨
      (UpdateScriptFile env w taskID taskName scriptType content oldScriptPath).2.files.lookup
        (fullPathOf env taskID scriptType) = none ∨
      (UpdateScriptFile env w taskID taskName scriptType content oldScriptPath).2.files.lookup
        (fullPathOf env taskID scriptType) = w.files.lookup (fullPathOf env taskID scriptType)) ∧
    (env.mkdirAllFails (env.filepathJoin env.dataDir scriptType) = false →
      env.writeFileFails (fullPathOf env taskID scriptType) = false →
      getScriptExtension scriptType ≠ [] →
      (UpdateScriptFile env w taskID taskName scriptType content oldScriptPath).2.files.lookup
        (fullPathOf env taskID scriptType) = some content) := by
  have hU : (UpdateScriptFile env w taskID taskName scriptType content oldScriptPath).2 =
      (writeScriptFile env
        (if oldScriptPath ≠ [] then (DeleteScriptFile env w oldScriptPath).2 else w)
        taskID scriptType content).2 := by
    unfold UpdateScriptFile
    simp only [hHeader, if_true]
    unfold CreateScriptFileWithContent
    rw [if_neg hKind]
  rw [hU]
  generalize hw1 : (if oldScriptPath ≠ [] then (DeleteScriptFile env w oldScriptPath).2 else w)
    = w1
  have hdel : w1.files.lookup (fullPathOf env taskID scriptType) = none ∨
      w1.files.lookup (fullPathOf env taskID scriptType) =
        w.files.lookup (fullPathOf env taskID scriptType) := by
    by_cases hp : oldScriptPath = []
    · rw [if_neg (by simpa using hp)] at hw1
      rw [← hw1]
      exact Or.inr rfl
    · rw [if_pos hp] at hw1
      rw [← hw1]
      rcases DeleteScriptFile_files env w oldScriptPath with h | h
      · rw [h]
        exact Or.inr rfl
      · rw [h]
        rcases hOld with h0 | h0
        · exact absurd h0 hp
        · rw [h0]
          exact Or.inl (lookup_filter_self _ _)
  rcases writeScriptFile_files env w1 taskID scriptType content with h | ⟨h, hm, he, hw⟩
  · refine ⟨?_, ?_⟩
    · rw [h]
      rcases hdel with h1 | h1
      · exact Or.inr (Or.inl h1)
      · exact Or.inr (Or.inr h1)
    · intro hm hw he
      rcases writeScriptFile_files env w1 taskID scriptType content with h2 | ⟨h2, _⟩
      · have hres := writeScriptFile_result env w1 taskID scriptType content
        rw [hm, hw] at hres
        simp only [Bool.false_eq_true, if_false, he] at hres
        generalize hr : writeScriptFile env w1 taskID scriptType content = r at hres
        obtain ⟨a, w2⟩ := r
        simp only at hres
        subst hres
        obtain ⟨_, _, _, hf, _⟩ := writeScriptFile_ok env w1 taskID scriptType content _ _ w2 hr
        show w2.files.lookup (fullPathOf env taskID scriptType) = some content
        rw [hf]
        exact lookup_cons_self _ _ _
      · rw [h2]
        exact lookup_cons_self _ _ _
  · refine ⟨Or.inl ?_, fun _ _ _ => ?_⟩ <;>
    · rw [h]
      exact lookup_cons_self _ _ _

theorem readBackUpdate_step (env : Env) (taskID : Nat) (anyName scriptType content : Str)
    (w : World) (hKind : scriptType ≠ "command".toList)
    (hJoin : scriptPathOf env taskID scriptType ≠ [])
    (hHeader : hasScriptHeader content = true) :
    ((w.files.lookup (fullPathOf env taskID scriptType) = some content ∨
        w.files.lookup (fullPathOf env taskID scriptType) = none) →
      ((readBackUpdate env taskID anyName scriptType w).files.lookup
          (fullPathOf env taskID scriptType) = some content ∨
        (readBackUpdate env taskID anyName scriptType w).files.lookup
          (fullPathOf env taskID scriptType) = none)) ∧
    (env.readFileFails (fullPathOf env taskID scriptType) = false →
      env.mkdirAllFails (env.filepathJoin env.dataDir scriptType) = false →
      env.writeFileFails (fullPathOf env taskID scriptType) = false →
      getScriptExtension scriptType ≠ [] →
      w.files.lookup (fullPathOf env taskID scriptType) = some content →
      (readBackUpdate env taskID anyName scriptType w).files.lookup
        (fullPathOf env taskID scriptType) = some content) := by
  have hstep : readBackUpdate env taskID anyName scriptType w =
      match (if env.readFileFails (fullPathOf env taskID scriptType) then none
             else w.files.lookup (fullPathOf env taskID scriptType)) with
      | none => w
      | some c => (UpdateScriptFile env w taskID anyName scriptType c
          (scriptPathOf env taskID scriptType)).2 := by
    unfold readBackUpdate GetScriptContent ReadFile
    rw [if_neg hJoin]
    show (match (match (if env.readFileFails (fullPathOf env taskID scriptType) = true then none
             else w.files.lookup (fullPathOf env taskID scriptType)) with
            | none => Except.error Err.readFile
            | some c => Except.ok c) with
          | .error _ => w
          | .ok c => (UpdateScriptFile env w taskID anyName scriptType c
              (scriptPathOf env taskID scriptType)).2) = _
    cases env.readFileFails (fullPathOf env taskID scriptType)
    · cases w.files.lookup (fullPathOf env taskID scriptType) <;> rfl
    · rfl
  rw [hstep]
  have hU := UpdateScriptFile_header_files env w taskID anyName scriptType content
    (scriptPathOf env taskID scriptType) hKind hHeader (Or.inr rfl)
  refine ⟨?_, ?_⟩
  · intro hinv
    cases hrf : env.readFileFails (fullPathOf env taskID scriptType)
    · rcases hinv with h | h
      · simp only [h, Bool.false_eq_true, if_false]
        rcases hU.1 with h1 | h1 | h1
        · exact Or.inl h1
        · exact Or.inr h1
        · exact Or.inl (h1.trans h)
      · simp only [h, Bool.false_eq_true, if_false]
        exact Or.inr trivial
    · simp only [if_true]
      exact hinv
  · intro hrf hm hw he h
    simp only [hrf, h, Bool.false_eq_true, if_false]
    exact hU.2 hm hw he

/-- C25: for the kinds shell and python, and a `filepath.Join` that gives the
script a non-empty path, the content that `generateScriptContent` produces is
recognised by `hasScriptHeader`, whatever the task id, the task name and the
user content; so a successful `UpdateScriptFile` with that content writes it
back byte for byte, and after any number of read-back / update cycles the
script file holds the same content (always, when no file system call fails) or,
after a failed write, no content at all: it never grows.  Two toggles of the
sample shell task leave its script as it was generated. -/
theorem generated_script_is_fixed_point (env : Env) (taskID : Nat)
    (taskName scriptType userContent : Str)
    (hKind : scriptType = "shell".toList ∨ scriptType = "python".toList)
    (hJoin : scriptPathOf env taskID scriptType ≠ []) :
    hasScriptHeader (generateScriptContent env taskID taskName scriptType userContent) = true ∧
    (∀ (w : World) (anyName oldScriptPath p c : Str) (w1 : World),
      UpdateScriptFile env w taskID anyName scriptType
          (generateScriptContent env taskID taskName scriptType userContent) oldScriptPath =
        (.ok (p, c), w1) →
      w1.files.lookup (fullPathOf env taskID scriptType) =
        some (generateScriptContent env taskID taskName scriptType userContent)) ∧
    (∀ (w : World) (anyName : Str) (n : Nat),
      w.files.lookup (fullPathOf env taskID scriptType) =
        some (generateScriptContent env taskID taskName scriptType userContent) →
      ((Nat.iterate (readBackUpdate env taskID anyName scriptType) n w).files.lookup
            (fullPathOf env taskID scriptType) =
          some (generateScriptContent env taskID taskName scriptType userContent) ∨
        (Nat.iterate (readBackUpdate env taskID anyName scriptType) n w).files.lookup
            (fullPathOf env taskID scriptType) = none) ∧
      (env.readFileFails (fullPathOf env taskID scriptType) = false →
        env.mkdirAllFails (env.filepathJoin env.dataDir scriptType) = false →
        env.writeFileFails (fullPathOf env taskID scriptType) = false →
        (Nat.iterate (readBackUpdate env taskID anyName scriptType) n w).files.lookup
            (fullPathOf env taskID scriptType) =
          some (generateScriptContent env taskID taskName scriptType userContent))) ∧
    (ToggleTask sampleEnv (ToggleTask sampleEnv worldWithJob 1).2 1).2.files =
      [("data/shell/task_1.sh".toList, jobScript)] := by
  have hH := hasScriptHeader_generated env taskID taskName scriptType userContent hKind
  have hne : scriptType ≠ "command".toList := by
    rcases hKind with hk | hk <;> rw [hk] <;> decide
  have hext : getScriptExtension scriptType ≠ [] := by
    rcases hKind with hk | hk <;> rw [hk] <;> decide
  generalize generateScriptContent env taskID taskName scriptType userContent = gen at hH ⊢
  refine ⟨hH, ?_, ?_, by decide⟩
  · intro w anyName oldScriptPath p c w1 h
    obtain ⟨_, _, _, _, h5⟩ := UpdateScriptFile_ok env w taskID anyName scriptType gen
      oldScriptPath p c w1 h
    obtain ⟨_, _, _, hf⟩ := h5 hne
    rw [hf, if_pos hH]
  · intro w anyName n h0
    have key1 : ∀ (n : Nat) (w : World),
        (w.files.lookup (fullPathOf env taskID scriptType) = some gen ∨
          w.files.lookup (fullPathOf env taskID scriptType) = none) →
        ((Nat.iterate (readBackUpdate env taskID anyName scriptType) n w).files.lookup
            (fullPathOf env taskID scriptType) = some gen ∨
          (Nat.iterate (readBackUpdate env taskID anyName scriptType) n w).files.lookup
            (fullPathOf env taskID scriptType) = none) := by
      intro n
      induction n with
      | zero => intro w h; exact h
      | succ n ih =>
        intro w h
        exact ih _ ((readBackUpdate_step env taskID anyName scriptType gen w hne hJoin hH).1 h)
    refine ⟨key1 n w (Or.inl h0), ?_⟩
    intro hrf hm hw
    have key2 : ∀ (n : Nat) (w : World),
        w.files.lookup (fullPathOf env taskID scriptType) = some gen →
        (Nat.iterate (readBackUpdate env taskID anyName scriptType) n w).files.lookup
          (fullPathOf env taskID scriptType) = some gen := by
      intro n
      induction n with
      | zero => intro w h; exact h
      | succ n ih =>
        intro w h
        exact ih _
          ((readBackUpdate_step env taskID anyName scriptType gen w hne hJoin hH).2
            hrf hm hw hext h)
    exact key2 n w h0

theorem generated_script_is_fixed_point_witness :
    (Nat.iterate (readBackUpdate sampleEnv 1 "job".toList "shell".toList) 3
        worldWithJob).files.lookup "data/shell/task_1.sh".toList =
      some jobScript :=
  ((generated_script_is_fixed_point sampleEnv 1 "job".toList "shell".toList "echo hi".toList
      (Or.inl rfl) (by decide)).2.2.1 worldWithJob "job".toList 3 (by decide)).2
    (by decide) (by decide) (by decide)

/-! ## Toggling a task whose generated script does not pass validation -/

theorem len_append (a b : Str) : len (a ++ b) = len a + len b := by
  induction a with
  | nil => simp [len]
  | cons c cs ih =>
    show c.utf8Size + len (cs ++ b) = c.utf8Size + len cs + len b
    rw [ih]
    omega

theorem ValidateScriptContent_cases (scriptType s : Str) (hne : ∃ c ∈ s, isSpace c = false) :
    (len s ≤ 1048576 → Contains s "../".toList = false →
      ValidateScriptContent scriptType s = none) ∧
    (1048576 < len s → ValidateScriptContent scriptType s = some .scriptTooLarge) := by
  have h1 : TrimSpace s ≠ [] := by
    rw [Ne, TrimSpace_eq_nil_iff]
    obtain ⟨c, hc, hsp⟩ := hne
    intro hall
    rw [hall c hc] at hsp
    cases hsp
  unfold ValidateScriptContent
  rw [if_neg h1]
  refine ⟨?_, ?_⟩
  · intro hlen hc
    rw [if_neg (by omega), hc]
    rfl
  · intro hlen
    rw [if_pos (by omega)]

theorem toDigits_one : Nat.toDigits 10 1 = ['1'] := by decide

theorem CreateTaskFull_sample_shell (name c : Str)
    (hv : ValidateScriptContent "shell".toList c = none) :
    CreateTaskFull sampleEnv emptyWorld name c "shell".toList "* * * * *".toList
        "cron".toList none true = (.ok (shellRow name), shellWorld name c) := by
  have hn : normalizeCronSpec ['*', ' ', '*', ' ', '*', ' ', '*', ' ', '*'] =
      ['*', ' ', '*', ' ', '*', ' ', '*', ' ', '*'] := by decide
  unfold CreateTaskFull
  rw [hv]
  simp [validateExecuteAt, createTail, dbCreate, withColumnDefaults, sampleEnv, emptyWorld,
    CreateScriptFile, writeScriptFile, MkdirAll, WriteFile, getScriptExtension, persistCreated,
    dbSave, shellRow, shellWorld, generateExecCommand, generateScriptContent, toDigits_one,
    ScheduleTask, createJob, NewJob, HasPrefix, setCaptured, hn]

theorem ToggleTask_sample_shell (name c : Str) (e : Err)
    (hv : ValidateScriptContent "shell".toList
      (generateScriptContent sampleEnv 1 name "shell".toList c) = some e) :
    GetTaskByID sampleEnv (shellWorld name c) 1 = .ok (shellRow name) ∧
    GetTaskScriptContent sampleEnv (shellWorld name c) (shellRow name) =
      generateScriptContent sampleEnv 1 name "shell".toList c ∧
    ToggleTask sampleEnv (shellWorld name c) 1 =
      (.error (.invalidScriptContent e), shellWorld name c) := by
  have h1 : GetTaskByID sampleEnv (shellWorld name c) 1 = .ok (shellRow name) := rfl
  have h2 : GetTaskScriptContent sampleEnv (shellWorld name c) (shellRow name) =
      generateScriptContent sampleEnv 1 name "shell".toList c := rfl
  refine ⟨h1, h2, ?_⟩
  unfold ToggleTask
  rw [h1]
  simp only
  rw [h2]
  unfold UpdateTaskWithScript
  have h3 : (shellRow name).ScriptType = "shell".toList := rfl
  rw [h3, hv]

theorem bigContent_facts :
    len bigContent = 1048576 ∧ (∃ c ∈ bigContent, isSpace c = false) ∧
    Contains bigContent "../".toList = false := by
  have h1 : Char.utf8Size 'a' = 1 := by decide
  refine ⟨?_, ?_, ?_⟩
  · unfold bigContent
    rw [len_replicate, h1]
  · refine ⟨'a', ?_, by decide⟩
    unfold bigContent
    rw [List.mem_replicate]
    exact ⟨by norm_num, rfl⟩
  · cases hc : Contains bigContent "../".toList
    · rfl
    · rw [ Contains_iff_infix] at hc
      have hmem : '.' ∈ bigContent := hc.subset (by decide)
      unfold bigContent at hmem
      exact absurd (List.eq_of_mem_replicate hmem) (by decide)

/-- C26: there are tasks that Create accepts and `ToggleTask` then rejects,
because the file content it reads back, header included, does not pass
`ValidateScriptContent`.  The shell task named `../x` with the content
`echo hi` is created; its script holds `../` in the header line with the name,
and `ToggleTask` fails with the invalid-script-content error (unsafe path).  The
shell task `big` whose content is 1048576 bytes long is created; its script is
longer than the limit, and `ToggleTask` fails with the invalid-script-content
error (too large).  Both failed calls leave the world as it was. -/
theorem toggle_rejects_created_script :
    (ValidateScriptContent "shell".toList "echo hi".toList = none ∧
      Contains "../x".toList "../".toList = true ∧
      CreateTaskFull sampleEnv emptyWorld "../x".toList "echo hi".toList "shell".toList
          "* * * * *".toList "cron".toList none true =
        (.ok (shellRow "../x".toList), shellWorld "../x".toList "echo hi".toList) ∧
      GetTaskScriptContent sampleEnv (shellWorld "../x".toList "echo hi".toList)
          (shellRow "../x".toList) =
        "#!/bin/bash\n# B1Cron Task: ../x\n# Created: 2024-05-01 10:00:00\n# Task ID: 1\n\necho hi".toList ∧
      ValidateScriptContent "shell".toList
          (GetTaskScriptContent sampleEnv (shellWorld "../x".toList "echo hi".toList)
            (shellRow "../x".toList)) = some .scriptUnsafePath ∧
      ToggleTask sampleEnv (shellWorld "../x".toList "echo hi".toList) 1 =
        (.error (.invalidScriptContent .scriptUnsafePath),
          shellWorld "../x".toList "echo hi".toList)) ∧
    (len bigContent = 1048576 ∧
      ValidateScriptContent "shell".toList bigContent = none ∧
      CreateTaskFull sampleEnv emptyWorld "big".toList bigContent "shell".toList
          "* * * * *".toList "cron".toList none true =
        (.ok (shellRow "big".toList), shellWorld "big".toList bigContent) ∧
      GetTaskScriptContent sampleEnv (shellWorld "big".toList bigContent)
          (shellRow "big".toList) =
        shellHeader "big".toList "2024-05-01 10:00:00".toList 1 ++ bigContent ∧
      ValidateScriptContent "shell".toList
          (GetTaskScriptContent sampleEnv (shellWorld "big".toList bigContent)
            (shellRow "big".toList)) = some .scriptTooLarge ∧
      ToggleTask sampleEnv (shellWorld "big".toList bigContent) 1 =
        (.error (.invalidScriptContent .scriptTooLarge),
          shellWorld "big".toList bigContent)) := by
  have hv1 : ValidateScriptContent "shell".toList "echo hi".toList = none := by decide
  have hg1 : generateScriptContent sampleEnv 1 "../x".toList "shell".toList "echo hi".toList =
      "#!/bin/bash\n# B1Cron Task: ../x\n# Created: 2024-05-01 10:00:00\n# Task ID: 1\n\necho hi".toList := by
    decide
  have hb1 : ValidateScriptContent "shell".toList
      (generateScriptContent sampleEnv 1 "../x".toList "shell".toList "echo hi".toList) =
        some .scriptUnsafePath := by
    rw [hg1]
    decide
  obtain ⟨_, t2, t3⟩ := ToggleTask_sample_shell "../x".toList "echo hi".toList _ hb1
  obtain ⟨hlen, hns, hct⟩ := bigContent_facts
  have hv2 : ValidateScriptContent "shell".toList bigContent = none :=
    (ValidateScriptContent_cases _ _ hns).1 (by omega) hct
  have hg2 : generateScriptContent sampleEnv 1 "big".toList "shell".toList bigContent =
      shellHeader "big".toList "2024-05-01 10:00:00".toList 1 ++ bigContent :=
    generateScriptContent_shell sampleEnv 1 "big".toList bigContent
  have hb2 : ValidateScriptContent "shell".toList
      (generateScriptContent sampleEnv 1 "big".toList "shell".toList bigContent) =
        some .scriptTooLarge := by
    rw [hg2]
    refine (ValidateScriptContent_cases _ _ ?_).2 ?_
    · exact ⟨'#', List.mem_append_left _ (by decide), by decide⟩
    · rw [len_append, hlen]
      have hpos : 0 < len (shellHeader "big".toList "2024-05-01 10:00:00".toList 1) := by
        decide
      omega
  obtain ⟨_, u2, u3⟩ := ToggleTask_sample_shell "big".toList bigContent _ hb2
  refine ⟨⟨hv1, by decide, CreateTaskFull_sample_shell _ _ hv1, ?_, ?_, t3⟩,
    ⟨hlen, hv2, CreateTaskFull_sample_shell _ _ hv2, ?_, ?_, u3⟩⟩
  · rw [t2, hg1]
  · rw [t2]
    exact hb1
  · rw [u2, hg2]
  · rw [u2]
    exact hb2

/-! ## Startup reload -/

theorem createJob_cases (env : Env) (task : Task) :
    (∃ d, env.gocronAccepts d = true ∧ ∀ w0, createJob env w0 task = NewJob env w0 d task) ∨
    (∀ w0, ∃ e, createJob env w0 task = (.error e, w0) ∨
      createJob env w0 task = (.error e, (dbUpdateIsEnabled env w0 task false).2)) := by
  have hNew : ∀ d, (∀ w0, createJob env w0 task = NewJob env w0 d task) →
      (∃ d, env.gocronAccepts d = true ∧ ∀ w0, createJob env w0 task = NewJob env w0 d task) ∨
      (∀ w0, ∃ e, createJob env w0 task = (.error e, w0) ∨
        createJob env w0 task = (.error e, (dbUpdateIsEnabled env w0 task false).2)) := by
    intro d hd
    cases hacc : env.gocronAccepts d
    · right
      intro w0
      refine ⟨.gocronNewJob, Or.inl ?_⟩
      rw [hd w0]
      unfold NewJob
      rw [hacc]
      rfl
    · left
      exact ⟨d, hacc, hd⟩
  by_cases hOnce : task.ScheduleType = "once".toList
  · cases hx : task.ExecuteAt with
    | none =>
      right
      intro w0
      refine ⟨.executeAtRequired, Or.inl ?_⟩
      unfold createJob
      rw [if_pos hOnce, hx]
    | some t =>
      by_cases hlt : t < env.nowSchedule
      · right
        intro w0
        refine ⟨.executionTimePassed, Or.inr ?_⟩
        unfold createJob
        rw [if_pos hOnce, hx]
        simp only [hlt, if_true]
      · apply hNew (.OneTimeJob t)
        intro w0
        unfold createJob
        rw [if_pos hOnce, hx]
        simp only [hlt, if_false]
  · by_cases hEvery : HasPrefix task.ScheduleSpec "@every".toList = true
    · cases hp : parseDuration env task.ScheduleSpec with
      | error e =>
        right
        intro w0
        refine ⟨e, Or.inl ?_⟩
        unfold createJob
        rw [if_neg hOnce, if_pos hEvery, hp]
      | ok duration =>
        apply hNew (.DurationJob duration)
        intro w0
        unfold createJob
        rw [if_neg hOnce, if_pos hEvery, hp]
    · apply hNew (.CronJob (normalizeCronSpec task.ScheduleSpec) false)
      intro w0
      unfold createJob
      rw [if_neg hOnce, if_neg hEvery]

theorem ScheduleTask_isOk_indep (env : Env) (task : Task) (w w0 : World)
    (h : ∃ id, (ScheduleTask env w task).1 = .ok id) :
    ∃ id, (ScheduleTask env w0 task).1 = .ok id := by
  obtain ⟨id, h⟩ := h
  rcases createJob_cases env task with ⟨d, hacc, hd⟩ | hfail
  · refine ⟨w0.nextJobID + 1, ?_⟩
    unfold ScheduleTask
    rw [hd w0]
    unfold NewJob
    rw [hacc]
    rfl
  · exfalso
    obtain ⟨e, he⟩ := hfail w
    unfold ScheduleTask at h
    rcases he with he | he <;>
    · rw [he] at h
      cases h

theorem map_setCaptured_old (jobs : List Job) (id : UUID) (task : Task)
    (h : ∀ j ∈ jobs, j.ID ≠ id) :
    jobs.map (fun j => if j.ID = id then { j with task := task } else j) = jobs := by
  induction jobs with
  | nil => rfl
  | cons a l ih =>
    rw [List.map_cons, if_neg (h a (List.mem_cons_self _ _)),
      ih (fun j hj => h j (List.mem_cons_of_mem _ hj))]

theorem loadExistingTask_step (env : Env) (w : World) (task : Task)
    (hJobs : ∀ j ∈ w.jobs, j.ID ≤ w.nextJobID) :
    (∀ r ∈ w.tasks, r.ID ≠ task.ID → r ∈ (loadExistingTask env w task).tasks) ∧
    ((∃ id, (ScheduleTask env w task).1 = .ok id) →
      (loadExistingTask env w task).nextJobID = w.nextJobID + 1 ∧
      (∃ d, (loadExistingTask env w task).jobs =
        w.jobs ++ [Job.mk (w.nextJobID + 1) d { task with GocronJobID := w.nextJobID + 1 }]) ∧
      (env.dbUpdateFails task.ID = false → task ∈ w.tasks →
        { task with GocronJobID := w.nextJobID + 1 } ∈ (loadExistingTask env w task).tasks)) ∧
    ((¬ ∃ id, (ScheduleTask env w task).1 = .ok id) →
      (loadExistingTask env w task).nextJobID = w.nextJobID ∧
      (loadExistingTask env w task).jobs = w.jobs) := by
  have hkeep : ∀ (f : Task → Task) (r : Task), r ∈ w.tasks → r.ID ≠ task.ID →
      r ∈ w.tasks.map (fun t => if t.ID = task.ID then f t else t) := by
    intro f r hr hne
    rw [List.mem_map]
    exact ⟨r, hr, by rw [if_neg hne]⟩
  rcases createJob_cases env task with ⟨d, hacc, hd⟩ | hfail
  · have hS : ScheduleTask env w task = (.ok (w.nextJobID + 1), (NewJob env w d task).2) := by
      unfold ScheduleTask
      rw [hd w]
      unfold NewJob
      rw [hacc]
      rfl
    have hL : loadExistingTask env w task =
        setCaptured (dbUpdateGocronJobID env (NewJob env w d task).2 task (w.nextJobID + 1)).2
          (w.nextJobID + 1) { task with GocronJobID := w.nextJobID + 1 } := by
      unfold loadExistingTask
      rw [hS]
    have hold : ∀ j ∈ w.jobs, j.ID ≠ w.nextJobID + 1 := by
      intro j hj
      have hle : j.ID ≤ w.nextJobID := hJobs j hj
      intro heq
      rw [heq] at hle
      exact Nat.not_succ_le_self _ hle
    have hjobs : (loadExistingTask env w task).jobs =
        w.jobs ++ [Job.mk (w.nextJobID + 1) d { task with GocronJobID := w.nextJobID + 1 }] := by
      rw [hL]
      unfold setCaptured dbUpdateGocronJobID NewJob
      rw [hacc]
      cases env.dbUpdateFails task.ID <;>
        simp [map_setCaptured_old _ _ _ hold]
    have hnext : (loadExistingTask env w task).nextJobID = w.nextJobID + 1 := by
      rw [hL]
      unfold setCaptured dbUpdateGocronJobID NewJob
      rw [hacc]
      cases env.dbUpdateFails task.ID <;> simp
    have htasks : (env.dbUpdateFails task.ID = true →
          (loadExistingTask env w task).tasks = w.tasks) ∧
        (env.dbUpdateFails task.ID = false → (loadExistingTask env w task).tasks =
          w.tasks.map (fun t => if t.ID = task.ID
            then { t with GocronJobID := w.nextJobID + 1 } else t)) := by
      rw [hL]
      unfold setCaptured dbUpdateGocronJobID NewJob
      rw [hacc]
      cases env.dbUpdateFails task.ID <;> simp
    refine ⟨?_, ?_, ?_⟩
    · intro r hr hne
      cases hu : env.dbUpdateFails task.ID
      · rw [htasks.2 hu]; exact hkeep _ r hr hne
      · rw [htasks.1 hu]; exact hr
    · intro _
      refine ⟨hnext, ⟨d, hjobs⟩, ?_⟩
      intro hu hmem
      rw [htasks.2 hu, List.mem_map]
      exact ⟨task, hmem, by rw [if_pos rfl]⟩
    · intro hno
      exact absurd ⟨_, by rw [hS]⟩ hno
  · obtain ⟨e, he⟩ := hfail w
    have hS : ∀ w1, createJob env w task = (.error e, w1) →
        ScheduleTask env w task = (.error (.createJob e), w1) ∧
        loadExistingTask env w task = w1 := by
      intro w1 h
      have h1 : ScheduleTask env w task = (.error (.createJob e), w1) := by
        unfold ScheduleTask
        rw [h]
      refine ⟨h1, ?_⟩
      unfold loadExistingTask
      rw [h1]
    have hd1 : (dbUpdateIsEnabled env w task false).2.jobs = w.jobs ∧
        (dbUpdateIsEnabled env w task false).2.nextJobID = w.nextJobID ∧
        ∀ r ∈ w.tasks, r.ID ≠ task.ID → r ∈ (dbUpdateIsEnabled env w task false).2.tasks := by
      unfold dbUpdateIsEnabled
      cases env.dbUpdateFails task.ID
      · refine ⟨rfl, rfl, ?_⟩
        intro r hr hne
        exact hkeep _ r hr hne
      · exact ⟨rfl, rfl, fun r hr _ => hr⟩
    rcases he with he | he
    · obtain ⟨h1, h2⟩ := hS _ he
      rw [h2]
      refine ⟨fun r hr _ => hr, ?_, fun _ => ⟨rfl, rfl⟩⟩
      rintro ⟨id, hid⟩
      rw [h1] at hid
      cases hid
    · obtain ⟨h1, h2⟩ := hS _ he
      rw [h2]
      refine ⟨hd1.2.2, ?_, fun _ => ⟨hd1.2.1, hd1.1⟩⟩
      rintro ⟨id, hid⟩
      rw [h1] at hid
      cases hid

theorem loadExistingTasks_loop (env : Env) (w0 : World) :
    ∀ (ts : List Task) (w : World), (∀ j ∈ w.jobs, j.ID ≤ w.nextJobID) →
      (ts.map (fun t => t.ID)).Nodup →
      w.nextJobID ≤ (ts.foldl (loadExistingTask env) w).nextJobID ∧
      (∀ j ∈ (ts.foldl (loadExistingTask env) w).jobs,
        j.ID ≤ (ts.foldl (loadExistingTask env) w).nextJobID) ∧
      (∃ new, (ts.foldl (loadExistingTask env) w).jobs = w.jobs ++ new ∧
        ∀ j ∈ new, w.nextJobID < j.ID ∧
          ∃ t ∈ ts, (∃ id, (ScheduleTask env w0 t).1 = .ok id) ∧
            j.task = { t with GocronJobID := j.ID }) ∧
      (∀ t ∈ ts, (∃ id, (ScheduleTask env w0 t).1 = .ok id) →
        ∃ j ∈ (ts.foldl (loadExistingTask env) w).jobs, w.nextJobID < j.ID ∧
          j.task = { t with GocronJobID := j.ID } ∧
          (env.dbUpdateFails t.ID = false → t ∈ w.tasks →
            { t with GocronJobID := j.ID } ∈ (ts.foldl (loadExistingTask env) w).tasks)) ∧
      (∀ r ∈ w.tasks, (∀ t ∈ ts, t.ID ≠ r.ID) →
        r ∈ (ts.foldl (loadExistingTask env) w).tasks) := by
  intro ts
  induction ts with
  | nil =>
    intro w hJobs _
    refine ⟨Nat.le_refl _, hJobs, ⟨[], by simp, ?_⟩, ?_, fun r hr _ => hr⟩
    · intro j hj
      cases hj
    · intro t ht
      cases ht
  | cons h rest ih =>
    intro w hJobs hnd
    rw [List.map_cons, List.nodup_cons] at hnd
    obtain ⟨hh, hnd'⟩ := hnd
    have hne : ∀ t ∈ rest, t.ID ≠ h.ID := by
      intro t ht heq
      apply hh
      rw [List.mem_map]
      exact ⟨t, ht, heq⟩
    obtain ⟨sA, sB, sC⟩ := loadExistingTask_step env w h hJobs
    rw [List.foldl_cons]
    generalize hw1 : loadExistingTask env w h = w1 at sA sB sC
    by_cases hacc : ∃ id, (ScheduleTask env w h).1 = .ok id
    · obtain ⟨hnext, ⟨d, hjobs⟩, hrow⟩ := sB hacc
      have hJobs1 : ∀ j ∈ w1.jobs, j.ID ≤ w1.nextJobID := by
        intro j hj
        rw [hjobs, List.mem_append] at hj
        rw [hnext]
        rcases hj with hj | hj
        · exact Nat.le_succ_of_le (hJobs j hj)
        · rw [List.mem_singleton] at hj
          rw [hj]
      obtain ⟨i1, i2, ⟨new, i3, i4⟩, i5, i6⟩ := ih w1 hJobs1 hnd'
      have hlt : w.nextJobID < w1.nextJobID := by
        rw [hnext]
        exact Nat.lt_succ_self _
      refine ⟨Nat.le_trans (Nat.le_of_lt hlt) i1, i2, ?_, ?_, ?_⟩
      · refine ⟨Job.mk (w.nextJobID + 1) d { h with GocronJobID := w.nextJobID + 1 } :: new,
          ?_, ?_⟩
        · rw [i3, hjobs]
          simp
        · intro j hj
          rw [List.mem_cons] at hj
          rcases hj with hj | hj
          · rw [hj]
            exact ⟨Nat.lt_succ_self _, h, List.mem_cons_self _ _,
              ScheduleTask_isOk_indep env h w w0 hacc, rfl⟩
          · obtain ⟨j1, t, ht, j2, j3⟩ := i4 j hj
            exact ⟨Nat.lt_trans hlt j1, t, List.mem_cons_of_mem _ ht, j2, j3⟩
      · intro t ht hok
        rw [List.mem_cons] at ht
        rcases ht with ht | ht
        · subst ht
          refine ⟨Job.mk (w.nextJobID + 1) d { t with GocronJobID := w.nextJobID + 1 }, ?_,
            Nat.lt_succ_self _, rfl, ?_⟩
          · rw [i3, hjobs]
            simp
          · intro hu hmem
            exact i6 _ (hrow hu hmem) hne
        · obtain ⟨j, j1, j2, j3, j4⟩ := i5 t ht hok
          refine ⟨j, j1, Nat.lt_trans hlt j2, j3, ?_⟩
          intro hu hmem
          exact j4 hu (sA t hmem (hne t ht))
      · intro r hr hall
        exact i6 r (sA r hr (fun heq => hall h (List.mem_cons_self _ _) heq.symm))
          (fun t ht => hall t (List.mem_cons_of_mem _ ht))
    · obtain ⟨hnext, hjobs⟩ := sC hacc
      have hJobs1 : ∀ j ∈ w1.jobs, j.ID ≤ w1.nextJobID := by
        rw [hjobs, hnext]
        exact hJobs
      obtain ⟨i1, i2, ⟨new, i3, i4⟩, i5, i6⟩ := ih w1 hJobs1 hnd'
      rw [hnext] at i1 i4 i5
      rw [hjobs] at i3
      refine ⟨i1, i2, ⟨new, i3, ?_⟩, ?_, ?_⟩
      · intro j hj
        obtain ⟨j1, t, ht, j2, j3⟩ := i4 j hj
        exact ⟨j1, t, List.mem_cons_of_mem _ ht, j2, j3⟩
      · intro t ht hok
        rw [List.mem_cons] at ht
        rcases ht with ht | ht
        · subst ht
          exact absurd (ScheduleTask_isOk_indep env t w0 w hok) hacc
        · obtain ⟨j, j1, j2, j3, j4⟩ := i5 t ht hok
          refine ⟨j, j1, j2, j3, ?_⟩
          intro hu hmem
          exact j4 hu (sA t hmem (hne t ht))
      · intro r hr hall
        exact i6 r (sA r hr (fun heq => hall h (List.mem_cons_self _ _) heq.symm))
          (fun t ht => hall t (List.mem_cons_of_mem _ ht))

/-- C22, as stated, fails when the write of the new handle fails, which
`loadExistingTasks` only logs: with every `Update` failing, the reload of
`reloadWorld` returns no error and registers triggers 1 and 2 for the tasks 1
and 4, but every row keeps the handle it had. -/
theorem reload_handle_write_can_fail :
    (loadExistingTasks updateFailsEnv reloadWorld).1 = none ∧
    (loadExistingTasks updateFailsEnv reloadWorld).2.jobs.map (fun j => (j.ID, j.task.ID)) =
      [(1, 1), (2, 4)] ∧
    (loadExistingTasks updateFailsEnv reloadWorld).2.tasks.map
        (fun t => (t.ID, t.GocronJobID)) = [(1, 0), (2, 0), (3, 0), (4, 0)] := by
  decide

/-- C22, amended: the reload returns an error exactly when listing the enabled
tasks fails, and then changes nothing.  Otherwise it returns no error,
whatever happens to the single registrations and to the writes of the handles.
In a store with unique task ids and a scheduler whose trigger ids are not
issued again, the triggers it adds are exactly those of the enabled rows that
`ScheduleTask` accepts: each new trigger belongs to such a row, each such row
gets a trigger, a row whose registration fails and a disabled row get none,
and the disabled rows are as before.  Provided the write of its handle
succeeds, a row that got a trigger is stored with the handle of that
trigger. -/
theorem loadExistingTasks_reload (env : Env) (w : World) :
    ((loadExistingTasks env w).1 ≠ none ↔ env.dbFindFails = true) ∧
    (env.dbFindFails = true → loadExistingTasks env w = (some .findTasks, w)) ∧
    (env.dbFindFails = false → (loadExistingTasks env w).1 = none) ∧
    (env.dbFindFails = false → (w.tasks.map (fun t => t.ID)).Nodup →
      (∀ j ∈ w.jobs, j.ID ≤ w.nextJobID) →
      (∃ new, (loadExistingTasks env w).2.jobs = w.jobs ++ new ∧
        ∀ j ∈ new, w.nextJobID < j.ID ∧
          ∃ t ∈ w.tasks, t.IsEnabled = true ∧ (∃ id, (ScheduleTask env w t).1 = .ok id) ∧
            j.task = { t with GocronJobID := j.ID }) ∧
      (∀ t ∈ w.tasks, t.IsEnabled = true → (∃ id, (ScheduleTask env w t).1 = .ok id) →
        ∃ j ∈ (loadExistingTasks env w).2.jobs, w.nextJobID < j.ID ∧
          j.task = { t with GocronJobID := j.ID } ∧
          (env.dbUpdateFails t.ID = false →
            { t with GocronJobID := j.ID } ∈ (loadExistingTasks env w).2.tasks)) ∧
      (∀ t ∈ w.tasks, t.IsEnabled = false →
        t ∈ (loadExistingTasks env w).2.tasks ∧
        ∀ j ∈ (loadExistingTasks env w).2.jobs, w.nextJobID < j.ID → j.task.ID ≠ t.ID) ∧
      (∀ t ∈ w.tasks, (¬ ∃ id, (ScheduleTask env w t).1 = .ok id) →
        ∀ j ∈ (loadExistingTasks env w).2.jobs, w.nextJobID < j.ID → j.task.ID ≠ t.ID)) := by
  cases hfind : env.dbFindFails
  · have hL : loadExistingTasks env w =
        (none, (w.tasks.filter (fun t => t.IsEnabled)).foldl (loadExistingTask env) w) := by
      unfold loadExistingTasks dbFindEnabled
      rw [hfind]
      rfl
    rw [hL]
    refine ⟨by simp, (fun h => by cases h), fun _ => rfl, fun _ hIDs hJobs => ?_⟩
    have hsub : ((w.tasks.filter (fun t => t.IsEnabled)).map (fun t => t.ID)).Nodup :=
      List.Nodup.sublist (List.Sublist.map _ (List.filter_sublist _)) hIDs
    obtain ⟨_, _, ⟨new, l3, l4⟩, l5, l6⟩ :=
      loadExistingTasks_loop env w (w.tasks.filter (fun t => t.IsEnabled)) w hJobs hsub
    have hnew : ∀ j ∈ w.jobs ++ new, w.nextJobID < j.ID → j ∈ new := by
      intro j hj hlt
      rw [List.mem_append] at hj
      rcases hj with hj | hj
      · exact absurd (hJobs j hj) (Nat.not_le_of_lt hlt)
      · exact hj
    have huniq : ∀ a ∈ w.tasks, ∀ b ∈ w.tasks, a.ID = b.ID → a = b :=
      fun a ha b hb h => List.inj_on_of_nodup_map hIDs ha hb h
    refine ⟨⟨new, l3, ?_⟩, ?_, ?_, ?_⟩
    · intro j hj
      obtain ⟨j1, t, ht, j2, j3⟩ := l4 j hj
      rw [List.mem_filter] at ht
      exact ⟨j1, t, ht.1, ht.2, j2, j3⟩
    · intro t ht hen hok
      obtain ⟨j, j1, j2, j3, j4⟩ := l5 t (List.mem_filter.mpr ⟨ht, hen⟩) hok
      exact ⟨j, j1, j2, j3, fun hUpd => j4 hUpd ht⟩
    · intro t ht hdis
      refine ⟨l6 t ht ?_, ?_⟩
      · intro t2 ht2 heq
        rw [List.mem_filter] at ht2
        have := huniq t2 ht2.1 t ht heq
        rw [this, hdis] at ht2
        exact absurd ht2.2 (by decide)
      · intro j hj hlt heq
        simp only at hj
        rw [l3] at hj
        obtain ⟨_, t2, ht2, _, j3⟩ := l4 j (hnew j hj hlt)
        rw [List.mem_filter] at ht2
        rw [j3] at heq
        have := huniq t2 ht2.1 t ht heq
        rw [this, hdis] at ht2
        exact absurd ht2.2 (by decide)
    · intro t ht hno j hj hlt heq
      simp only at hj
      rw [l3] at hj
      obtain ⟨_, t2, ht2, j2, j3⟩ := l4 j (hnew j hj hlt)
      rw [List.mem_filter] at ht2
      rw [j3] at heq
      have := huniq t2 ht2.1 t ht heq
      rw [this] at j2
      exact hno j2
  · have hL : loadExistingTasks env w = (some .findTasks, w) := by
      unfold loadExistingTasks dbFindEnabled
      rw [hfind]
      rfl
    rw [hL]
    exact ⟨by simp, fun _ => rfl, (fun h => by cases h), (fun h => by cases h)⟩

theorem loadExistingTasks_reload_witness :
    sampleEnv.dbFindFails = false ∧
    (loadExistingTasks sampleEnv reloadWorld).1 = none ∧
    (loadExistingTasks updateFailsEnv reloadWorld).1 = none ∧
    (reloadWorld.tasks.map (fun t => t.ID)).Nodup ∧
    (∀ j ∈ reloadWorld.jobs, j.ID ≤ reloadWorld.nextJobID) ∧
    (∃ new, (loadExistingTasks updateFailsEnv reloadWorld).2.jobs = reloadWorld.jobs ++ new ∧
      ∀ j ∈ new, reloadWorld.nextJobID < j.ID ∧
        ∃ t ∈ reloadWorld.tasks, t.IsEnabled = true ∧
          (∃ id, (ScheduleTask updateFailsEnv reloadWorld t).1 = .ok id) ∧
          j.task = { t with GocronJobID := j.ID }) ∧
    (loadExistingTasks sampleEnv reloadWorld).2.jobs.map (fun j => (j.ID, j.task.ID)) =
      [(1, 1), (2, 4)] ∧
    (loadExistingTasks sampleEnv reloadWorld).2.tasks.map
        (fun t => (t.ID, t.IsEnabled, t.GocronJobID)) =
      [(1, true, 1), (2, true, 0), (3, false, 0), (4, true, 2)] :=
  ⟨rfl,
   (loadExistingTasks_reload sampleEnv reloadWorld).2.2.1 rfl,
   (loadExistingTasks_reload updateFailsEnv reloadWorld).2.2.1 rfl,
   by decide, by decide,
   ((loadExistingTasks_reload updateFailsEnv reloadWorld).2.2.2 rfl (by decide)
      (by decide)).1,
   by decide, by decide⟩

end B1cron
